import Mathlib

/-!
Verification of the HTML-as-data-store round-trip subsystem of the
cv_craft repository (Streamlit CV generator).

The Python source is shallowly embedded over `List Char`:

* Python strings become `List Char` (`Str`); `str.find`, `str.replace`,
  `str.lower`, `str.strip`, `in`, slices and `startswith` become the
  executable functions `strFind`, `replaceAll`, `pyLower`, `pyStrip`,
  `pyContains`, `pySlice`, `List.isPrefixOf` below.
* The small fixed set of regular expressions used by the source
  (`re.search` / `re.findall` / `re.finditer` / `re.sub` over patterns such
  as `<article[^>]*class\s*=\s*["']entry["'][^>]*>(.*?)</article>`) is
  embedded by direct scanning functions implementing the leftmost-match,
  non-greedy and bump-along semantics of those concrete patterns.
* `while` loops become fuel-indexed recursions; the fuel supplied at every
  call site is provably sufficient, so the embeddings are total, which also
  captures the "never raises" claims.
* Characters are compared as code points; `str.lower` is modelled on the
  ASCII range (every input the program manipulates is ASCII markup).
-/

set_option maxRecDepth 100000

namespace CvCraft

/-- Python strings, embedded as lists of characters. -/
abbrev Str := List Char

/-- `str.lower()` (ASCII model, character-wise). -/
def pyLower (s : Str) : Str := s.map Char.toLower

/-- Python whitespace (the characters matched by `\s` / stripped by `str.strip`,
ASCII model): space, tab, newline, carriage return, vertical tab, form feed. -/
def isPySpace (c : Char) : Bool :=
  c = ' ' || c = '\t' || c = '\n' || c = '\r' || c = '\x0b' || c = '\x0c'

/-- Drop leading Python whitespace. -/
def pyStripLeft : Str → Str
  | [] => []
  | c :: t => if isPySpace c then pyStripLeft t else c :: t

/-- `str.strip()`: drop leading and trailing whitespace. -/
def pyStrip (s : Str) : Str :=
  pyStripLeft ((pyStripLeft s.reverse).reverse)

/-- Python slice `s[a:b]` (for `a ≤ b`; clamps like Python). -/
def pySlice (s : Str) (a b : Nat) : Str := (s.drop a).take (b - a)

/-- First index at which `pat` occurs in `s` (`str.find` without a start
argument; `none` for Python's `-1`).  The empty pattern matches at 0, as in
Python. -/
def strFind : Str → Str → Option Nat
  | [], pat => if pat.isPrefixOf ([] : Str) then some 0 else none
  | c :: t, pat =>
    if pat.isPrefixOf (c :: t) then some 0
    else (strFind t pat).map (fun n => n + 1)

theorem strFind_cons (c : Char) (t pat : Str) :
    strFind (c :: t) pat =
      if pat.isPrefixOf (c :: t) = true then some 0
      else (strFind t pat).map (fun n => n + 1) := rfl

/-- `s.find(pat, start)` for a nonempty `pat` (every caller in the source
passes a nonempty literal). -/
def pyFindFrom (s pat : Str) (start : Nat) : Option Nat :=
  (strFind (s.drop start) pat).map (fun n => n + start)

/-- `pat in s` (Python substring test). -/
def pyContains (s pat : Str) : Bool := (strFind s pat).isSome

/-- `pat` occurs in `s` at index `i`. -/
def OccursAt (pat s : Str) (i : Nat) : Prop := pat <+: s.drop i

theorem occursAt_iff (pat s : Str) (i : Nat) :
    OccursAt pat s i ↔ pat <+: s.drop i := Iff.rfl

instance (pat s : Str) (i : Nat) : Decidable (OccursAt pat s i) := by
  unfold OccursAt; infer_instance

theorem occursAt_succ (pat t : Str) (c : Char) (i : Nat) :
    OccursAt pat (c :: t) (i + 1) ↔ OccursAt pat t i := by
  simp [OccursAt]

theorem strFind_some (s pat : Str) (i : Nat) (h : strFind s pat = some i) :
    OccursAt pat s i := by
  induction s generalizing i with
  | nil =>
    unfold strFind at h
    split at h
    next hp =>
      cases h
      simpa [OccursAt, List.isPrefixOf_iff_prefix] using hp
    next => cases h
  | cons c t ih =>
    unfold strFind at h
    split at h
    next hp =>
      cases h
      simpa [OccursAt, List.isPrefixOf_iff_prefix] using hp
    next =>
      rw [Option.map_eq_some'] at h
      obtain ⟨j, hj, rfl⟩ := h
      simpa [occursAt_succ] using ih j hj

theorem strFind_min (s pat : Str) (i : Nat) (h : strFind s pat = some i) :
    ∀ j, j < i → ¬ OccursAt pat s j := by
  induction s generalizing i with
  | nil =>
    unfold strFind at h
    split at h
    next => cases h; exact fun j hj => absurd hj (by omega)
    next => cases h
  | cons c t ih =>
    unfold strFind at h
    split at h
    next => cases h; exact fun j hj => absurd hj (by omega)
    next hp =>
      rw [Option.map_eq_some'] at h
      obtain ⟨k, hk, rfl⟩ := h
      intro j hj
      cases j with
      | zero =>
        intro hocc
        exact hp (by simpa [OccursAt, List.isPrefixOf_iff_prefix] using hocc)
      | succ j' =>
        have := ih k hk j' (by omega)
        simpa [occursAt_succ] using this

theorem strFind_none (s pat : Str) (h : strFind s pat = none) :
    ∀ i, ¬ OccursAt pat s i := by
  induction s with
  | nil =>
    unfold strFind at h
    split at h
    next => cases h
    next hp =>
      intro i hocc
      have hnil : pat = [] := List.prefix_nil.mp (by simpa [OccursAt] using hocc)
      subst hnil
      simp [List.isPrefixOf] at hp
  | cons c t ih =>
    unfold strFind at h
    split at h
    next => cases h
    next hp =>
      rw [Option.map_eq_none'] at h
      intro i hocc
      cases i with
      | zero => exact hp (by simpa [OccursAt, List.isPrefixOf_iff_prefix] using hocc)
      | succ i' => exact ih h i' (by simpa [occursAt_succ] using hocc)

theorem occursAt_length (pat s : Str) (i : Nat) (h : OccursAt pat s i) :
    i + pat.length ≤ s.length ∨ pat = [] := by
  rcases pat with _ | ⟨c, t⟩
  · right; rfl
  · left
    have h' : (c :: t) <+: s.drop i := h
    have hl := h'.length_le
    rw [List.length_drop] at hl
    by_cases hc : i < s.length
    · simp only [List.length_cons] at hl ⊢
      omega
    · exfalso
      have h0 : s.drop i = [] := List.drop_eq_nil_of_le (by omega)
      rw [h0] at h'
      have := List.prefix_nil.mp h'
      simp at this

theorem strFind_some_length (s pat : Str) (i : Nat) (hne : pat ≠ [])
    (h : strFind s pat = some i) : i + pat.length ≤ s.length := by
  rcases occursAt_length pat s i (strFind_some s pat i h) with h' | h'
  · exact h'
  · exact absurd h' hne

/-- If `pat` occurs somewhere, `strFind` finds the least occurrence. -/
theorem strFind_of_occurs (s pat : Str) (i : Nat) (h : OccursAt pat s i) :
    ∃ j, strFind s pat = some j ∧ j ≤ i := by
  cases hf : strFind s pat with
  | none => exact absurd h (strFind_none s pat hf i)
  | some j =>
    refine ⟨j, rfl, ?_⟩
    by_contra hc
    exact strFind_min s pat j hf i (by omega) h

theorem strFind_of_isPrefixOf (s pat : Str) (h : pat.isPrefixOf s = true) :
    strFind s pat = some 0 := by
  cases s with
  | nil => simp [strFind, h]
  | cons c t => simp [strFind, h]

/-- Skip a match-free left part: if `pat` does not occur at any index
inside `a` (including straddling occurrences into `b`), searching `a ++ b`
is searching `b`, shifted. -/
theorem strFind_append (a b pat : Str)
    (h : ∀ i, i < a.length → ¬ OccursAt pat (a ++ b) i) :
    strFind (a ++ b) pat = (strFind b pat).map (fun n => n + a.length) := by
  induction a with
  | nil => simp [Option.map_id']
  | cons c t ih =>
    have h0 : ¬ pat.isPrefixOf (c :: (t ++ b)) = true := by
      intro hp
      exact h 0 (by simp) (by simpa [OccursAt, List.isPrefixOf_iff_prefix] using hp)
    have hrec := ih (fun i hi => by
      have := h (i + 1) (by simp; omega)
      simpa [occursAt_succ] using this)
    show strFind (c :: (t ++ b)) pat = _
    rw [strFind_cons, if_neg h0, hrec]
    cases strFind b pat with
    | none => rfl
    | some j =>
      simp only [Option.map_some', Option.some.injEq, List.length_cons]
      omega

/-- A left part is occurrence-free as soon as every potential start inside it
fails already on the overlap with the left part itself.  For a concrete `a`
this hypothesis is decidable, independently of `b`. -/
theorem no_occ_of_overlap (a b pat : Str)
    (h : ∀ i, i < a.length → ¬ (pat.take (a.length - i)) <+: a.drop i) :
    ∀ i, i < a.length → ¬ OccursAt pat (a ++ b) i := by
  intro i hi hocc
  apply h i hi
  have h' : pat <+: (a.drop i ++ b) := by
    have hdrop : (a ++ b).drop i = a.drop i ++ b :=
      List.drop_append_of_le_length (by omega)
    rw [OccursAt, hdrop] at hocc
    exact hocc
  have h1 : pat.take (a.length - i) <+: (a.drop i ++ b).take (a.length - i) :=
    h'.take _
  have h2 : (a.drop i ++ b).take (a.length - i) = a.drop i := by
    rw [List.take_append_of_le_length (by simp), List.take_of_length_le (by simp)]
  rw [h2] at h1
  exact h1

/-- A left part whose characters never equal the pattern's first character
(e.g. the pattern starts with `<` and the part contains no `<`) is
occurrence-free. -/
theorem no_occ_of_clean (a b pat : Str) (c : Char)
    (hhead : pat.head? = some c) (hclean : ∀ x ∈ a, x ≠ c) :
    ∀ i, i < a.length → ¬ OccursAt pat (a ++ b) i := by
  intro i hi hocc
  rcases pat with _ | ⟨p, pt⟩
  · simp at hhead
  · rw [List.head?_cons, Option.some_inj] at hhead
    subst hhead
    have h1 : ((a ++ b).drop i).head? = some p := by
      obtain ⟨r, hr⟩ := hocc
      rw [← hr]; rfl
    rw [List.head?_drop, List.getElem?_append_left hi] at h1
    exact hclean p (List.getElem?_mem h1) rfl

/-- Fuel-indexed body of `str.replace`; the fuel strictly exceeds the
remaining string length at every call, so it never runs out. -/
def replaceAllGo (pat rep : Str) : Str → Nat → Str
  | s, 0 => s
  | s, fuel + 1 =>
    match strFind s pat with
    | none => s
    | some i => s.take i ++ rep ++ replaceAllGo pat rep (s.drop (i + pat.length)) fuel

/-- `s.replace(pat, rep)` (Python `str.replace`: replace every
leftmost, non-overlapping occurrence, scanning resuming after each match).
Callers in the source never pass an empty pattern, so that case returns `s`. -/
def replaceAll (s pat rep : Str) : Str :=
  if pat = [] then s else replaceAllGo pat rep s (s.length + 1)

theorem replaceAllGo_congr (pat rep : Str) (hpat : pat ≠ []) :
    ∀ (f : Nat) (t : Str) (g : Nat), t.length < f → t.length < g →
      replaceAllGo pat rep t f = replaceAllGo pat rep t g := by
  intro f
  induction f with
  | zero => intro t g h1 _; omega
  | succ f ih =>
    intro t g h1 h2
    cases g with
    | zero => omega
    | succ g =>
      show replaceAllGo pat rep t (f + 1) = replaceAllGo pat rep t (g + 1)
      unfold replaceAllGo
      cases hf : strFind t pat with
      | none => simp only [hf]
      | some i =>
        have hfit := strFind_some_length t pat i hpat hf
        have hp : 0 < pat.length := by
          cases pat
          · exact absurd rfl hpat
          · simp
        have hlen : (t.drop (i + pat.length)).length < f ∧ (t.drop (i + pat.length)).length < g := by
          simp only [List.length_drop]
          omega
        simp only [hf]
        rw [ih (t.drop (i + pat.length)) g hlen.1 hlen.2]

theorem replaceAll_of_none (s pat rep : Str) (h : strFind s pat = none) :
    replaceAll s pat rep = s := by
  unfold replaceAll replaceAllGo
  split
  · rfl
  · simp [h]

theorem replaceAll_step (s pat rep : Str) (i : Nat) (hpat : pat ≠ [])
    (h : strFind s pat = some i) :
    replaceAll s pat rep
      = s.take i ++ rep ++ replaceAll (s.drop (i + pat.length)) pat rep := by
  have hfit := strFind_some_length s pat i hpat h
  have hp : 0 < pat.length := by
    cases pat
    · exact absurd rfl hpat
    · simp
  have e1 : replaceAllGo pat rep s (s.length + 1)
      = s.take i ++ rep ++ replaceAllGo pat rep (s.drop (i + pat.length)) s.length := by
    conv_lhs => unfold replaceAllGo
    simp only [h]
  have e2 := replaceAllGo_congr pat rep hpat s.length
      (s.drop (i + pat.length)) ((s.drop (i + pat.length)).length + 1)
      (by simp only [List.length_drop]; omega)
      (by omega)
  unfold replaceAll
  rw [if_neg hpat, if_neg hpat, e1, e2]

/-- `sep.join(parts)`. -/
def joinSep (sep : Str) : List Str → Str
  | [] => []
  | [x] => x
  | x :: y :: t => x ++ sep ++ joinSep sep (y :: t)

/-- Lexicographic `<` on Python strings (code-point order, ASCII model). -/
def strLtB : Str → Str → Bool
  | [], [] => false
  | [], _ :: _ => true
  | _ :: _, [] => false
  | a :: s, b :: t => if a = b then strLtB s t else decide (a < b)

/-- Python `<` on a `(bool, str)` key tuple (`False < True`). -/
def sortKeyLt (x y : Bool × Str) : Bool :=
  if x.1 = y.1 then strLtB x.2 y.2 else (!x.1 && y.1)

/-- Stable insertion: place `x` before the first element that is not
strictly below it. -/
def insertByKey {α : Type} (lt : α → α → Bool) (x : α) : List α → List α
  | [] => [x]
  | yh :: t => if lt yh x then yh :: insertByKey lt x t else x :: yh :: t

/-- Python's stable `sorted(l, key=...)`, embedded as a stable insertion
sort with the strict key order `lt`. -/
def pySortBy {α : Type} (lt : α → α → Bool) (l : List α) : List α :=
  l.foldr (insertByKey lt) []

/-- `str.title()` after `replace("_", " ")`, ASCII model: alphabetic
characters following a non-alphabetic character are uppercased, other
alphabetic characters lowercased. -/
def pyTitleGo : Bool → Str → Str
  | _, [] => []
  | prev, c :: t =>
    let isA := c.isAlpha
    (if isA then (if prev then c.toLower else c.toUpper) else c) :: pyTitleGo isA t

def pyTitle (s : Str) : Str := pyTitleGo false s

/-! ### Data model (`experiences` dict of `data_manager.get_default_experiences_structure`)

Optional dict keys read with `.get(key, default)` are modelled as total
fields holding the default when absent, except the contact fields, whose
absence is observable (C4) and which are therefore `Option Str`. -/

structure Contact where
  name : Option Str
  email : Option Str
  phone : Option Str
  location : Option Str
  linkedin : Option Str
  github : Option Str
  website : Option Str

structure WorkExperience where
  company : Str
  role : Str
  start_date : Str
  end_date : Str
  location : Str
  created_at : Str
  bullets : List Str
  is_current : Bool
deriving DecidableEq

structure Education where
  degree : Str
  field : Str
  institution : Str
  start_date : Str
  end_date : Str
  gpa : Str
  highlights : List Str

structure Project where
  name : Str
  description : Str
  technologies : List Str
  bullets : List Str

structure Certification where
  name : Str
  issuer : Str
  date : Str

structure Award where
  text : Str
  name : Str
  issuer : Str
  date : Str
  description : Str

/-- The `experiences` record; `skills` keeps the dict's insertion order as
an association list (default keys: technical, soft, languages, tools). -/
structure Experiences where
  contact : Contact
  summary : Str
  work_experiences : List WorkExperience
  education : List Education
  skills : List (Str × List Str)
  projects : List Project
  certifications : List Certification
  awards : List Award

/-! ### `cv_generator._format_experience_html` -/

/-- The sort at the top of `_format_experience_html` /
`_format_experience_grouped_html`: Python's stable ascending sort by key
`(not is_current, created_at)`, followed by `list(reversed(...))`. -/
def sorted_exps (experiences : List WorkExperience) : List WorkExperience :=
  (pySortBy
    (fun x y => sortKeyLt (!x.is_current, x.created_at) (!y.is_current, y.created_at))
    experiences).reverse

/-- `"".join(f"<li>{b}</li>" for b in exp.get("bullets", []))`. -/
def bullets_html (bullets : List Str) : Str :=
  joinSep [] (bullets.map (fun b => ("<li>").toList ++ b ++ ("</li>").toList))

/-- The flat `<article class="entry">` block of `_format_experience_html`. -/
def exp_article_html (exp : WorkExperience) : Str :=
  ("\n        <article class=\"entry\">\n            <div class=\"entry-header\">\n                <span class=\"entry-title\">").toList
  ++ exp.role
  ++ ("</span>\n                <span class=\"entry-date\">").toList
  ++ exp.start_date ++ (" - ").toList ++ exp.end_date
  ++ ("</span>\n            </div>\n            <div class=\"entry-header\">\n                <span class=\"entry-subtitle\">").toList
  ++ exp.company
  ++ ("</span>\n                <span class=\"entry-location\">").toList
  ++ exp.location
  ++ ("</span>\n            </div>\n            <ul>").toList
  ++ bullets_html exp.bullets
  ++ ("</ul>\n        </article>\n        ").toList

def _format_experience_html (experiences : List WorkExperience) : Str :=
  if experiences.isEmpty then []
  else joinSep ("\n").toList ((sorted_exps experiences).map exp_article_html)

/-! ### `cv_generator._format_experience_grouped_html` -/

structure CompanyGroup where
  company : Str
  location : Str
  roles : List WorkExperience

/-- Append `e` to the group keyed `key`, creating the group (at the end,
preserving `OrderedDict` insertion order) if absent. -/
def groupInsert (gs : List (Str × CompanyGroup)) (key : Str) (e : WorkExperience) :
    List (Str × CompanyGroup) :=
  match gs with
  | [] => [(key, ⟨e.company, e.location, [e]⟩)]
  | (k, g) :: t =>
    if k = key then (k, { g with roles := g.roles ++ [e] }) :: t
    else (k, g) :: groupInsert t key e

/-- The `OrderedDict` of `_format_experience_grouped_html`, built over the
sorted list with key `company.strip().lower()`. -/
def company_groups (sorted : List WorkExperience) : List (Str × CompanyGroup) :=
  sorted.foldl (fun gs e => groupInsert gs (pyLower (pyStrip e.company)) e) []

/-- Company tenure string: `start_dates[-1] - end_dates[0]` over the group's
roles, empty when the earliest start date is falsy. -/
def group_tenure (roles : List WorkExperience) : Str :=
  let start_dates := roles.map (·.start_date)
  let end_dates := roles.map (·.end_date)
  let earliest_start := (start_dates.getLast?).getD []
  let latest_end := (end_dates.head?).getD []
  if earliest_start ≠ [] then earliest_start ++ (" - ").toList ++ latest_end else []

/-- Single-role group rendering (the 12-space-indented `<article>` block). -/
def grouped_single_html (exp : WorkExperience) : Str :=
  ("\n            <article class=\"entry\">\n                <div class=\"entry-header\">\n                    <span class=\"entry-title\">").toList
  ++ exp.role
  ++ ("</span>\n                    <span class=\"entry-date\">").toList
  ++ exp.start_date ++ (" - ").toList ++ exp.end_date
  ++ ("</span>\n                </div>\n                <div class=\"entry-header\">\n                    <span class=\"entry-subtitle\">").toList
  ++ exp.company
  ++ ("</span>\n                    <span class=\"entry-location\">").toList
  ++ exp.location
  ++ ("</span>\n                </div>\n                <ul>").toList
  ++ bullets_html exp.bullets
  ++ ("</ul>\n            </article>\n            ").toList

/-- The company-header block opening a multi-role group. -/
def grouped_header_html (company_name tenure location : Str) : Str :=
  ("\n            <div class=\"company-group\">\n                <div class=\"company-header\">\n                    <span class=\"company-name\">").toList
  ++ company_name
  ++ ("</span>\n                    <span class=\"company-tenure\">").toList
  ++ tenure
  ++ ("</span>\n                </div>\n                <div class=\"company-location\">").toList
  ++ location
  ++ ("</div>\n            ").toList

/-- One `role-entry` sub-block of a multi-role group. -/
def grouped_role_html (exp : WorkExperience) : Str :=
  ("\n                <div class=\"role-entry\">\n                    <div class=\"role-header\">\n                        <span class=\"role-title\">").toList
  ++ exp.role
  ++ ("</span>\n                        <span class=\"role-date\">").toList
  ++ exp.start_date ++ (" - ").toList ++ exp.end_date
  ++ ("</span>\n                    </div>\n                    <ul>").toList
  ++ bullets_html exp.bullets
  ++ ("</ul>\n                </div>\n                ").toList

/-- The `html_parts` list produced for one company group. -/
def group_parts (g : CompanyGroup) : List Str :=
  match g.roles with
  | [exp] => [grouped_single_html exp]
  | roles =>
    grouped_header_html g.company (group_tenure roles) g.location
      :: roles.map grouped_role_html
      ++ [("</div>").toList]

def _format_experience_grouped_html (experiences : List WorkExperience) : Str :=
  if experiences.isEmpty then []
  else
    joinSep ("\n").toList
      (((company_groups (sorted_exps experiences)).map
        (fun kg => group_parts kg.2)).flatten)

/-! ### Remaining section formatters of `cv_generator` -/

/-- `category.replace("_", " ").title()`. -/
def skill_display_name (category : Str) : Str :=
  pyTitle (replaceAll category ("_").toList (" ").toList)

def _format_skills_html (skills : List (Str × List Str)) : Str :=
  if skills.all (fun kv => kv.2.isEmpty) then []
  else
    joinSep ("\n").toList
      (("<div class=\"skills-grid\">").toList ::
        (skills.map (fun kv =>
          if kv.2.isEmpty then []
          else
            [("<span class=\"skill-category\">").toList ++ skill_display_name kv.1 ++ (":</span>").toList,
             ("<span class=\"skill-items\">").toList ++ joinSep (", ").toList kv.2 ++ ("</span>").toList])).flatten
        ++ [("</div>").toList])

def _format_skills_pills_html (skills : List (Str × List Str)) : Str :=
  if skills.all (fun kv => kv.2.isEmpty) then []
  else
    joinSep ("\n").toList
      (("<div class=\"skills-grid\">").toList ::
        (skills.map (fun kv =>
          if kv.2.isEmpty then []
          else
            (("<span class=\"skill-category\">").toList ++ skill_display_name kv.1 ++ ("</span>").toList)
              :: kv.2.map (fun it =>
                ("<span class=\"skill-pill\">").toList ++ it ++ ("</span>").toList))).flatten
        ++ [("</div>").toList])

def edu_article_html (edu : Education) : Str :=
  let highlights :=
    if edu.highlights.isEmpty then []
    else ("<ul>").toList ++ bullets_html edu.highlights ++ ("</ul>").toList
  let gpa := if edu.gpa ≠ [] then (" | GPA: ").toList ++ edu.gpa else []
  ("\n        <article class=\"entry\">\n            <div class=\"entry-header\">\n                <span class=\"entry-title\">").toList
  ++ edu.degree ++ (" in ").toList ++ edu.field
  ++ ("</span>\n                <span class=\"entry-date\">").toList
  ++ edu.start_date ++ (" - ").toList ++ edu.end_date
  ++ ("</span>\n            </div>\n            <div class=\"entry-header\">\n                <span class=\"entry-subtitle\">").toList
  ++ edu.institution ++ gpa
  ++ ("</span>\n            </div>\n            ").toList
  ++ highlights
  ++ ("\n        </article>\n        ").toList

def _format_education_html (education : List Education) : Str :=
  if education.isEmpty then []
  else joinSep ("\n").toList (education.reverse.map edu_article_html)

def project_li_html (proj : Project) : Str :=
  let tech :=
    if proj.technologies.isEmpty then []
    else ("<span class=\"project-tech\">(").toList ++ joinSep (", ").toList proj.technologies ++ (")</span>").toList
  let bullets :=
    if proj.bullets.isEmpty then []
    else ("<ul>").toList ++ bullets_html proj.bullets ++ ("</ul>").toList
  ("\n        <li>\n            <span class=\"project-name\">").toList
  ++ proj.name ++ ("</span> ").toList ++ tech
  ++ ("\n            <p>").toList ++ proj.description
  ++ ("</p>\n            ").toList ++ bullets
  ++ ("\n        </li>\n        ").toList

def _format_projects_html (projects : List Project) : Str :=
  if projects.isEmpty then []
  else
    joinSep ("\n").toList
      (("<ul class=\"projects-list\">").toList
        :: projects.map project_li_html ++ [("</ul>").toList])

def cert_li_html (cert : Certification) : Str :=
  ("\n        <li>\n            <span class=\"cert-name\">").toList
  ++ cert.name ++ ("</span> - \n            ").toList
  ++ cert.issuer ++ (" (").toList ++ cert.date
  ++ (")\n        </li>\n        ").toList

def _format_certs_html (certifications : List Certification) : Str :=
  if certifications.isEmpty then []
  else
    joinSep ("\n").toList
      (("<ul class=\"certs-list\">").toList
        :: certifications.map cert_li_html ++ [("</ul>").toList])

def award_display_text (award : Award) : Str :=
  if award.text ≠ [] then award.text
  else
    award.name
    ++ (if award.issuer ≠ [] then (" — ").toList ++ award.issuer else [])
    ++ (if award.date ≠ [] then (" (").toList ++ award.date ++ (")").toList else [])
    ++ (if award.description ≠ [] then (": ").toList ++ award.description else [])

def _format_awards_html (awards : List Award) : Str :=
  if awards.isEmpty then []
  else
    joinSep ("\n").toList
      (("<ul class=\"certs-list\">").toList
        :: awards.map (fun a => ("\n        <li>").toList ++ award_display_text a ++ ("</li>\n        ").toList)
        ++ [("</ul>").toList])

/-! ### `cv_generator._remove_empty_sections`

Each removal pattern has the shape
`SECOPEN .*? MARKER \s* LIT₁ \s* LIT₂ …` (with `re.DOTALL`, no
`re.IGNORECASE`), replaced by the empty string for every non-overlapping
leftmost match.  The `.*?` is non-greedy, so a match extends to the
earliest completion of the tail; `\s*` before a literal starting with `<`
commits to the maximal whitespace run. -/

/-- Skip `\s*` then require the literal `lit`; returns the matched length. -/
def wsThenLit (s lit : Str) : Option Nat :=
  if lit.isPrefixOf (s.drop ((s.takeWhile isPySpace).length)) then
    some ((s.takeWhile isPySpace).length + lit.length)
  else none

/-- Match the `\s*`-separated literal tails, returning total length. -/
def tailsFrom (s : Str) (tails : List Str) (acc : Nat) : Option Nat :=
  match tails with
  | [] => some acc
  | l :: rest =>
    match wsThenLit s l with
    | none => none
    | some k => tailsFrom (s.drop k) rest (acc + k)

/-- `MARKER \s* LIT…` anchored at the start of `s`; returns match length. -/
def tailMatchAt (s marker : Str) (tails : List Str) : Option Nat :=
  if marker.isPrefixOf s then tailsFrom (s.drop marker.length) tails marker.length
  else none

/-- Earliest position (with its match length) at which the pattern tail
matches — the non-greedy `.*?` extension. -/
def findTailMatch (marker : Str) (tails : List Str) : Str → Option (Nat × Nat)
  | [] =>
    match tailMatchAt [] marker tails with
    | some e => some (0, e)
    | none => none
  | c :: t =>
    match tailMatchAt (c :: t) marker tails with
    | some e => some (0, e)
    | none => (findTailMatch marker tails t).map (fun qe => (qe.1 + 1, qe.2))

/-- One `re.sub(pattern, '', html, flags=re.DOTALL)` pass for an
empty-section pattern.  If the earliest `SECOPEN` occurrence has no tail
completion anywhere after it, no later occurrence can have one either
(its search range is a subset), so the whole substitution is the
identity. -/
def reSubSectionGo (secOpen marker : Str) (tails : List Str) (s : Str) : Nat → Str
  | 0 => s
  | fuel + 1 =>
    match strFind s secOpen with
    | none => s
    | some p =>
      let rest := s.drop (p + secOpen.length)
      match findTailMatch marker tails rest with
      | none => s
      | some qe => s.take p ++ reSubSectionGo secOpen marker tails (rest.drop (qe.1 + qe.2)) fuel

def reSubSection (secOpen marker : Str) (tails : List Str) (s : Str) : Str :=
  reSubSectionGo secOpen marker tails s (s.length + 1)

def _remove_empty_sections (html : Str) : Str :=
  let h := reSubSection ("<section id=\"summary\">").toList ("<p class=\"summary\">").toList
    [("</p>").toList, ("</section>").toList] html
  let h := reSubSection ("<section id=\"experience\">").toList ("<h2>Experience</h2>").toList
    [("</section>").toList] h
  let h := reSubSection ("<section id=\"education\">").toList ("<h2>Education</h2>").toList
    [("</section>").toList] h
  let h := reSubSection ("<section id=\"skills\">").toList ("<h2>Skills</h2>").toList
    [("</section>").toList] h
  let h := reSubSection ("<section id=\"projects\">").toList ("<h2>Projects</h2>").toList
    [("</section>").toList] h
  let h := reSubSection ("<section id=\"certifications\">").toList ("<h2>Certifications</h2>").toList
    [("</section>").toList] h
  let h := reSubSection ("<section id=\"awards\">").toList ("<h2>Awards & Honors</h2>").toList
    [("</section>").toList] h
  h

/-! ### Injected CSS and `fill_template_with_experiences` -/

def injected_css_base : Str :=
  ("\n<style>\n/* Universal print styles - injected for all templates */\n@page \x7b\n    margin: 0.5in 0.4in;\n\x7d\n\n@page :first \x7b\n    margin-top: 0.4in;\n\x7d\n\n@media print \x7b\n    body \x7b\n        margin-bottom: 0.4in;\n    \x7d\n    \n    /* Prevent page breaks inside entries */\n    .entry, article, .role-entry \x7b\n        page-break-inside: avoid;\n        break-inside: avoid;\n    \x7d\n    \n    /* Avoid orphaned section headers */\n    h2, h3, .company-header \x7b\n        page-break-after: avoid;\n        break-after: avoid;\n    \x7d\n    \n    /* Allow breaks between sections */\n    section \x7b\n        page-break-before: auto;\n    \x7d\n    \n    /* Keep header on first page */\n    header \x7b\n        page-break-after: avoid;\n    \x7d\n\x7d\n</style>\n").toList

def get_compact_mode_css (level : Str) : Str :=
  if level = ("normal").toList then []
  else if level = ("compact").toList then
    ("\n<style>\n/* Compact Mode */\nbody \x7b\n    font-size: 9.5pt !important;\n    line-height: 1.4 !important;\n    padding: 0.4in !important;\n\x7d\nh1 \x7b font-size: 20pt !important; margin-bottom: 0.3rem !important; \x7d\nh2 \x7b font-size: 10pt !important; margin-bottom: 0.5rem !important; \x7d\nheader \x7b margin-bottom: 1rem !important; padding-bottom: 0.75rem !important; \x7d\nsection \x7b margin-bottom: 0.9rem !important; \x7d\n.entry, article \x7b margin-bottom: 0.7rem !important; \x7d\n.entry-header, .role-header \x7b margin-bottom: 0.15rem !important; \x7d\nul \x7b margin-top: 0.2rem !important; margin-left: 1rem !important; \x7d\nli \x7b margin-bottom: 0.1rem !important; font-size: 9.5pt !important; \x7d\n.summary \x7b font-size: 9.5pt !important; \x7d\n.contact-info \x7b font-size: 8.5pt !important; \x7d\n.entry-date, .entry-location, .role-date \x7b font-size: 8.5pt !important; \x7d\n.skill-pill \x7b padding: 0.15rem 0.4rem !important; font-size: 8pt !important; \x7d\n.company-group \x7b margin-bottom: 0.9rem !important; \x7d\n.role-entry \x7b margin-bottom: 0.5rem !important; padding-left: 0.5rem !important; \x7d\n</style>\n").toList
  else if level = ("very_compact").toList then
    ("\n<style>\n/* Very Compact Mode */\nbody \x7b\n    font-size: 8.5pt !important;\n    line-height: 1.3 !important;\n    padding: 0.3in !important;\n\x7d\nh1 \x7b font-size: 18pt !important; margin-bottom: 0.2rem !important; \x7d\nh2 \x7b font-size: 9pt !important; margin-bottom: 0.4rem !important; letter-spacing: 0.5px !important; \x7d\nheader \x7b margin-bottom: 0.75rem !important; padding-bottom: 0.5rem !important; \x7d\nsection \x7b margin-bottom: 0.7rem !important; \x7d\n.entry, article \x7b margin-bottom: 0.5rem !important; \x7d\n.entry-header, .role-header \x7b margin-bottom: 0.1rem !important; \x7d\nul \x7b margin-top: 0.15rem !important; margin-left: 0.9rem !important; \x7d\nli \x7b margin-bottom: 0.05rem !important; font-size: 8.5pt !important; \x7d\n.summary \x7b font-size: 8.5pt !important; \x7d\n.contact-info \x7b font-size: 8pt !important; gap: 0.3rem 1rem !important; \x7d\n.entry-date, .entry-location, .role-date \x7b font-size: 8pt !important; \x7d\n.entry-title, .role-title \x7b font-size: 9.5pt !important; \x7d\n.entry-subtitle \x7b font-size: 9pt !important; \x7d\n.skill-pill \x7b padding: 0.1rem 0.3rem !important; font-size: 7.5pt !important; \x7d\n.skills-grid \x7b gap: 0.3rem !important; \x7d\n.company-group \x7b margin-bottom: 0.7rem !important; \x7d\n.company-header \x7b margin-bottom: 0.3rem !important; padding-bottom: 0.15rem !important; \x7d\n.role-entry \x7b margin-bottom: 0.4rem !important; margin-left: 0.75rem !important; padding-left: 0.5rem !important; \x7d\n.projects-list li, .certs-list li \x7b margin-bottom: 0.3rem !important; padding-left: 0.5rem !important; \x7d\n</style>\n").toList
  else []

def get_paginated_preview_css : Str :=
  ("\n<style>\n/* Paginated Preview - simulates printed pages */\n@media screen \x7b\n    html \x7b\n        background: #525659 !important;\n    \x7d\n    body \x7b\n        background: white !important;\n        width: 8.5in !important;\n        min-height: 11in !important;\n        margin: 0.5in auto !important;\n        padding: 0.5in !important;\n        box-shadow: 0 4px 12px rgba(0,0,0,0.3) !important;\n        box-sizing: border-box !important;\n    \x7d\n\x7d\n</style>\n").toList

/-- Python dict-value truthiness for `if contact.get(key):`. -/
def truthy (o : Option Str) : Bool :=
  match o with
  | some s => !s.isEmpty
  | none => false

/-- The linkedin handle normalization inside
`fill_template_with_experiences` (lines 1021–1027): strip, then if the
value mentions `linkedin.com`, drop protocol/`www.` occurrences and a
`linkedin.com/in/` prefix. -/
def linkedin_handle (raw : Str) : Str :=
  let s := pyStrip raw
  if pyContains s ("linkedin.com").toList then
    let s := replaceAll s ("https://").toList []
    let s := replaceAll s ("http://").toList []
    let s := replaceAll s ("www.").toList []
    if ("linkedin.com/in/").toList.isPrefixOf s then
      replaceAll s ("linkedin.com/in/").toList []
    else s
  else s

def linkedin_url (h : Str) : Str := ("https://www.linkedin.com/in/").toList ++ h

def linkedin_display (h : Str) : Str := ("linkedin.com/in/").toList ++ h

/-- The github handle normalization (lines 1034–1040). -/
def github_handle (raw : Str) : Str :=
  let s := pyStrip raw
  if pyContains s ("github.com").toList then
    let s := replaceAll s ("https://").toList []
    let s := replaceAll s ("http://").toList []
    let s := replaceAll s ("www.").toList []
    if ("github.com/").toList.isPrefixOf s then
      replaceAll s ("github.com/").toList []
    else s
  else s

def github_url (h : Str) : Str := ("https://github.com/").toList ++ h

def github_display (h : Str) : Str := ("github.com/").toList ++ h

/-- The `links` list built by `fill_template_with_experiences`. -/
def contact_links (contact : Contact) : List Str :=
  (if truthy contact.linkedin then
    let h := linkedin_handle (contact.linkedin.getD [])
    [("<a href=\"").toList ++ linkedin_url h ++ ("\">").toList ++ linkedin_display h ++ ("</a>").toList]
  else []) ++
  (if truthy contact.github then
    let h := github_handle (contact.github.getD [])
    [("<a href=\"").toList ++ github_url h ++ ("\">").toList ++ github_display h ++ ("</a>").toList]
  else []) ++
  (if truthy contact.website then
    let w := pyStrip (contact.website.getD [])
    let url :=
      if w ≠ [] ∧ ¬ (("http://").toList.isPrefixOf w ∨ ("https://").toList.isPrefixOf w) then
        ("https://").toList ++ w
      else w
    let disp := replaceAll (replaceAll (replaceAll url ("https://").toList []) ("http://").toList []) ("www.").toList []
    [("<a href=\"").toList ++ url ++ ("\">").toList ++ disp ++ ("</a>").toList]
  else [])

/-- The substitution-and-stripping stage of `fill_template_with_experiences`
(everything up to and including `_remove_empty_sections`, before the CSS
injection). -/
def fill_substituted (template_html : Str) (experiences : Experiences) : Str :=
  let contact := experiences.contact
  let html := template_html
  let html := replaceAll html ("\x7b\x7bCONTACT_NAME\x7d\x7d").toList (contact.name.getD ("Your Name").toList)
  let html := replaceAll html ("\x7b\x7bCONTACT_EMAIL\x7d\x7d").toList (contact.email.getD ("email@example.com").toList)
  let html := replaceAll html ("\x7b\x7bCONTACT_PHONE\x7d\x7d").toList (contact.phone.getD [])
  let html := replaceAll html ("\x7b\x7bCONTACT_LOCATION\x7d\x7d").toList (contact.location.getD [])
  let links := contact_links contact
  let links_html := if links.isEmpty then [] else (" | ").toList ++ joinSep (" | ").toList links
  let html := replaceAll html ("\x7b\x7bCONTACT_LINKS\x7d\x7d").toList links_html
  let li := pyStrip (contact.linkedin.getD [])
  let gh := pyStrip (contact.github.getD [])
  let html := replaceAll html ("\x7b\x7bCONTACT_LINKEDIN\x7d\x7d").toList
    (if li ≠ [] then ("linkedin.com/in/").toList ++ li else [])
  let html := replaceAll html ("\x7b\x7bCONTACT_GITHUB\x7d\x7d").toList
    (if gh ≠ [] then ("github.com/").toList ++ gh else [])
  let html := replaceAll html ("\x7b\x7bSUMMARY\x7d\x7d").toList experiences.summary
  let html := replaceAll html ("\x7b\x7bEXPERIENCE\x7d\x7d").toList (_format_experience_html experiences.work_experiences)
  let html := replaceAll html ("\x7b\x7bEXPERIENCE_GROUPED\x7d\x7d").toList (_format_experience_grouped_html experiences.work_experiences)
  let html := replaceAll html ("\x7b\x7bEDUCATION\x7d\x7d").toList (_format_education_html experiences.education)
  let html := replaceAll html ("\x7b\x7bSKILLS\x7d\x7d").toList (_format_skills_html experiences.skills)
  let html := replaceAll html ("\x7b\x7bSKILLS_PILLS\x7d\x7d").toList (_format_skills_pills_html experiences.skills)
  let html := replaceAll html ("\x7b\x7bPROJECTS\x7d\x7d").toList (_format_projects_html experiences.projects)
  let html := replaceAll html ("\x7b\x7bCERTIFICATIONS\x7d\x7d").toList (_format_certs_html experiences.certifications)
  let html := replaceAll html ("\x7b\x7bAWARDS\x7d\x7d").toList (_format_awards_html experiences.awards)
  _remove_empty_sections html

def fill_template_with_experiences (template_html : Str) (experiences : Experiences)
    (compact_mode : Str) (show_page_preview : Bool) : Str :=
  let html := fill_substituted template_html experiences
  let injected_css := injected_css_base
    ++ (if compact_mode ≠ ("normal").toList then get_compact_mode_css compact_mode else [])
    ++ (if show_page_preview then get_paginated_preview_css else [])
  if pyContains html ("</head>").toList then
    replaceAll html ("</head>").toList (injected_css ++ ("</head>").toList)
  else if pyContains html ("</body>").toList then
    replaceAll html ("</body>").toList (injected_css ++ ("</body>").toList)
  else html

/-! ### `app.find_matching_close_tag` (Tag-Boundary Matcher) -/

/-- The `while` loop of `find_matching_close_tag` (app.py lines 438–455):
`low` is the lowercased document, `openPat`/`closePat` the lowercased
`<tag` / `</tag>` literals.  Fuel decreases each iteration; the supplied
fuel `|html| + 1` is sufficient because the position strictly increases and
stays `≤ |html|`. -/
def fmc_loop (low openPat closePat : Str) : Nat → Nat → Nat → Int
  | _, _, 0 => -1
  | pos, count, fuel + 1 =>
    if 0 < count ∧ pos < low.length then
      match pyFindFrom low closePat pos with
      | none => -1
      | some nc =>
        let closeStep : Int :=
          if count - 1 = 0 then Int.ofNat nc
          else fmc_loop low openPat closePat (nc + closePat.length) (count - 1) fuel
        match pyFindFrom low openPat pos with
        | some no => if no < nc then fmc_loop low openPat closePat (no + openPat.length) (count + 1) fuel else closeStep
        | none => closeStep
    else -1

def find_matching_close_tag (html : Str) (start_pos : Nat) (tag_name : Str) : Int :=
  fmc_loop (pyLower html) (pyLower ('<' :: tag_name)) (pyLower ('<' :: '/' :: (tag_name ++ ['>'])))
    start_pos 1 (html.length + 1)

/-- The Tag-Boundary Matcher as the specification phrases it: scan forward
one position at a time with a nesting counter initialized to 1; at a
(case-insensitive) occurrence of `</tag>` decrement the counter, returning
that offset when it reaches zero; at an occurrence of `<tag` increment it;
return `-1` when the document ends without the matching close. -/
def close_scan_spec (low openPat closePat : Str) : Nat → Nat → Nat → Int
  | _, _, 0 => -1
  | pos, count, fuel + 1 =>
    if pos < low.length then
      if closePat.isPrefixOf (low.drop pos) then
        if count = 1 then Int.ofNat pos
        else close_scan_spec low openPat closePat (pos + closePat.length) (count - 1) fuel
      else if openPat.isPrefixOf (low.drop pos) then
        close_scan_spec low openPat closePat (pos + openPat.length) (count + 1) fuel
      else close_scan_spec low openPat closePat (pos + 1) count fuel
    else -1

def find_matching_close_spec (html : Str) (start_pos : Nat) (tag_name : Str) : Int :=
  close_scan_spec (pyLower html) (pyLower ('<' :: tag_name)) (pyLower ('<' :: '/' :: (tag_name ++ ['>'])))
    start_pos 1 (html.length + 1)

/-! ### Embedded regular-expression scanners (app.py extraction/update)

All patterns have one of the concrete shapes
`<TAG[^>]*NAME\s*=\s*["']VALUE["'][^>]*>`, `<TAG[^>]*>`, with an optional
`(.*?)</TAG>` capture, compiled with `re.DOTALL | re.IGNORECASE` (except
strategy 3's title pattern, which lacks `re.DOTALL`).  They are embedded by
scanning over the lowercased subject with bump-along-by-one on failed
attempts and continuation after the match on successes, exactly the
leftmost non-overlapping semantics of `re.search`/`re.findall`/
`re.finditer`. -/

/-- Does `NAME\s*=\s*["']VALUE["']` match at the start of the (lowercased)
region?  The two quote classes are independent, as in the pattern. -/
def attrTokenAt (s tokName tokVal : Str) : Bool :=
  if tokName.isPrefixOf s then
    let r := s.drop tokName.length
    let r := r.drop (r.takeWhile isPySpace).length
    match r with
    | '=' :: r1 =>
      let r2 := r1.drop (r1.takeWhile isPySpace).length
      match r2 with
      | q :: r3 =>
        if q = '"' ∨ q.val = 39 then
          if tokVal.isPrefixOf r3 then
            match r3.drop tokVal.length with
            | q2 :: _ => q2 = '"' ∨ q2.val = 39
            | [] => false
          else false
        else false
      | [] => false
    | _ => false
  else false

/-- Does the token occur anywhere in the (lowercased) region? -/
def hasTokFrom : Str → Str → Str → Bool
  | [], _, _ => false
  | c :: t, n, v => attrTokenAt (c :: t) n v || hasTokFrom t n v

/-- Match `[^>]*>` (or `[^>]*TOKEN[^>]*>` when `needTok`) at the position
right after the tag-name literal of an opening-tag pattern; `s` is the
lowercased rest.  Returns the offset just past the `>`. -/
def attrRegionEnd (s tokName tokVal : Str) (needTok : Bool) : Option Nat :=
  let region := s.takeWhile (fun c => c ≠ '>')
  if region.length = s.length then none
  else if needTok then
    if hasTokFrom region tokName tokVal then some (region.length + 1) else none
  else some (region.length + 1)

/-- `re.finditer` spans `(start, end)` of an opening-tag pattern over the
lowercased subject `low`. -/
def findOpenTags (low tagLit tokName tokVal : Str) : Nat → Nat → List (Nat × Nat)
  | _, 0 => []
  | pos, fuel + 1 =>
    match pyFindFrom low tagLit pos with
    | none => []
    | some p =>
      match attrRegionEnd (low.drop (p + tagLit.length)) tokName tokVal true with
      | some k =>
        (p, p + tagLit.length + k) ::
          findOpenTags low tagLit tokName tokVal (p + tagLit.length + k) fuel
      | none => findOpenTags low tagLit tokName tokVal (p + 1) fuel

/-- `re.findall` of `<TAG[^>]*(TOKEN)?[^>]*>(.*?)</TAG>` over subject `s`
(with `low = pyLower s`): the list of captured contents (original case). -/
def findallTagContents (s low tagLit tokName tokVal : Str) (needTok : Bool) (closeLit : Str) :
    Nat → Nat → List Str
  | _, 0 => []
  | pos, fuel + 1 =>
    match pyFindFrom low tagLit pos with
    | none => []
    | some p =>
      match attrRegionEnd (low.drop (p + tagLit.length)) tokName tokVal needTok with
      | some k =>
        let cs := p + tagLit.length + k
        match pyFindFrom low closeLit cs with
        | some q =>
          pySlice s cs q ::
            findallTagContents s low tagLit tokName tokVal needTok closeLit (q + closeLit.length) fuel
        | none => findallTagContents s low tagLit tokName tokVal needTok closeLit (p + 1) fuel
      | none => findallTagContents s low tagLit tokName tokVal needTok closeLit (p + 1) fuel

/-- `re.search` of such a pattern: the first captured content. -/
def searchTagContent (s low tagLit tokName tokVal : Str) (needTok : Bool) (closeLit : Str) :
    Option Str :=
  (findallTagContents s low tagLit tokName tokVal needTok closeLit 0 (s.length + 2)).head?

/-- `re.search` of the experience-section pattern
`(<section[^>]*id\s*=\s*["']experience["'][^>]*>)(.*?)(</section>)`:
returns `(match start, content start, close start)`. -/
def find_section_match (low : Str) : Nat → Nat → Option (Nat × Nat × Nat)
  | _, 0 => none
  | pos, fuel + 1 =>
    match pyFindFrom low ("<section").toList pos with
    | none => none
    | some p =>
      match attrRegionEnd (low.drop (p + ("<section").toList.length)) ("id").toList ("experience").toList true with
      | some k =>
        let cs := p + ("<section").toList.length + k
        match pyFindFrom low ("</section>").toList cs with
        | some q => some (p, cs, q)
        | none => find_section_match low (p + 1) fuel
      | none => find_section_match low (p + 1) fuel

def find_experience_section (html : Str) : Option (Nat × Nat × Nat) :=
  find_section_match (pyLower html) 0 (html.length + 2)

/-- `re.sub(r'<[^>]+>', '', ·)`: helper chopping one `<...>` group. -/
def chopTag (t : Str) : Option Str :=
  let run := t.takeWhile (fun c => c ≠ '>')
  if run.isEmpty then none
  else if run.length < t.length then some (t.drop (run.length + 1))
  else none

theorem chopTag_le (t rest : Str) (h : chopTag t = some rest) :
    rest.length ≤ t.length := by
  simp only [chopTag] at h
  split at h
  · cases h
  · split at h
    · cases h
      simp [List.length_drop]
    · cases h

/-- Fuel-indexed body of tag stripping; fuel `|s|` suffices since each
step consumes at least one character. -/
def stripTagsGo : Str → Nat → Str
  | s, 0 => s
  | [], _ + 1 => []
  | c :: t, fuel + 1 =>
    if c = '<' then
      match chopTag t with
      | some rest => stripTagsGo rest fuel
      | none => c :: stripTagsGo t fuel
    else c :: stripTagsGo t fuel

/-- `re.sub(r'<[^>]+>', '', s)`: delete every `<`…`>` group (at least one
character between the brackets, up to the first `>`). -/
def stripTags (s : Str) : Str := stripTagsGo s s.length

/-- `f"Entry {n}"`-style decimal rendering. -/
def natStr (n : Nat) : Str := (Nat.repr n).toList

/-- Bullet extraction shared by all strategies:
`re.findall(r'<li[^>]*>(.*?)</li>', content)`, keep raw-nonblank items,
then strip inner markup and surrounding whitespace. -/
def extract_bullets (content : Str) : List Str :=
  let raw := findallTagContents content (pyLower content) ("<li").toList [] [] false ("</li>").toList 0 (content.length + 2)
  (raw.filter (fun b => pyStrip b ≠ [])).map (fun b => pyStrip (stripTags b))

/-- One extracted experience entry (the dict of
`extract_experiences_from_html`; the Python dict key `"type"` is the field
`type`). -/
structure ExtractedExp where
  index : Nat
  title : Str
  company : Str
  bullets : List Str
  raw_html : Str
  type : Str
deriving DecidableEq, Repr

/-- Strategy-1 title resolution: entry-title span, `<h3>`, `<strong>`,
first match wins; falsy result falls back to `Entry {n+1}`. -/
def article_title (content : Str) (idx : Nat) : Str :=
  let low := pyLower content
  let m :=
    searchTagContent content low ("<span").toList ("class").toList ("entry-title").toList true ("</span>").toList
    <|> searchTagContent content low ("<h3").toList [] [] false ("</h3>").toList
    <|> searchTagContent content low ("<strong").toList [] [] false ("</strong>").toList
  let t := (m.map (fun g => pyStrip (stripTags g))).getD []
  if t = [] then ("Entry ").toList ++ natStr (idx + 1) else t

/-- Strategy-1 company resolution: entry-subtitle span, company span,
`<em>`; first match wins, empty otherwise. -/
def article_company (content : Str) : Str :=
  let low := pyLower content
  let m :=
    searchTagContent content low ("<span").toList ("class").toList ("entry-subtitle").toList true ("</span>").toList
    <|> searchTagContent content low ("<span").toList ("class").toList ("company").toList true ("</span>").toList
    <|> searchTagContent content low ("<em").toList [] [] false ("</em>").toList
  (m.map (fun g => pyStrip (stripTags g))).getD []

def article_contents (search_html : Str) : List Str :=
  findallTagContents search_html (pyLower search_html) ("<article").toList ("class").toList ("entry").toList true
    ("</article>").toList 0 (search_html.length + 2)

/-- Build strategy-1 entries over the captured article contents, numbering
only the entries whose bullet list is nonempty. -/
def mk_article_entries : List Str → Nat → List ExtractedExp
  | [], _ => []
  | content :: rest, idx =>
    let bullets := extract_bullets content
    if bullets.isEmpty then mk_article_entries rest idx
    else
      { index := idx, title := article_title content idx, company := article_company content,
        bullets := bullets, raw_html := content, type := ("article").toList }
        :: mk_article_entries rest (idx + 1)

/-- The inline nested-`<div>` counting loop of strategy 2 (app.py lines
322–339); note it searches case-sensitively, unlike
`find_matching_close_tag`. -/
def role_div_count_loop (s : Str) : Nat → Nat → Nat → Option Nat
  | _, _, 0 => none
  | pos, dcount, fuel + 1 =>
    if 0 < dcount ∧ pos < s.length then
      match pyFindFrom s ("</div>").toList pos with
      | none => none
      | some nc =>
        let closeStep : Option Nat :=
          if dcount - 1 = 0 then some nc
          else role_div_count_loop s (nc + ("</div>").toList.length) (dcount - 1) fuel
        match pyFindFrom s ("<div").toList pos with
        | some no => if no < nc then role_div_count_loop s (no + ("<div").toList.length) (dcount + 1) fuel else closeStep
        | none => closeStep
    else none

def role_title (role_html : Str) (idx : Nat) : Str :=
  let m := searchTagContent role_html (pyLower role_html) ("<span").toList ("class").toList
    ("role-title").toList true ("</span>").toList
  let t := (m.map (fun g => pyStrip (stripTags g))).getD []
  if t = [] then ("Role ").toList ++ natStr (idx + 1) else t

/-- Strategy-2 company resolution: the last `company-name` span occurring
before the role block's start. -/
def role_company (text_before : Str) : Str :=
  let ms := findallTagContents text_before (pyLower text_before) ("<span").toList ("class").toList
    ("company-name").toList true ("</span>").toList 0 (text_before.length + 2)
  (ms.getLast?.map (fun g => pyStrip (stripTags g))).getD []

def role_spans (search_html : Str) : List (Nat × Nat) :=
  findOpenTags (pyLower search_html) ("<div").toList ("class").toList ("role-entry").toList 0 (search_html.length + 2)

/-- Build strategy-2 entries from the role-entry spans. -/
def mk_role_entries (search_html : Str) : List (Nat × Nat) → Nat → List ExtractedExp
  | [], _ => []
  | (p, e) :: rest, idx =>
    match role_div_count_loop search_html e 1 (search_html.length + 1) with
    | none => mk_role_entries search_html rest idx
    | some role_end =>
      let role_html := pySlice search_html e role_end
      let bullets := extract_bullets role_html
      if bullets.isEmpty then mk_role_entries search_html rest idx
      else
        { index := idx, title := role_title role_html idx, company := role_company (search_html.take p),
          bullets := bullets, raw_html := role_html, type := ("role-entry").toList }
          :: mk_role_entries search_html rest (idx + 1)

/-- Strategy-3 title search:
`re.search(r'<(?:h3|strong|b)[^>]*>(.*?)</(?:h3|strong|b)>', ·, re.IGNORECASE)`
(no `re.DOTALL`, so the capture cannot span a newline). -/
def altCloseFrom (low : Str) : Nat → Nat → Option Nat
  | _, 0 => none
  | pos, fuel + 1 =>
    if pos < low.length then
      if ("</h3>").toList.isPrefixOf (low.drop pos) then some pos
      else if ("</strong>").toList.isPrefixOf (low.drop pos) then some pos
      else if ("</b>").toList.isPrefixOf (low.drop pos) then some pos
      else if (low.drop pos).head? = some '\n' then none
      else altCloseFrom low (pos + 1) fuel
    else none

def tryAltTagAt (s low : Str) (p : Nat) (lit : Str) : Option Str :=
  if lit.isPrefixOf (low.drop p) then
    match attrRegionEnd (low.drop (p + lit.length)) [] [] false with
    | some k =>
      match altCloseFrom low (p + lit.length + k) (low.length + 2) with
      | some q => some (pySlice s (p + lit.length + k) q)
      | none => none
    | none => none
  else none

def searchAltTitle (s low : Str) : Nat → Nat → Option Str
  | _, 0 => none
  | pos, fuel + 1 =>
    if pos < low.length then
      match tryAltTagAt s low pos (("<h3").toList)
        <|> tryAltTagAt s low pos (("<strong").toList)
        <|> tryAltTagAt s low pos (("<b").toList) with
      | some t => some t
      | none => searchAltTitle s low (pos + 1) fuel
    else none

def generic_article_contents (search_html : Str) : List Str :=
  findallTagContents search_html (pyLower search_html) ("<article").toList [] [] false
    ("</article>").toList 0 (search_html.length + 2)

/-- Strategy-3 entries (generic `<article>` fallback). -/
def mk_generic_entries : List Str → Nat → List ExtractedExp
  | [], _ => []
  | content :: rest, idx =>
    let bullets := extract_bullets content
    if bullets.isEmpty then mk_generic_entries rest idx
    else
      let title :=
        match searchAltTitle content (pyLower content) 0 (content.length + 2) with
        | some g => pyStrip (stripTags g)
        | none => ("Entry ").toList ++ natStr (idx + 1)
      { index := idx, title := title, company := [],
        bullets := bullets, raw_html := content, type := ("article").toList }
        :: mk_generic_entries rest (idx + 1)

/-- `app.extract_experiences_from_html`. -/
def extract_experiences_from_html (html : Str) : List ExtractedExp :=
  let search_html :=
    match find_experience_section html with
    | some pcq => pySlice html pcq.2.1 pcq.2.2
    | none => html
  let e1 := mk_article_entries (article_contents search_html) 0
  let e2 := mk_role_entries search_html (role_spans search_html) e1.length
  let experiences := e1 ++ e2
  if experiences.isEmpty then mk_generic_entries (generic_article_contents search_html) 0
  else experiences

/-! ### `app.update_experience_bullets_in_html` -/

/-- One update candidate (the dict built at app.py lines 495–522; the
Python key `"end"` is `end_idx`, `end` being a Lean keyword). -/
structure UpdEntry where
  type : Str
  start : Nat
  content_start : Nat
  content_end : Nat
  end_idx : Nat
  opening_tag : Str
  content : Str
deriving DecidableEq, Repr

def upd_candidates (search_html : Str) (tagLit tokVal closeLit tagName typeName : Str) : List UpdEntry :=
  (findOpenTags (pyLower search_html) tagLit ("class").toList tokVal 0 (search_html.length + 2)).filterMap
    (fun pe =>
      let close_pos := find_matching_close_tag search_html pe.2 tagName
      if close_pos = -1 then none
      else
        let cp := close_pos.toNat
        let content := pySlice search_html pe.2 cp
        if pyContains (pyLower content) ("<ul").toList then
          some { type := typeName, start := pe.1, content_start := pe.2, content_end := cp,
                 end_idx := cp + closeLit.length,
                 opening_tag := pySlice search_html pe.1 pe.2, content := content }
        else none)

def upd_article_candidates (search_html : Str) : List UpdEntry :=
  upd_candidates search_html ("<article").toList ("entry").toList ("</article>").toList
    ("article").toList ("article").toList

def upd_role_candidates (search_html : Str) : List UpdEntry :=
  upd_candidates search_html ("<div").toList ("role-entry").toList ("</div>").toList
    ("div").toList ("role-entry").toList

/-- All candidates, position-sorted (`all_entries.sort(key=lambda x: x["start"])`,
a stable ascending sort). -/
def upd_all_entries (search_html : Str) : List UpdEntry :=
  pySortBy (fun a b => decide (a.start < b.start))
    (upd_article_candidates search_html ++ upd_role_candidates search_html)

/-- `re.sub(r'<ul[^>]*>.*?</ul>', repl, content, flags=re.DOTALL|re.IGNORECASE)`
with a literal replacement.  Python processes backslash escapes in the
replacement template (`\1`/`\g` raise `invalid group reference` since the
pattern has no groups, unknown ASCII-letter escapes like `\q` raise
`bad escape`, and `\t`/`\n` are rewritten to control characters), so this
literal-splice model coincides with `re.sub` exactly for replacement
strings free of the backslash character.  The replacement the updater
builds is fixed literal text (containing real newlines and spaces, no
backslash) around the bullet texts, so the update theorems below assume
backslash-free bullets and state nothing about bullets containing a
backslash, where the source raises or rewrites escapes. -/
def replaceUlsGo (s low repl : Str) : Nat → Nat → Str
  | pos, 0 => s.drop pos
  | pos, fuel + 1 =>
    match pyFindFrom low ("<ul").toList pos with
    | none => s.drop pos
    | some p =>
      match attrRegionEnd (low.drop (p + ("<ul").toList.length)) [] [] false with
      | some k =>
        match pyFindFrom low ("</ul>").toList (p + ("<ul").toList.length + k) with
        | some q => pySlice s pos p ++ repl ++ replaceUlsGo s low repl (q + ("</ul>").toList.length) fuel
        | none => pySlice s pos (p + 1) ++ replaceUlsGo s low repl (p + 1) fuel
      | none => pySlice s pos (p + 1) ++ replaceUlsGo s low repl (p + 1) fuel

def replace_uls (content repl : Str) : Str :=
  replaceUlsGo content (pyLower content) repl 0 (content.length + 2)

/-- The region the updater searches: the experience section's content when
that section matches, the whole document otherwise. -/
def upd_search_html (html : Str) : Str :=
  match find_experience_section html with
  | none => html
  | some pcq => pySlice html pcq.2.1 pcq.2.2

/-- `app.update_experience_bullets_in_html` (the `entry_type` parameter of
the source is unused by its body and omitted). -/
def update_experience_bullets_in_html (html : Str) (exp_index : Nat) (new_bullets : List Str) : Str :=
  let sec := find_experience_section html
  let pre := match sec with | none => [] | some pcq => html.take pcq.2.1
  let search_html := upd_search_html html
  let suf := match sec with | none => [] | some pcq => html.drop pcq.2.2
  let all_entries := upd_all_entries search_html
  let search_html2 :=
    match all_entries[exp_index]? with
    | none => search_html
    | some entry =>
      let new_ul_content := joinSep ("\n                        ").toList
        ((new_bullets.filter (fun b => pyStrip b ≠ [])).map
          (fun b => ("<li>").toList ++ b ++ ("</li>").toList))
      let updated_content := replace_uls entry.content
        (("<ul>\n                        ").toList ++ new_ul_content ++ ("\n                    </ul>").toList)
      let close_tag := if entry.type = ("article").toList then ("</article>").toList else ("</div>").toList
      search_html.take entry.start ++ entry.opening_tag ++ updated_content ++ close_tag
        ++ search_html.drop entry.end_idx
  pre ++ search_html2 ++ suf

/-! ### Lemmas about `pyStrip` and searching in concatenations -/

theorem pyStripLeft_length_le (s : Str) : (pyStripLeft s).length ≤ s.length := by
  induction s with
  | nil => simp [pyStripLeft]
  | cons c t ih =>
    unfold pyStripLeft
    split
    · exact le_trans ih (by simp)
    · simp

theorem pyStripLeft_of_head (s : Str) (c : Char) (hh : s.head? = some c)
    (hc : isPySpace c = false) : pyStripLeft s = s := by
  cases s with
  | nil => cases hh
  | cons a t =>
    rw [List.head?_cons, Option.some_inj] at hh
    subst hh
    unfold pyStripLeft
    rw [hc]
    simp

theorem pyStripLeft_of_length (s : Str) (h : (pyStripLeft s).length = s.length) :
    pyStripLeft s = s := by
  induction s with
  | nil => rfl
  | cons c t ih =>
    by_cases hc : isPySpace c = true
    · exfalso
      have h1 : pyStripLeft (c :: t) = pyStripLeft t := by
        simp [pyStripLeft, hc]
      rw [h1] at h
      have := pyStripLeft_length_le t
      simp only [List.length_cons] at h
      omega
    · simp [pyStripLeft, hc]

/-- A stripped nonempty string ends with a non-whitespace character. -/
theorem stripped_last (x : Str) (e : Char) (hx : pyStrip x = x)
    (he : x.getLast? = some e) : isPySpace e = false := by
  by_contra hws
  rw [Bool.not_eq_false] at hws
  have hlt : (pyStripLeft x.reverse).length < x.length := by
    cases hx' : x.reverse with
    | nil =>
      exfalso
      have hxnil : x = [] := by simpa using congrArg List.reverse hx'
      rw [hxnil] at he
      cases he
    | cons a t =>
      have ha : a = e := by
        have hh := List.head?_reverse x
        rw [hx'] at hh
        rw [List.head?_cons, he] at hh
        exact Option.some_inj.mp hh
      have h1 : pyStripLeft (a :: t) = pyStripLeft t := by
        simp [pyStripLeft, ha, hws]
      have h2 := pyStripLeft_length_le t
      have h3 : x.length = t.length + 1 := by
        have := congrArg List.length hx'
        simpa using this
      rw [h1]
      omega
  have hfinal : (pyStrip x).length < x.length := by
    unfold pyStrip
    calc (pyStripLeft ((pyStripLeft x.reverse).reverse)).length
        ≤ (pyStripLeft x.reverse).reverse.length := pyStripLeft_length_le _
      _ = (pyStripLeft x.reverse).length := by simp
      _ < x.length := hlt
  rw [hx] at hfinal
  omega

/-- A stripped nonempty string starts with a non-whitespace character. -/
theorem stripped_head (x : Str) (e : Char) (hx : pyStrip x = x)
    (he : x.head? = some e) : isPySpace e = false := by
  by_contra hws
  rw [Bool.not_eq_false] at hws
  have hy : (pyStripLeft x.reverse).reverse.length = x.length ∨
      (pyStrip x).length < x.length := by
    rcases Nat.lt_or_ge (pyStripLeft x.reverse).length x.reverse.length with h | h
    · right
      unfold pyStrip
      calc (pyStripLeft ((pyStripLeft x.reverse).reverse)).length
          ≤ (pyStripLeft x.reverse).reverse.length := pyStripLeft_length_le _
        _ = (pyStripLeft x.reverse).length := by simp
        _ < x.reverse.length := h
        _ = x.length := by simp
    · left
      have := pyStripLeft_length_le x.reverse
      have hlen : (pyStripLeft x.reverse).length = x.reverse.length := by omega
      simp [hlen]
  rcases hy with hy | hy
  · have hyeq : (pyStripLeft x.reverse).reverse = x := by
      have hlen : (pyStripLeft x.reverse).length = x.reverse.length := by
        have := congrArg List.length (pyStripLeft_of_length x.reverse (by simpa using hy))
        simpa using hy
      have := pyStripLeft_of_length x.reverse (by simpa using hlen)
      rw [this]
      simp
    have hfinal : pyStrip x = pyStripLeft x := by
      unfold pyStrip
      rw [hyeq]
    rw [hfinal] at hx
    cases hx' : x with
    | nil =>
      rw [hx'] at he
      cases he
    | cons a t =>
      rw [hx'] at he
      rw [List.head?_cons] at he
      have ha : a = e := Option.some_inj.mp he
      rw [hx'] at hx
      have h1 : pyStripLeft (a :: t) = pyStripLeft t := by
        simp [pyStripLeft, ha, hws]
      rw [h1] at hx
      have h2 := pyStripLeft_length_le t
      have := congrArg List.length hx
      simp only [List.length_cons] at this
      omega
  · rw [hx] at hy
    omega

/-- Append with a non-whitespace-fringed concrete left part and a stripped
right part is stripped. -/
theorem pyStrip_append (pre x : Str) (c d : Char)
    (hhead : pre.head? = some c) (hc : isPySpace c = false)
    (hlast : pre.getLast? = some d) (hd : isPySpace d = false)
    (hx : pyStrip x = x) : pyStrip (pre ++ x) = pre ++ x := by
  have hpre_ne : pre ≠ [] := by
    intro h
    rw [h] at hhead
    cases hhead
  have hinner : pyStripLeft (pre ++ x).reverse = (pre ++ x).reverse := by
    apply pyStripLeft_of_head _ (match x.getLast? with | some e => e | none => d)
    · rw [List.head?_reverse, List.getLast?_append]
      cases hxl : x.getLast? with
      | none => simp [hxl, hlast]
      | some e => simp [hxl]
    · cases hxl : x.getLast? with
      | none => simpa [hxl] using hd
      | some e =>
        simp only [hxl]
        apply stripped_last x e hx hxl
  unfold pyStrip
  rw [hinner, List.reverse_reverse]
  apply pyStripLeft_of_head _ c
  · rw [List.head?_append, hhead]
    rfl
  · exact hc

theorem strFind_append_none (pre x pat : Str)
    (hover : ∀ i, i < pre.length → ¬ (pat.take (pre.length - i)) <+: pre.drop i)
    (hx : strFind x pat = none) : strFind (pre ++ x) pat = none := by
  rw [strFind_append pre x pat (no_occ_of_overlap pre x pat hover), hx]
  rfl

theorem pyContains_of_occurs (s pat : Str) (i : Nat) (h : OccursAt pat s i) :
    pyContains s pat = true := by
  obtain ⟨j, hj, _⟩ := strFind_of_occurs s pat i h
  simp [pyContains, hj]

theorem pyContains_of_prefix (s pat : Str) (h : pat <+: s) :
    pyContains s pat = true :=
  pyContains_of_occurs s pat 0 (by simpa [OccursAt] using h)

/-- Removing a leading literal occurrence: `(pre ++ x).replace(pre, '') = x`
when `pre` does not occur in `x` (and no occurrence straddles). -/
theorem replaceAll_strip_leading (pre x : Str) (hpre : pre ≠ [])
    (hx : strFind x pre = none) :
    replaceAll (pre ++ x) pre [] = x := by
  have h0 : strFind (pre ++ x) pre = some 0 :=
    strFind_of_isPrefixOf _ _ (List.isPrefixOf_iff_prefix.mpr (List.prefix_append pre x))
  rw [replaceAll_step _ _ _ 0 hpre h0]
  simp only [List.take_zero, List.nil_append, Nat.zero_add, List.drop_left]
  exact replaceAll_of_none x pre [] hx

theorem take_slice_drop (s : Str) (a b : Nat) (hab : a ≤ b) :
    s.take a ++ pySlice s a b ++ s.drop b = s := by
  have h1 : s.drop b = (s.drop a).drop (b - a) := by
    rw [List.drop_drop]
    congr 1
    omega
  simp only [pySlice]
  rw [List.append_assoc, h1, List.take_append_drop, List.take_append_drop]

theorem pyFindFrom_ge (s pat : Str) (start i : Nat)
    (h : pyFindFrom s pat start = some i) : start ≤ i := by
  unfold pyFindFrom at h
  rw [Option.map_eq_some'] at h
  obtain ⟨n, _, rfl⟩ := h
  omega

theorem find_section_match_le (low : Str) : ∀ (fuel pos p cs q : Nat),
    find_section_match low pos fuel = some (p, cs, q) → cs ≤ q := by
  intro fuel
  induction fuel with
  | zero => intro pos p cs q h; cases h
  | succ fuel ih =>
    intro pos p cs q h
    unfold find_section_match at h
    cases h1 : pyFindFrom low ("<section").toList pos with
    | none => rw [h1] at h; cases h
    | some pp =>
      simp only [h1] at h
      cases h2 : attrRegionEnd (low.drop (pp + ("<section").toList.length))
          ("id").toList ("experience").toList true with
      | none =>
        simp only [h2] at h
        exact ih _ _ _ _ h
      | some k =>
        simp only [h2] at h
        cases h3 : pyFindFrom low ("</section>").toList (pp + ("<section").toList.length + k) with
        | none =>
          simp only [h3] at h
          exact ih _ _ _ _ h
        | some qq =>
          simp only [h3] at h
          simp only [Option.some_inj, Prod.mk.injEq] at h
          obtain ⟨_, hcs, hq⟩ := h
          subst hcs
          subst hq
          exact pyFindFrom_ge _ _ _ _ h3

theorem linkedin_display_renorm (x : Str)
    (h1 : strFind x ("https://").toList = none)
    (h2 : strFind x ("http://").toList = none)
    (h3 : strFind x ("www.").toList = none)
    (h4 : strFind x ("linkedin.com/in/").toList = none)
    (h5 : pyStrip x = x) :
    linkedin_handle (linkedin_display x) = x := by
  have hstrip : pyStrip (("linkedin.com/in/").toList ++ x) = ("linkedin.com/in/").toList ++ x :=
    pyStrip_append _ x 'l' '/' (by decide) (by decide) (by decide) (by decide) h5
  have hcont : pyContains (("linkedin.com/in/").toList ++ x) ("linkedin.com").toList = true :=
    pyContains_of_prefix _ _ (List.IsPrefix.trans (by decide) (List.prefix_append _ _))
  have hf1 : strFind (("linkedin.com/in/").toList ++ x) ("https://").toList = none :=
    strFind_append_none _ _ _ (by decide) h1
  have hf2 : strFind (("linkedin.com/in/").toList ++ x) ("http://").toList = none :=
    strFind_append_none _ _ _ (by decide) h2
  have hf3 : strFind (("linkedin.com/in/").toList ++ x) ("www.").toList = none :=
    strFind_append_none _ _ _ (by decide) h3
  have hpre : (("linkedin.com/in/").toList).isPrefixOf (("linkedin.com/in/").toList ++ x) = true :=
    List.isPrefixOf_iff_prefix.mpr (List.prefix_append _ _)
  show linkedin_handle (("linkedin.com/in/").toList ++ x) = x
  simp only [linkedin_handle]
  rw [hstrip, hcont]
  simp only [if_true]
  rw [replaceAll_of_none _ _ _ hf1, replaceAll_of_none _ _ _ hf2,
      replaceAll_of_none _ _ _ hf3, hpre]
  simp only [if_true]
  exact replaceAll_strip_leading _ x (by decide) h4

theorem linkedin_url_renorm (x : Str)
    (h1 : strFind x ("https://").toList = none)
    (h2 : strFind x ("http://").toList = none)
    (h3 : strFind x ("www.").toList = none)
    (h4 : strFind x ("linkedin.com/in/").toList = none)
    (h5 : pyStrip x = x) :
    linkedin_handle (linkedin_url x) = x := by
  have hstrip : pyStrip (("https://www.linkedin.com/in/").toList ++ x)
      = ("https://www.linkedin.com/in/").toList ++ x :=
    pyStrip_append _ x 'h' '/' (by decide) (by decide) (by decide) (by decide) h5
  have hcont : pyContains (("https://www.linkedin.com/in/").toList ++ x) ("linkedin.com").toList = true := by
    apply pyContains_of_occurs _ _ 12
    show ("linkedin.com").toList <+: (("https://www.linkedin.com/in/").toList ++ x).drop 12
    rw [List.drop_append_of_le_length (by decide)]
    exact List.IsPrefix.trans (by decide) (List.prefix_append _ _)
  have hs1 : strFind (("https://www.linkedin.com/in/").toList ++ x) ("https://").toList = some 0 :=
    strFind_of_isPrefixOf _ _ (List.isPrefixOf_iff_prefix.mpr
      (List.IsPrefix.trans (by decide) (List.prefix_append _ _)))
  have hr1tail : strFind (("www.linkedin.com/in/").toList ++ x) ("https://").toList = none :=
    strFind_append_none _ _ _ (by decide) h1
  have hf2 : strFind (("www.linkedin.com/in/").toList ++ x) ("http://").toList = none :=
    strFind_append_none _ _ _ (by decide) h2
  have hw : replaceAll (("www.").toList ++ (("linkedin.com/in/").toList ++ x)) ("www.").toList [] =
      ("linkedin.com/in/").toList ++ x :=
    replaceAll_strip_leading _ _ (by decide) (strFind_append_none _ _ _ (by decide) h3)
  have hpre : (("linkedin.com/in/").toList).isPrefixOf (("linkedin.com/in/").toList ++ x) = true :=
    List.isPrefixOf_iff_prefix.mpr (List.prefix_append _ _)
  show linkedin_handle (("https://www.linkedin.com/in/").toList ++ x) = x
  simp only [linkedin_handle]
  rw [hstrip, hcont]
  simp only [if_true]
  rw [replaceAll_step _ _ _ 0 (by decide) hs1]
  simp only [List.take_zero, List.nil_append, Nat.zero_add]
  have hdrop8 : (("https://www.linkedin.com/in/").toList ++ x).drop (("https://").toList.length)
      = ("www.linkedin.com/in/").toList ++ x := by
    show (("https://").toList ++ (("www.linkedin.com/in/").toList ++ x)).drop (("https://").toList.length) = _
    rw [List.drop_left]
  rw [hdrop8, replaceAll_of_none _ _ _ hr1tail, replaceAll_of_none _ _ _ hf2]
  have hassoc : ("www.linkedin.com/in/").toList ++ x
      = ("www.").toList ++ (("linkedin.com/in/").toList ++ x) := rfl
  rw [hassoc, hw, hpre]
  simp only [if_true]
  exact replaceAll_strip_leading _ x (by decide) h4

theorem github_display_renorm (x : Str)
    (h1 : strFind x ("https://").toList = none)
    (h2 : strFind x ("http://").toList = none)
    (h3 : strFind x ("www.").toList = none)
    (h4 : strFind x ("github.com/").toList = none)
    (h5 : pyStrip x = x) :
    github_handle (github_display x) = x := by
  have hstrip : pyStrip (("github.com/").toList ++ x) = ("github.com/").toList ++ x :=
    pyStrip_append _ x 'g' '/' (by decide) (by decide) (by decide) (by decide) h5
  have hcont : pyContains (("github.com/").toList ++ x) ("github.com").toList = true :=
    pyContains_of_prefix _ _ (List.IsPrefix.trans (by decide) (List.prefix_append _ _))
  have hf1 : strFind (("github.com/").toList ++ x) ("https://").toList = none :=
    strFind_append_none _ _ _ (by decide) h1
  have hf2 : strFind (("github.com/").toList ++ x) ("http://").toList = none :=
    strFind_append_none _ _ _ (by decide) h2
  have hf3 : strFind (("github.com/").toList ++ x) ("www.").toList = none :=
    strFind_append_none _ _ _ (by decide) h3
  have hpre : (("github.com/").toList).isPrefixOf (("github.com/").toList ++ x) = true :=
    List.isPrefixOf_iff_prefix.mpr (List.prefix_append _ _)
  show github_handle (("github.com/").toList ++ x) = x
  simp only [github_handle]
  rw [hstrip, hcont]
  simp only [if_true]
  rw [replaceAll_of_none _ _ _ hf1, replaceAll_of_none _ _ _ hf2,
      replaceAll_of_none _ _ _ hf3, hpre]
  simp only [if_true]
  exact replaceAll_strip_leading _ x (by decide) h4

theorem github_url_renorm (x : Str)
    (h1 : strFind x ("https://").toList = none)
    (h2 : strFind x ("http://").toList = none)
    (h3 : strFind x ("www.").toList = none)
    (h4 : strFind x ("github.com/").toList = none)
    (h5 : pyStrip x = x) :
    github_handle (github_url x) = x := by
  have hstrip : pyStrip (("https://github.com/").toList ++ x)
      = ("https://github.com/").toList ++ x :=
    pyStrip_append _ x 'h' '/' (by decide) (by decide) (by decide) (by decide) h5
  have hcont : pyContains (("https://github.com/").toList ++ x) ("github.com").toList = true := by
    apply pyContains_of_occurs _ _ 8
    show ("github.com").toList <+: (("https://github.com/").toList ++ x).drop 8
    rw [List.drop_append_of_le_length (by decide)]
    exact List.IsPrefix.trans (by decide) (List.prefix_append _ _)
  have hs1 : strFind (("https://github.com/").toList ++ x) ("https://").toList = some 0 :=
    strFind_of_isPrefixOf _ _ (List.isPrefixOf_iff_prefix.mpr
      (List.IsPrefix.trans (by decide) (List.prefix_append _ _)))
  have hr1tail : strFind (("github.com/").toList ++ x) ("https://").toList = none :=
    strFind_append_none _ _ _ (by decide) h1
  have hf2 : strFind (("github.com/").toList ++ x) ("http://").toList = none :=
    strFind_append_none _ _ _ (by decide) h2
  have hf3 : strFind (("github.com/").toList ++ x) ("www.").toList = none :=
    strFind_append_none _ _ _ (by decide) h3
  have hpre : (("github.com/").toList).isPrefixOf (("github.com/").toList ++ x) = true :=
    List.isPrefixOf_iff_prefix.mpr (List.prefix_append _ _)
  show github_handle (("https://github.com/").toList ++ x) = x
  simp only [github_handle]
  rw [hstrip, hcont]
  simp only [if_true]
  rw [replaceAll_step _ _ _ 0 (by decide) hs1]
  simp only [List.take_zero, List.nil_append, Nat.zero_add]
  have hdrop8 : (("https://github.com/").toList ++ x).drop (("https://").toList.length)
      = ("github.com/").toList ++ x := by
    show (("https://").toList ++ (("github.com/").toList ++ x)).drop (("https://").toList.length) = _
    rw [List.drop_left]
  rw [hdrop8, replaceAll_of_none _ _ _ hr1tail, replaceAll_of_none _ _ _ hf2,
      replaceAll_of_none _ _ _ hf3, hpre]
  simp only [if_true]
  exact replaceAll_strip_leading _ x (by decide) h4

theorem reSubSectionGo_of_none (secOpen marker : Str) (tails : List Str) (s : Str) (fuel : Nat)
    (h : strFind s secOpen = none) (hf : 0 < fuel) :
    reSubSectionGo secOpen marker tails s fuel = s := by
  cases fuel with
  | zero => omega
  | succ f =>
    unfold reSubSectionGo
    rw [h]

theorem reSubSection_of_none (secOpen marker : Str) (tails : List Str) (s : Str)
    (h : strFind s secOpen = none) :
    reSubSection secOpen marker tails s = s :=
  reSubSectionGo_of_none _ _ _ _ _ h (by omega)

theorem findTailMatch_here (s marker : Str) (tails : List Str) (e : Nat)
    (h : tailMatchAt s marker tails = some e) :
    findTailMatch marker tails s = some (0, e) := by
  cases s with
  | nil =>
    unfold findTailMatch
    rw [h]
  | cons c t =>
    unfold findTailMatch
    rw [h]

theorem findTailMatch_skip (mid rest marker : Str) (tails : List Str)
    (h : ∀ i, i < mid.length → ¬ OccursAt marker (mid ++ rest) i) :
    findTailMatch marker tails (mid ++ rest)
      = (findTailMatch marker tails rest).map (fun qe => (qe.1 + mid.length, qe.2)) := by
  induction mid with
  | nil =>
    simp only [List.nil_append, List.length_nil]
    cases findTailMatch marker tails rest with
    | none => rfl
    | some qe => simp
  | cons c t ih =>
    have h0 : tailMatchAt (c :: (t ++ rest)) marker tails = none := by
      unfold tailMatchAt
      rw [if_neg]
      intro hp
      exact h 0 (by simp) (by simpa [OccursAt, List.isPrefixOf_iff_prefix] using hp)
    have hrec := ih (fun i hi => by
      have := h (i + 1) (by simp; omega)
      simpa [occursAt_succ] using this)
    show findTailMatch marker tails (c :: (t ++ rest)) = _
    conv_lhs => unfold findTailMatch
    simp only [h0, hrec]
    cases findTailMatch marker tails rest with
    | none => rfl
    | some qe =>
      cases qe
      simp only [Option.map_some', Option.some.injEq, Prod.mk.injEq, List.length_cons,
        and_true, true_and]
      omega

theorem tailMatchAt_marker (marker ws close b : Str)
    (hws : ∀ c ∈ ws, isPySpace c = true)
    (hclose : ∃ t, close = '<' :: t) :
    tailMatchAt (marker ++ (ws ++ (close ++ b))) marker [close]
      = some (marker.length + (ws.length + close.length)) := by
  have htw : (ws ++ (close ++ b)).takeWhile isPySpace = ws := by
    rw [List.takeWhile_append, List.takeWhile_eq_self_iff.mpr hws]
    simp only [if_pos rfl]
    obtain ⟨t, rfl⟩ := hclose
    rw [List.cons_append, List.takeWhile_cons_of_neg (by decide)]
    simp
  have hdropws : (ws ++ (close ++ b)).drop ws.length = close ++ b := List.drop_left _ _
  have hwsl : wsThenLit (ws ++ (close ++ b)) close = some (ws.length + close.length) := by
    unfold wsThenLit
    rw [htw, hdropws,
        if_pos (List.isPrefixOf_iff_prefix.mpr (List.prefix_append _ _))]
  unfold tailMatchAt
  rw [if_pos (List.isPrefixOf_iff_prefix.mpr (List.prefix_append _ _)), List.drop_left]
  unfold tailsFrom
  rw [hwsl]
  unfold tailsFrom
  rfl

/-- The core of the empty-section substitution: a document consisting of a
match-free part `a`, one exact empty-section block, and a match-free tail
`b` rewrites to `a ++ b`. -/
theorem reSubSection_removes (secOpen marker close : Str) (a mid ws b : Str)
    (hso : secOpen ≠ [])
    (hopen : ∀ i, i < a.length →
      ¬ OccursAt secOpen (a ++ (secOpen ++ (mid ++ (marker ++ (ws ++ (close ++ b)))))) i)
    (hmid : ∀ i, i < mid.length →
      ¬ OccursAt marker (mid ++ (marker ++ (ws ++ (close ++ b)))) i)
    (hws : ∀ c ∈ ws, isPySpace c = true)
    (hclose : ∃ t, close = '<' :: t)
    (hb : strFind b secOpen = none) :
    reSubSection secOpen marker [close]
        (a ++ (secOpen ++ (mid ++ (marker ++ (ws ++ (close ++ b)))))) = a ++ b := by
  have hfind : strFind (a ++ (secOpen ++ (mid ++ (marker ++ (ws ++ (close ++ b)))))) secOpen
      = some a.length := by
    rw [strFind_append _ _ _ hopen,
        strFind_of_isPrefixOf _ _ (List.isPrefixOf_iff_prefix.mpr (List.prefix_append _ _))]
    simp
  have hdrop : (a ++ (secOpen ++ (mid ++ (marker ++ (ws ++ (close ++ b)))))).drop
      (a.length + secOpen.length) = mid ++ (marker ++ (ws ++ (close ++ b))) := by
    rw [← List.append_assoc, ← List.length_append, List.drop_left]
  have htail : findTailMatch marker [close] (mid ++ (marker ++ (ws ++ (close ++ b))))
      = some (mid.length, marker.length + (ws.length + close.length)) := by
    rw [findTailMatch_skip _ _ _ _ hmid,
        findTailMatch_here _ _ _ _ (tailMatchAt_marker marker ws close b hws hclose)]
    simp
  have htake : (a ++ (secOpen ++ (mid ++ (marker ++ (ws ++ (close ++ b)))))).take a.length = a :=
    List.take_left _ _
  have hdrop2 : (mid ++ (marker ++ (ws ++ (close ++ b)))).drop
      (mid.length + (marker.length + (ws.length + close.length))) = b := by
    rw [List.drop_append, List.drop_append, List.drop_append, List.drop_left]
  have hfuelpos : 0 < (a ++ (secOpen ++ (mid ++ (marker ++ (ws ++ (close ++ b)))))).length := by
    simp only [List.length_append]
    cases secOpen
    · exact absurd rfl hso
    · simp only [List.length_cons]
      omega
  unfold reSubSection
  unfold reSubSectionGo
  simp only [hfind, hdrop, htail, htake, hdrop2]
  exact congrArg (a ++ ·) (reSubSectionGo_of_none _ _ _ _ _ hb hfuelpos)

/-- Two-tail variant (`MARKER \s* LIT1 \s* LIT2`, the summary pattern). -/
theorem tailMatchAt_marker2 (marker ws1 c1 ws2 c2 b : Str)
    (hws1 : ∀ c ∈ ws1, isPySpace c = true)
    (hws2 : ∀ c ∈ ws2, isPySpace c = true)
    (hc1 : ∃ t, c1 = '<' :: t)
    (hc2 : ∃ t, c2 = '<' :: t) :
    tailMatchAt (marker ++ (ws1 ++ (c1 ++ (ws2 ++ (c2 ++ b))))) marker [c1, c2]
      = some (marker.length + (ws1.length + (c1.length + (ws2.length + c2.length)))) := by
  have htw1 : (ws1 ++ (c1 ++ (ws2 ++ (c2 ++ b)))).takeWhile isPySpace = ws1 := by
    rw [List.takeWhile_append, List.takeWhile_eq_self_iff.mpr hws1]
    simp only [if_pos rfl]
    obtain ⟨t, rfl⟩ := hc1
    rw [List.cons_append, List.takeWhile_cons_of_neg (by decide)]
    simp
  have hdrop1 : (ws1 ++ (c1 ++ (ws2 ++ (c2 ++ b)))).drop ws1.length
      = c1 ++ (ws2 ++ (c2 ++ b)) := List.drop_left _ _
  have hwsl1 : wsThenLit (ws1 ++ (c1 ++ (ws2 ++ (c2 ++ b)))) c1
      = some (ws1.length + c1.length) := by
    unfold wsThenLit
    rw [htw1, hdrop1,
        if_pos (List.isPrefixOf_iff_prefix.mpr (List.prefix_append _ _))]
  have hdropk1 : (ws1 ++ (c1 ++ (ws2 ++ (c2 ++ b)))).drop (ws1.length + c1.length)
      = ws2 ++ (c2 ++ b) := by
    rw [← List.append_assoc, ← List.length_append, List.drop_left]
  have htw2 : (ws2 ++ (c2 ++ b)).takeWhile isPySpace = ws2 := by
    rw [List.takeWhile_append, List.takeWhile_eq_self_iff.mpr hws2]
    simp only [if_pos rfl]
    obtain ⟨t, rfl⟩ := hc2
    rw [List.cons_append, List.takeWhile_cons_of_neg (by decide)]
    simp
  have hdrop2 : (ws2 ++ (c2 ++ b)).drop ws2.length = c2 ++ b := List.drop_left _ _
  have hwsl2 : wsThenLit (ws2 ++ (c2 ++ b)) c2 = some (ws2.length + c2.length) := by
    unfold wsThenLit
    rw [htw2, hdrop2,
        if_pos (List.isPrefixOf_iff_prefix.mpr (List.prefix_append _ _))]
  unfold tailMatchAt
  rw [if_pos (List.isPrefixOf_iff_prefix.mpr (List.prefix_append _ _)), List.drop_left]
  unfold tailsFrom
  rw [hwsl1]
  show tailsFrom ((ws1 ++ (c1 ++ (ws2 ++ (c2 ++ b)))).drop (ws1.length + c1.length)) [c2]
      (marker.length + (ws1.length + c1.length))
    = some (marker.length + (ws1.length + (c1.length + (ws2.length + c2.length))))
  rw [hdropk1]
  unfold tailsFrom
  rw [hwsl2]
  show tailsFrom ((ws2 ++ (c2 ++ b)).drop (ws2.length + c2.length)) []
      (marker.length + (ws1.length + c1.length) + (ws2.length + c2.length))
    = some (marker.length + (ws1.length + (c1.length + (ws2.length + c2.length))))
  unfold tailsFrom
  exact congrArg some (by omega)

/-- Two-tail variant of the empty-section removal: a document consisting of
a match-free part `a`, one exact empty block whose tail is
`MARKER \s* LIT1 \s* LIT2`, and a match-free tail `b` rewrites to
`a ++ b`. -/
theorem reSubSection_removes2 (secOpen marker c1 c2 : Str) (a mid ws1 ws2 b : Str)
    (hso : secOpen ≠ [])
    (hopen : ∀ i, i < a.length →
      ¬ OccursAt secOpen
        (a ++ (secOpen ++ (mid ++ (marker ++ (ws1 ++ (c1 ++ (ws2 ++ (c2 ++ b)))))))) i)
    (hmid : ∀ i, i < mid.length →
      ¬ OccursAt marker (mid ++ (marker ++ (ws1 ++ (c1 ++ (ws2 ++ (c2 ++ b)))))) i)
    (hws1 : ∀ c ∈ ws1, isPySpace c = true)
    (hws2 : ∀ c ∈ ws2, isPySpace c = true)
    (hc1 : ∃ t, c1 = '<' :: t)
    (hc2 : ∃ t, c2 = '<' :: t)
    (hb : strFind b secOpen = none) :
    reSubSection secOpen marker [c1, c2]
        (a ++ (secOpen ++ (mid ++ (marker ++ (ws1 ++ (c1 ++ (ws2 ++ (c2 ++ b))))))))
      = a ++ b := by
  have hfind : strFind
      (a ++ (secOpen ++ (mid ++ (marker ++ (ws1 ++ (c1 ++ (ws2 ++ (c2 ++ b)))))))) secOpen
      = some a.length := by
    rw [strFind_append _ _ _ hopen,
        strFind_of_isPrefixOf _ _ (List.isPrefixOf_iff_prefix.mpr (List.prefix_append _ _))]
    simp
  have hdrop : (a ++ (secOpen ++ (mid ++ (marker ++ (ws1 ++ (c1 ++ (ws2 ++ (c2 ++ b)))))))).drop
      (a.length + secOpen.length) = mid ++ (marker ++ (ws1 ++ (c1 ++ (ws2 ++ (c2 ++ b))))) := by
    rw [← List.append_assoc, ← List.length_append, List.drop_left]
  have htail : findTailMatch marker [c1, c2]
      (mid ++ (marker ++ (ws1 ++ (c1 ++ (ws2 ++ (c2 ++ b))))))
      = some (mid.length, marker.length + (ws1.length + (c1.length
          + (ws2.length + c2.length)))) := by
    rw [findTailMatch_skip _ _ _ _ hmid,
        findTailMatch_here _ _ _ _ (tailMatchAt_marker2 marker ws1 c1 ws2 c2 b
          hws1 hws2 hc1 hc2)]
    simp
  have htake : (a ++ (secOpen ++ (mid ++ (marker ++ (ws1 ++ (c1 ++ (ws2 ++ (c2 ++ b)))))))).take
      a.length = a :=
    List.take_left _ _
  have hdrop2 : (mid ++ (marker ++ (ws1 ++ (c1 ++ (ws2 ++ (c2 ++ b)))))).drop
      (mid.length + (marker.length + (ws1.length + (c1.length + (ws2.length + c2.length)))))
      = b := by
    rw [List.drop_append, List.drop_append, List.drop_append, List.drop_append,
        List.drop_append, List.drop_left]
  have hfuelpos : 0 <
      (a ++ (secOpen ++ (mid ++ (marker ++ (ws1 ++ (c1 ++ (ws2 ++ (c2 ++ b)))))))).length := by
    simp only [List.length_append]
    cases secOpen
    · exact absurd rfl hso
    · simp only [List.length_cons]
      omega
  unfold reSubSection
  unfold reSubSectionGo
  simp only [hfind, hdrop, htail, htake, hdrop2]
  exact congrArg (a ++ ·) (reSubSectionGo_of_none _ _ _ _ _ hb hfuelpos)

theorem replaceAll_length_ge (pat rep : Str) (hpat : pat ≠ []) (hlen : pat.length ≤ rep.length) :
    ∀ (n : Nat) (s : Str), s.length ≤ n → s.length ≤ (replaceAll s pat rep).length := by
  intro n
  induction n with
  | zero =>
    intro s hs
    have : s.length = 0 := by omega
    omega
  | succ n ih =>
    intro s hs
    cases hf : strFind s pat with
    | none => rw [replaceAll_of_none _ _ _ hf]
    | some i =>
      rw [replaceAll_step s pat rep i hpat hf]
      have hfit := strFind_some_length s pat i hpat hf
      have hp : 0 < pat.length := by
        cases pat
        · exact absurd rfl hpat
        · simp
      have hrec := ih (s.drop (i + pat.length)) (by simp only [List.length_drop]; omega)
      simp only [List.length_append, List.length_take, List.length_drop] at hrec ⊢
      have hmin : min i s.length = i := Nat.min_eq_left (by omega)
      rw [hmin]
      omega

theorem replaceAll_length_gt (pat rep : Str) (hpat : pat ≠ []) (hlen : pat.length < rep.length)
    (s : Str) (i : Nat) (hf : strFind s pat = some i) :
    s.length < (replaceAll s pat rep).length := by
  rw [replaceAll_step s pat rep i hpat hf]
  have hfit := strFind_some_length s pat i hpat hf
  have hp : 0 < pat.length := by
    cases pat
    · exact absurd rfl hpat
    · simp
  have hrec := replaceAll_length_ge pat rep hpat (by omega)
    (s.drop (i + pat.length)).length (s.drop (i + pat.length)) le_rfl
  simp only [List.length_append, List.length_take, List.length_drop] at hrec ⊢
  have hmin : min i s.length = i := Nat.min_eq_left (by omega)
  rw [hmin]
  omega

/-! ### Lemmas for the Tag-Boundary Matcher equivalence (C5) -/

theorem occursAt_drop (pat s : Str) (start k : Nat) :
    OccursAt pat (s.drop start) k ↔ OccursAt pat s (start + k) := by
  simp [OccursAt, List.drop_drop]

theorem pyFindFrom_none (s pat : Str) (start : Nat)
    (h : pyFindFrom s pat start = none) :
    ∀ j, start ≤ j → ¬ OccursAt pat s j := by
  unfold pyFindFrom at h
  rw [Option.map_eq_none'] at h
  intro j hj hocc
  have : OccursAt pat (s.drop start) (j - start) := by
    rw [occursAt_drop]
    have : start + (j - start) = j := by omega
    rw [this]
    exact hocc
  exact strFind_none _ _ h _ this

theorem pyFindFrom_occurs (s pat : Str) (start i : Nat)
    (h : pyFindFrom s pat start = some i) : OccursAt pat s i := by
  unfold pyFindFrom at h
  rw [Option.map_eq_some'] at h
  obtain ⟨n, hn, rfl⟩ := h
  have := strFind_some _ _ _ hn
  rw [occursAt_drop] at this
  have e : start + n = n + start := by omega
  rw [e] at this
  exact this

theorem pyFindFrom_min (s pat : Str) (start i : Nat)
    (h : pyFindFrom s pat start = some i) :
    ∀ j, start ≤ j → j < i → ¬ OccursAt pat s j := by
  unfold pyFindFrom at h
  rw [Option.map_eq_some'] at h
  obtain ⟨n, hn, rfl⟩ := h
  intro j hj hji hocc
  have hocc' : OccursAt pat (s.drop start) (j - start) := by
    rw [occursAt_drop]
    have : start + (j - start) = j := by omega
    rw [this]
    exact hocc
  exact strFind_min _ _ _ hn (j - start) (by omega) hocc'

theorem pyFindFrom_length (s pat : Str) (start i : Nat) (hpat : pat ≠ [])
    (h : pyFindFrom s pat start = some i) : i + pat.length ≤ s.length := by
  rcases occursAt_length pat s i (pyFindFrom_occurs s pat start i h) with h' | h'
  · exact h'
  · exact absurd h' hpat

theorem close_scan_spec_succ (low openPat closePat : Str) (pos count f : Nat) :
    close_scan_spec low openPat closePat pos count (f + 1)
      = if pos < low.length then
          if closePat.isPrefixOf (low.drop pos) = true then
            if count = 1 then Int.ofNat pos
            else close_scan_spec low openPat closePat (pos + closePat.length) (count - 1) f
          else if openPat.isPrefixOf (low.drop pos) = true then
            close_scan_spec low openPat closePat (pos + openPat.length) (count + 1) f
          else close_scan_spec low openPat closePat (pos + 1) count f
        else -1 := rfl

/-- Fuel does not matter for the reference walker once it exceeds the
remaining length. -/
theorem close_scan_spec_congr (low openPat closePat : Str)
    (hop : openPat ≠ []) (hcl : closePat ≠ []) :
    ∀ (f : Nat) (pos count g : Nat), low.length - pos < f → low.length - pos < g →
      close_scan_spec low openPat closePat pos count f
        = close_scan_spec low openPat closePat pos count g := by
  intro f
  induction f with
  | zero => intro pos count g h1 _; omega
  | succ f ih =>
    intro pos count g h1 h2
    cases g with
    | zero => omega
    | succ g =>
      show close_scan_spec low openPat closePat pos count (f + 1)
        = close_scan_spec low openPat closePat pos count (g + 1)
      unfold close_scan_spec
      by_cases hpos : pos < low.length
      · rw [if_pos hpos, if_pos hpos]
        have hoplen : 0 < openPat.length := by
          cases openPat
          · exact absurd rfl hop
          · simp
        have hcllen : 0 < closePat.length := by
          cases closePat
          · exact absurd rfl hcl
          · simp
        by_cases hc : closePat.isPrefixOf (low.drop pos) = true
        · rw [if_pos hc, if_pos hc]
          by_cases hcount : count = 1
          · rw [if_pos hcount, if_pos hcount]
          · rw [if_neg hcount, if_neg hcount]
            exact ih _ _ _ (by omega) (by omega)
        · rw [if_neg hc, if_neg hc]
          by_cases ho : openPat.isPrefixOf (low.drop pos) = true
          · rw [if_pos ho, if_pos ho]
            exact ih _ _ _ (by omega) (by omega)
          · rw [if_neg ho, if_neg ho]
            exact ih _ _ _ (by omega) (by omega)
      · rw [if_neg hpos, if_neg hpos]

/-- The walker ignores a stretch free of open and close occurrences. -/
theorem close_scan_spec_skip (low openPat closePat : Str)
    (hop : openPat ≠ []) (hcl : closePat ≠ []) (tgt : Nat) (htgt : tgt < low.length) :
    ∀ (m pos count fuel fuel' : Nat), tgt - pos ≤ m → pos ≤ tgt →
      low.length - pos < fuel → low.length - tgt < fuel' →
      (∀ j, pos ≤ j → j < tgt →
        ¬ OccursAt closePat low j ∧ ¬ OccursAt openPat low j) →
      close_scan_spec low openPat closePat pos count fuel
        = close_scan_spec low openPat closePat tgt count fuel' := by
  intro m
  induction m with
  | zero =>
    intro pos count fuel fuel' hm hle h1 h2 _
    have : pos = tgt := by omega
    subst this
    exact close_scan_spec_congr low openPat closePat hop hcl fuel pos count fuel' h1 h2
  | succ m ih =>
    intro pos count fuel fuel' hm hle h1 h2 hfree
    by_cases heq : pos = tgt
    · subst heq
      exact close_scan_spec_congr low openPat closePat hop hcl fuel pos count fuel' h1 h2
    · have hlt : pos < tgt := by omega
      have hpos : pos < low.length := by omega
      cases fuel with
      | zero => omega
      | succ f =>
        rw [close_scan_spec_succ, if_pos hpos]
        have hnc : ¬ closePat.isPrefixOf (low.drop pos) = true := by
          intro hp
          exact (hfree pos le_rfl hlt).1 (by simpa [OccursAt, List.isPrefixOf_iff_prefix] using hp)
        have hno : ¬ openPat.isPrefixOf (low.drop pos) = true := by
          intro hp
          exact (hfree pos le_rfl hlt).2 (by simpa [OccursAt, List.isPrefixOf_iff_prefix] using hp)
        rw [if_neg hnc, if_neg hno]
        exact ih (pos + 1) count f fuel' (by omega) (by omega) (by omega) h2
          (fun j hj hjt => hfree j (by omega) hjt)

/-- With no close occurrence at or after `pos`, the walker reaches the end
of the document and yields `-1`. -/
theorem close_scan_spec_no_close (low openPat closePat : Str)
    (hop : openPat ≠ []) (hcl : closePat ≠ []) :
    ∀ (m pos count fuel : Nat), low.length - pos ≤ m → low.length - pos < fuel →
      (∀ j, pos ≤ j → ¬ OccursAt closePat low j) →
      close_scan_spec low openPat closePat pos count fuel = -1 := by
  intro m
  induction m with
  | zero =>
    intro pos count fuel hm hf _
    cases fuel with
    | zero => omega
    | succ f =>
      rw [close_scan_spec_succ, if_neg (by omega)]
  | succ m ih =>
    intro pos count fuel hm hf hfree
    by_cases hpos : pos < low.length
    · cases fuel with
      | zero => omega
      | succ f =>
        have hoplen : 0 < openPat.length := by
          cases openPat
          · exact absurd rfl hop
          · simp
        rw [close_scan_spec_succ, if_pos hpos]
        have hnc : ¬ closePat.isPrefixOf (low.drop pos) = true := by
          intro hp
          exact hfree pos le_rfl (by simpa [OccursAt, List.isPrefixOf_iff_prefix] using hp)
        rw [if_neg hnc]
        by_cases ho : openPat.isPrefixOf (low.drop pos) = true
        · rw [if_pos ho]
          exact ih (pos + openPat.length) (count + 1) f (by omega) (by omega)
            (fun j hj => hfree j (by omega))
        · rw [if_neg ho]
          exact ih (pos + 1) count f (by omega) (by omega)
            (fun j hj => hfree j (by omega))
    · cases fuel with
      | zero => omega
      | succ f =>
        rw [close_scan_spec_succ, if_neg hpos]

theorem fmc_loop_succ (low openPat closePat : Str) (pos count f : Nat) :
    fmc_loop low openPat closePat pos count (f + 1)
      = if 0 < count ∧ pos < low.length then
          match pyFindFrom low closePat pos with
          | none => -1
          | some nc =>
            let closeStep : Int :=
              if count - 1 = 0 then Int.ofNat nc
              else fmc_loop low openPat closePat (nc + closePat.length) (count - 1) f
            match pyFindFrom low openPat pos with
            | some no =>
              if no < nc then fmc_loop low openPat closePat (no + openPat.length) (count + 1) f
              else closeStep
            | none => closeStep
        else -1 := rfl

/-- The find-and-jump loop of `find_matching_close_tag` computes exactly
the position-by-position counter walk of the specification. -/
theorem fmc_loop_eq_spec (low openPat closePat : Str)
    (hop : openPat ≠ []) (hcl : closePat ≠ []) :
    ∀ (n pos count fuel₁ fuel₂ : Nat), low.length - pos ≤ n → 1 ≤ count →
      low.length - pos < fuel₁ → low.length - pos < fuel₂ →
      fmc_loop low openPat closePat pos count fuel₁
        = close_scan_spec low openPat closePat pos count fuel₂ := by
  have hoplen : 0 < openPat.length := by
    cases openPat
    · exact absurd rfl hop
    · simp
  have hcllen : 0 < closePat.length := by
    cases closePat
    · exact absurd rfl hcl
    · simp
  intro n
  induction n with
  | zero =>
    intro pos count f1 f2 hm _ h1 h2
    cases f1 with
    | zero => omega
    | succ f1 =>
      cases f2 with
      | zero => omega
      | succ f2 =>
        rw [fmc_loop_succ, close_scan_spec_succ,
            if_neg (fun h => by omega : ¬ (0 < count ∧ pos < low.length)),
            if_neg (by omega : ¬ pos < low.length)]
  | succ n ih =>
    intro pos count f1 f2 hm hc h1 h2
    by_cases hpos : pos < low.length
    · cases f1 with
      | zero => omega
      | succ f1 =>
        rw [fmc_loop_succ, if_pos ⟨by omega, hpos⟩]
        cases hnc : pyFindFrom low closePat pos with
        | none =>
          simp only [hnc]
          rw [close_scan_spec_no_close low openPat closePat hop hcl
            (low.length - pos) pos count f2 le_rfl h2 (pyFindFrom_none _ _ _ hnc)]
        | some c =>
          simp only [hnc]
          have hcge := pyFindFrom_ge _ _ _ _ hnc
          have hcocc := pyFindFrom_occurs _ _ _ _ hnc
          have hcmin := pyFindFrom_min _ _ _ _ hnc
          have hclen := pyFindFrom_length _ _ _ _ hcl hnc
          have hclt : c < low.length := by omega
          have hcpre : closePat.isPrefixOf (low.drop c) = true :=
            List.isPrefixOf_iff_prefix.mpr hcocc
          cases hno : pyFindFrom low openPat pos with
          | some o =>
            simp only [hno]
            have hoocc := pyFindFrom_occurs _ _ _ _ hno
            have hoge := pyFindFrom_ge _ _ _ _ hno
            have homin := pyFindFrom_min _ _ _ _ hno
            have holen := pyFindFrom_length _ _ _ _ hop hno
            have holt_len : o < low.length := by omega
            by_cases holt : o < c
            · rw [if_pos holt]
              have hspec : close_scan_spec low openPat closePat pos count f2
                  = close_scan_spec low openPat closePat (o + openPat.length) (count + 1)
                      (low.length - o) := by
                rw [close_scan_spec_skip low openPat closePat hop hcl o holt_len
                  (o - pos) pos count f2 ((low.length - o) + 1) (by omega) (by omega) h2 (by omega)
                  (fun j hj hjo => ⟨hcmin j hj (by omega), homin j hj (by omega)⟩)]
                rw [close_scan_spec_succ, if_pos holt_len]
                have hnc_o : ¬ closePat.isPrefixOf (low.drop o) = true := by
                  intro hp
                  exact hcmin o hoge holt (by simpa [OccursAt, List.isPrefixOf_iff_prefix] using hp)
                rw [if_neg hnc_o, if_pos (List.isPrefixOf_iff_prefix.mpr hoocc)]
              rw [hspec]
              exact ih (o + openPat.length) (count + 1) f1 (low.length - o)
                (by omega) (by omega) (by omega) (by omega)
            · rw [if_neg holt]
              have hspec : close_scan_spec low openPat closePat pos count f2
                  = close_scan_spec low openPat closePat c count ((low.length - c) + 1) :=
                close_scan_spec_skip low openPat closePat hop hcl c hclt
                  (c - pos) pos count f2 ((low.length - c) + 1) (by omega) (by omega) h2 (by omega)
                  (fun j hj hjc => ⟨hcmin j hj hjc, homin j hj (by omega)⟩)
              rw [hspec, close_scan_spec_succ, if_pos hclt, if_pos hcpre]
              by_cases hcount : count = 1
              · rw [if_pos (by omega : count - 1 = 0), if_pos hcount]
              · rw [if_neg (by omega : ¬ count - 1 = 0), if_neg hcount]
                exact ih (c + closePat.length) (count - 1) f1 (low.length - c)
                  (by omega) (by omega) (by omega) (by omega)
          | none =>
            simp only [hno]
            have hofree := pyFindFrom_none _ _ _ hno
            have hspec : close_scan_spec low openPat closePat pos count f2
                = close_scan_spec low openPat closePat c count ((low.length - c) + 1) :=
              close_scan_spec_skip low openPat closePat hop hcl c hclt
                (c - pos) pos count f2 ((low.length - c) + 1) (by omega) (by omega) h2 (by omega)
                (fun j hj hjc => ⟨hcmin j hj hjc, hofree j hj⟩)
            rw [hspec, close_scan_spec_succ, if_pos hclt, if_pos hcpre]
            by_cases hcount : count = 1
            · rw [if_pos (by omega : count - 1 = 0), if_pos hcount]
            · rw [if_neg (by omega : ¬ count - 1 = 0), if_neg hcount]
              exact ih (c + closePat.length) (count - 1) f1 (low.length - c)
                (by omega) (by omega) (by omega) (by omega)
    · cases f1 with
      | zero => omega
      | succ f1 =>
        cases f2 with
        | zero => omega
        | succ f2 =>
          rw [fmc_loop_succ, close_scan_spec_succ,
              if_neg (fun h => by omega : ¬ (0 < count ∧ pos < low.length)),
              if_neg hpos]

/-! ## Claims -/

/-- Failing input for C2: a non-current entry added later
(`created_at = "2"`) and a current entry added earlier (`created_at = "1"`). -/
def c2_noncurrent : WorkExperience :=
  { company := ("Acme").toList, role := ("Old Role").toList, start_date := ("2019").toList,
    end_date := ("2020").toList, location := [], created_at := ("2").toList,
    bullets := [("did a").toList], is_current := false }

def c2_current : WorkExperience :=
  { company := ("Beta").toList, role := ("New Role").toList, start_date := ("2021").toList,
    end_date := ("Present").toList, location := [], created_at := ("1").toList,
    bullets := [("did b").toList], is_current := true }

/-- C2: the claim states `_format_experience_html` renders entries with
`is_current = true` before all others.  The code sorts ascending by
`(not is_current, created_at)` — current first — but then reverses the
whole list, so the rendered order puts the *non-current* entry first,
contradicting the code's own comments ("Sort: current jobs first").
This theorem evaluates the renderer at the failing input: the non-current
entry is emitted before the current one. -/
theorem C2_code_bug :
    (sorted_exps [c2_noncurrent, c2_current]).map (fun e => e.is_current) = [false, true]
    ∧ _format_experience_html [c2_noncurrent, c2_current]
      = exp_article_html c2_noncurrent ++ ("\n").toList ++ exp_article_html c2_current := by
  exact ⟨rfl, rfl⟩

def c8_acme_current : WorkExperience :=
  { company := ("Acme").toList, role := ("Engineer II").toList, start_date := ("2021").toList,
    end_date := ("Present").toList, location := ("NY").toList, created_at := ("1").toList,
    bullets := [("x").toList], is_current := true }

def c8_acme_older : WorkExperience :=
  { company := ("ACME").toList, role := ("Engineer I").toList, start_date := ("2019").toList,
    end_date := ("2020").toList, location := ("NY").toList, created_at := ("2").toList,
    bullets := [("y").toList], is_current := false }

def c8_globex : WorkExperience :=
  { company := ("Globex").toList, role := ("Analyst").toList, start_date := ("2018").toList,
    end_date := ("2019").toList, location := ("LA").toList, created_at := ("0").toList,
    bullets := [("z").toList], is_current := false }

/-- C8: grouped rendering of two case-equal "Acme"/"ACME" entries (one
current, one not) plus one "Globex" entry does produce exactly two
top-level groups, but inside the Acme group the *non-current* role comes
first — the reversal bug of C2 — contradicting the claimed
current-first/most-recent-first role order. -/
theorem C8_code_bug :
    (company_groups (sorted_exps [c8_acme_current, c8_acme_older, c8_globex])).map
        (fun kg => (kg.1, kg.2.roles.map (fun e => e.is_current)))
      = [(("acme").toList, [false, true]), (("globex").toList, [false])] := by
  exact rfl

def empty_contact : Contact := ⟨none, none, none, none, none, none, none⟩

/-- The default record shape of
`data_manager.get_default_experiences_structure` with every field empty
(and contact keys absent). -/
def empty_record : Experiences :=
  { contact := empty_contact, summary := [], work_experiences := [], education := [],
    skills := [(("technical").toList, []), (("soft").toList, []),
               (("languages").toList, []), (("tools").toList, [])],
    projects := [], certifications := [], awards := [] }

def c4_template : Str :=
  ("N[\x7b\x7bCONTACT_NAME\x7d\x7d] E[\x7b\x7bCONTACT_EMAIL\x7d\x7d] P[\x7b\x7bCONTACT_PHONE\x7d\x7d] L[\x7b\x7bCONTACT_LOCATION\x7d\x7d] K[\x7b\x7bCONTACT_LINKS\x7d\x7d] I[\x7b\x7bCONTACT_LINKEDIN\x7d\x7d] G[\x7b\x7bCONTACT_GITHUB\x7d\x7d] S[\x7b\x7bSUMMARY\x7d\x7d]").toList

def c6_template : Str :=
  ("<section id=\"experience\"><h2>Jobs</h2>\x7b\x7bEXPERIENCE\x7d\x7d</section>").toList

/-- C6, counterexample: a template whose experience section carries the
heading `<h2>Jobs</h2>` instead of the literal `<h2>Experience</h2>` is not
matched by the fixed removal patterns, so with an empty record the heading
stays in `fill`'s output. -/
theorem C6_counterexample :
    pyContains (fill_template_with_experiences c6_template empty_record ("normal").toList false)
      ("<h2>Jobs</h2>").toList = true := by
  decide

/-- C6, amended: empty-section suppression holds for documents whose
sections match the fixed literal removal patterns — the shape of the
built-in templates.  For a document consisting of a head part, the seven
sections in template order (each: its fixed opener, a heading part, the
fixed marker, whitespace-only body, `</section>`; the summary section with
its `<p class="summary">` marker and `</p>`/`</section>` tail), and glue
parts, `_remove_empty_sections` deletes all seven sections, and — provided
the experience heading occurs nowhere in the remaining head/glue/tail
parts — the heading `<h2>Experience</h2>` does not occur in the result.
The hypotheses only require each opener not to occur before its own
section and each marker not to occur inside its own heading part, so a
multi-section document with all seven sections present (as in the built-in
templates) instantiates them. -/
theorem C6_amended_theorem (H mid1 ws1a ws1b mid2 ws2 mid3 ws3 mid4 ws4 mid5 ws5 mid6 ws6 mid7 ws7
      g1 g2 g3 g4 g5 g6 F : Str)
    (hopen1 : ∀ i, i < (H : Str).length →
      ¬ OccursAt (("<section id=\"summary\">").toList) (H ++ ((("<section id=\"summary\">").toList) ++ (mid1 ++ ((("<p class=\"summary\">").toList) ++ (ws1a ++ ((("</p>").toList) ++ (ws1b ++ ((("</section>").toList) ++ (g1 ++ ((("<section id=\"experience\">").toList) ++ (mid2 ++ ((("<h2>Experience</h2>").toList) ++ (ws2 ++ ((("</section>").toList) ++ (g2 ++ ((("<section id=\"education\">").toList) ++ (mid3 ++ ((("<h2>Education</h2>").toList) ++ (ws3 ++ ((("</section>").toList) ++ (g3 ++ ((("<section id=\"skills\">").toList) ++ (mid4 ++ ((("<h2>Skills</h2>").toList) ++ (ws4 ++ ((("</section>").toList) ++ (g4 ++ ((("<section id=\"projects\">").toList) ++ (mid5 ++ ((("<h2>Projects</h2>").toList) ++ (ws5 ++ ((("</section>").toList) ++ (g5 ++ ((("<section id=\"certifications\">").toList) ++ (mid6 ++ ((("<h2>Certifications</h2>").toList) ++ (ws6 ++ ((("</section>").toList) ++ (g6 ++ ((("<section id=\"awards\">").toList) ++ (mid7 ++ ((("<h2>Awards & Honors</h2>").toList) ++ (ws7 ++ ((("</section>").toList) ++ (F))))))))))))))))))))))))))))))))))))))))))))) i)
    (hmid1 : ∀ i, i < mid1.length →
      ¬ OccursAt (("<p class=\"summary\">").toList) (mid1 ++ ((("<p class=\"summary\">").toList) ++ (ws1a ++ ((("</p>").toList) ++ (ws1b ++ ((("</section>").toList) ++ (g1 ++ ((("<section id=\"experience\">").toList) ++ (mid2 ++ ((("<h2>Experience</h2>").toList) ++ (ws2 ++ ((("</section>").toList) ++ (g2 ++ ((("<section id=\"education\">").toList) ++ (mid3 ++ ((("<h2>Education</h2>").toList) ++ (ws3 ++ ((("</section>").toList) ++ (g3 ++ ((("<section id=\"skills\">").toList) ++ (mid4 ++ ((("<h2>Skills</h2>").toList) ++ (ws4 ++ ((("</section>").toList) ++ (g4 ++ ((("<section id=\"projects\">").toList) ++ (mid5 ++ ((("<h2>Projects</h2>").toList) ++ (ws5 ++ ((("</section>").toList) ++ (g5 ++ ((("<section id=\"certifications\">").toList) ++ (mid6 ++ ((("<h2>Certifications</h2>").toList) ++ (ws6 ++ ((("</section>").toList) ++ (g6 ++ ((("<section id=\"awards\">").toList) ++ (mid7 ++ ((("<h2>Awards & Honors</h2>").toList) ++ (ws7 ++ ((("</section>").toList) ++ (F))))))))))))))))))))))))))))))))))))))))))) i)
    (hws1a : ∀ c ∈ ws1a, isPySpace c = true)
    (hws1b : ∀ c ∈ ws1b, isPySpace c = true)
    (hb1 : strFind (g1 ++ ((("<section id=\"experience\">").toList) ++ (mid2 ++ ((("<h2>Experience</h2>").toList) ++ (ws2 ++ ((("</section>").toList) ++ (g2 ++ ((("<section id=\"education\">").toList) ++ (mid3 ++ ((("<h2>Education</h2>").toList) ++ (ws3 ++ ((("</section>").toList) ++ (g3 ++ ((("<section id=\"skills\">").toList) ++ (mid4 ++ ((("<h2>Skills</h2>").toList) ++ (ws4 ++ ((("</section>").toList) ++ (g4 ++ ((("<section id=\"projects\">").toList) ++ (mid5 ++ ((("<h2>Projects</h2>").toList) ++ (ws5 ++ ((("</section>").toList) ++ (g5 ++ ((("<section id=\"certifications\">").toList) ++ (mid6 ++ ((("<h2>Certifications</h2>").toList) ++ (ws6 ++ ((("</section>").toList) ++ (g6 ++ ((("<section id=\"awards\">").toList) ++ (mid7 ++ ((("<h2>Awards & Honors</h2>").toList) ++ (ws7 ++ ((("</section>").toList) ++ (F))))))))))))))))))))))))))))))))))))) (("<section id=\"summary\">").toList) = none)
    (hopen2 : ∀ i, i < ((H ++ g1) : Str).length →
      ¬ OccursAt (("<section id=\"experience\">").toList) ((H ++ g1) ++ ((("<section id=\"experience\">").toList) ++ (mid2 ++ ((("<h2>Experience</h2>").toList) ++ (ws2 ++ ((("</section>").toList) ++ (g2 ++ ((("<section id=\"education\">").toList) ++ (mid3 ++ ((("<h2>Education</h2>").toList) ++ (ws3 ++ ((("</section>").toList) ++ (g3 ++ ((("<section id=\"skills\">").toList) ++ (mid4 ++ ((("<h2>Skills</h2>").toList) ++ (ws4 ++ ((("</section>").toList) ++ (g4 ++ ((("<section id=\"projects\">").toList) ++ (mid5 ++ ((("<h2>Projects</h2>").toList) ++ (ws5 ++ ((("</section>").toList) ++ (g5 ++ ((("<section id=\"certifications\">").toList) ++ (mid6 ++ ((("<h2>Certifications</h2>").toList) ++ (ws6 ++ ((("</section>").toList) ++ (g6 ++ ((("<section id=\"awards\">").toList) ++ (mid7 ++ ((("<h2>Awards & Honors</h2>").toList) ++ (ws7 ++ ((("</section>").toList) ++ (F))))))))))))))))))))))))))))))))))))) i)
    (hmid2 : ∀ i, i < mid2.length →
      ¬ OccursAt (("<h2>Experience</h2>").toList) (mid2 ++ ((("<h2>Experience</h2>").toList) ++ (ws2 ++ ((("</section>").toList) ++ (g2 ++ ((("<section id=\"education\">").toList) ++ (mid3 ++ ((("<h2>Education</h2>").toList) ++ (ws3 ++ ((("</section>").toList) ++ (g3 ++ ((("<section id=\"skills\">").toList) ++ (mid4 ++ ((("<h2>Skills</h2>").toList) ++ (ws4 ++ ((("</section>").toList) ++ (g4 ++ ((("<section id=\"projects\">").toList) ++ (mid5 ++ ((("<h2>Projects</h2>").toList) ++ (ws5 ++ ((("</section>").toList) ++ (g5 ++ ((("<section id=\"certifications\">").toList) ++ (mid6 ++ ((("<h2>Certifications</h2>").toList) ++ (ws6 ++ ((("</section>").toList) ++ (g6 ++ ((("<section id=\"awards\">").toList) ++ (mid7 ++ ((("<h2>Awards & Honors</h2>").toList) ++ (ws7 ++ ((("</section>").toList) ++ (F))))))))))))))))))))))))))))))))))) i)
    (hws2 : ∀ c ∈ ws2, isPySpace c = true)
    (hb2 : strFind (g2 ++ ((("<section id=\"education\">").toList) ++ (mid3 ++ ((("<h2>Education</h2>").toList) ++ (ws3 ++ ((("</section>").toList) ++ (g3 ++ ((("<section id=\"skills\">").toList) ++ (mid4 ++ ((("<h2>Skills</h2>").toList) ++ (ws4 ++ ((("</section>").toList) ++ (g4 ++ ((("<section id=\"projects\">").toList) ++ (mid5 ++ ((("<h2>Projects</h2>").toList) ++ (ws5 ++ ((("</section>").toList) ++ (g5 ++ ((("<section id=\"certifications\">").toList) ++ (mid6 ++ ((("<h2>Certifications</h2>").toList) ++ (ws6 ++ ((("</section>").toList) ++ (g6 ++ ((("<section id=\"awards\">").toList) ++ (mid7 ++ ((("<h2>Awards & Honors</h2>").toList) ++ (ws7 ++ ((("</section>").toList) ++ (F))))))))))))))))))))))))))))))) (("<section id=\"experience\">").toList) = none)
    (hopen3 : ∀ i, i < (((H ++ g1) ++ g2) : Str).length →
      ¬ OccursAt (("<section id=\"education\">").toList) (((H ++ g1) ++ g2) ++ ((("<section id=\"education\">").toList) ++ (mid3 ++ ((("<h2>Education</h2>").toList) ++ (ws3 ++ ((("</section>").toList) ++ (g3 ++ ((("<section id=\"skills\">").toList) ++ (mid4 ++ ((("<h2>Skills</h2>").toList) ++ (ws4 ++ ((("</section>").toList) ++ (g4 ++ ((("<section id=\"projects\">").toList) ++ (mid5 ++ ((("<h2>Projects</h2>").toList) ++ (ws5 ++ ((("</section>").toList) ++ (g5 ++ ((("<section id=\"certifications\">").toList) ++ (mid6 ++ ((("<h2>Certifications</h2>").toList) ++ (ws6 ++ ((("</section>").toList) ++ (g6 ++ ((("<section id=\"awards\">").toList) ++ (mid7 ++ ((("<h2>Awards & Honors</h2>").toList) ++ (ws7 ++ ((("</section>").toList) ++ (F))))))))))))))))))))))))))))))) i)
    (hmid3 : ∀ i, i < mid3.length →
      ¬ OccursAt (("<h2>Education</h2>").toList) (mid3 ++ ((("<h2>Education</h2>").toList) ++ (ws3 ++ ((("</section>").toList) ++ (g3 ++ ((("<section id=\"skills\">").toList) ++ (mid4 ++ ((("<h2>Skills</h2>").toList) ++ (ws4 ++ ((("</section>").toList) ++ (g4 ++ ((("<section id=\"projects\">").toList) ++ (mid5 ++ ((("<h2>Projects</h2>").toList) ++ (ws5 ++ ((("</section>").toList) ++ (g5 ++ ((("<section id=\"certifications\">").toList) ++ (mid6 ++ ((("<h2>Certifications</h2>").toList) ++ (ws6 ++ ((("</section>").toList) ++ (g6 ++ ((("<section id=\"awards\">").toList) ++ (mid7 ++ ((("<h2>Awards & Honors</h2>").toList) ++ (ws7 ++ ((("</section>").toList) ++ (F))))))))))))))))))))))))))))) i)
    (hws3 : ∀ c ∈ ws3, isPySpace c = true)
    (hb3 : strFind (g3 ++ ((("<section id=\"skills\">").toList) ++ (mid4 ++ ((("<h2>Skills</h2>").toList) ++ (ws4 ++ ((("</section>").toList) ++ (g4 ++ ((("<section id=\"projects\">").toList) ++ (mid5 ++ ((("<h2>Projects</h2>").toList) ++ (ws5 ++ ((("</section>").toList) ++ (g5 ++ ((("<section id=\"certifications\">").toList) ++ (mid6 ++ ((("<h2>Certifications</h2>").toList) ++ (ws6 ++ ((("</section>").toList) ++ (g6 ++ ((("<section id=\"awards\">").toList) ++ (mid7 ++ ((("<h2>Awards & Honors</h2>").toList) ++ (ws7 ++ ((("</section>").toList) ++ (F))))))))))))))))))))))))) (("<section id=\"education\">").toList) = none)
    (hopen4 : ∀ i, i < ((((H ++ g1) ++ g2) ++ g3) : Str).length →
      ¬ OccursAt (("<section id=\"skills\">").toList) ((((H ++ g1) ++ g2) ++ g3) ++ ((("<section id=\"skills\">").toList) ++ (mid4 ++ ((("<h2>Skills</h2>").toList) ++ (ws4 ++ ((("</section>").toList) ++ (g4 ++ ((("<section id=\"projects\">").toList) ++ (mid5 ++ ((("<h2>Projects</h2>").toList) ++ (ws5 ++ ((("</section>").toList) ++ (g5 ++ ((("<section id=\"certifications\">").toList) ++ (mid6 ++ ((("<h2>Certifications</h2>").toList) ++ (ws6 ++ ((("</section>").toList) ++ (g6 ++ ((("<section id=\"awards\">").toList) ++ (mid7 ++ ((("<h2>Awards & Honors</h2>").toList) ++ (ws7 ++ ((("</section>").toList) ++ (F))))))))))))))))))))))))) i)
    (hmid4 : ∀ i, i < mid4.length →
      ¬ OccursAt (("<h2>Skills</h2>").toList) (mid4 ++ ((("<h2>Skills</h2>").toList) ++ (ws4 ++ ((("</section>").toList) ++ (g4 ++ ((("<section id=\"projects\">").toList) ++ (mid5 ++ ((("<h2>Projects</h2>").toList) ++ (ws5 ++ ((("</section>").toList) ++ (g5 ++ ((("<section id=\"certifications\">").toList) ++ (mid6 ++ ((("<h2>Certifications</h2>").toList) ++ (ws6 ++ ((("</section>").toList) ++ (g6 ++ ((("<section id=\"awards\">").toList) ++ (mid7 ++ ((("<h2>Awards & Honors</h2>").toList) ++ (ws7 ++ ((("</section>").toList) ++ (F))))))))))))))))))))))) i)
    (hws4 : ∀ c ∈ ws4, isPySpace c = true)
    (hb4 : strFind (g4 ++ ((("<section id=\"projects\">").toList) ++ (mid5 ++ ((("<h2>Projects</h2>").toList) ++ (ws5 ++ ((("</section>").toList) ++ (g5 ++ ((("<section id=\"certifications\">").toList) ++ (mid6 ++ ((("<h2>Certifications</h2>").toList) ++ (ws6 ++ ((("</section>").toList) ++ (g6 ++ ((("<section id=\"awards\">").toList) ++ (mid7 ++ ((("<h2>Awards & Honors</h2>").toList) ++ (ws7 ++ ((("</section>").toList) ++ (F))))))))))))))))))) (("<section id=\"skills\">").toList) = none)
    (hopen5 : ∀ i, i < (((((H ++ g1) ++ g2) ++ g3) ++ g4) : Str).length →
      ¬ OccursAt (("<section id=\"projects\">").toList) (((((H ++ g1) ++ g2) ++ g3) ++ g4) ++ ((("<section id=\"projects\">").toList) ++ (mid5 ++ ((("<h2>Projects</h2>").toList) ++ (ws5 ++ ((("</section>").toList) ++ (g5 ++ ((("<section id=\"certifications\">").toList) ++ (mid6 ++ ((("<h2>Certifications</h2>").toList) ++ (ws6 ++ ((("</section>").toList) ++ (g6 ++ ((("<section id=\"awards\">").toList) ++ (mid7 ++ ((("<h2>Awards & Honors</h2>").toList) ++ (ws7 ++ ((("</section>").toList) ++ (F))))))))))))))))))) i)
    (hmid5 : ∀ i, i < mid5.length →
      ¬ OccursAt (("<h2>Projects</h2>").toList) (mid5 ++ ((("<h2>Projects</h2>").toList) ++ (ws5 ++ ((("</section>").toList) ++ (g5 ++ ((("<section id=\"certifications\">").toList) ++ (mid6 ++ ((("<h2>Certifications</h2>").toList) ++ (ws6 ++ ((("</section>").toList) ++ (g6 ++ ((("<section id=\"awards\">").toList) ++ (mid7 ++ ((("<h2>Awards & Honors</h2>").toList) ++ (ws7 ++ ((("</section>").toList) ++ (F))))))))))))))))) i)
    (hws5 : ∀ c ∈ ws5, isPySpace c = true)
    (hb5 : strFind (g5 ++ ((("<section id=\"certifications\">").toList) ++ (mid6 ++ ((("<h2>Certifications</h2>").toList) ++ (ws6 ++ ((("</section>").toList) ++ (g6 ++ ((("<section id=\"awards\">").toList) ++ (mid7 ++ ((("<h2>Awards & Honors</h2>").toList) ++ (ws7 ++ ((("</section>").toList) ++ (F))))))))))))) (("<section id=\"projects\">").toList) = none)
    (hopen6 : ∀ i, i < ((((((H ++ g1) ++ g2) ++ g3) ++ g4) ++ g5) : Str).length →
      ¬ OccursAt (("<section id=\"certifications\">").toList) ((((((H ++ g1) ++ g2) ++ g3) ++ g4) ++ g5) ++ ((("<section id=\"certifications\">").toList) ++ (mid6 ++ ((("<h2>Certifications</h2>").toList) ++ (ws6 ++ ((("</section>").toList) ++ (g6 ++ ((("<section id=\"awards\">").toList) ++ (mid7 ++ ((("<h2>Awards & Honors</h2>").toList) ++ (ws7 ++ ((("</section>").toList) ++ (F))))))))))))) i)
    (hmid6 : ∀ i, i < mid6.length →
      ¬ OccursAt (("<h2>Certifications</h2>").toList) (mid6 ++ ((("<h2>Certifications</h2>").toList) ++ (ws6 ++ ((("</section>").toList) ++ (g6 ++ ((("<section id=\"awards\">").toList) ++ (mid7 ++ ((("<h2>Awards & Honors</h2>").toList) ++ (ws7 ++ ((("</section>").toList) ++ (F))))))))))) i)
    (hws6 : ∀ c ∈ ws6, isPySpace c = true)
    (hb6 : strFind (g6 ++ ((("<section id=\"awards\">").toList) ++ (mid7 ++ ((("<h2>Awards & Honors</h2>").toList) ++ (ws7 ++ ((("</section>").toList) ++ (F))))))) (("<section id=\"certifications\">").toList) = none)
    (hopen7 : ∀ i, i < (((((((H ++ g1) ++ g2) ++ g3) ++ g4) ++ g5) ++ g6) : Str).length →
      ¬ OccursAt (("<section id=\"awards\">").toList) (((((((H ++ g1) ++ g2) ++ g3) ++ g4) ++ g5) ++ g6) ++ ((("<section id=\"awards\">").toList) ++ (mid7 ++ ((("<h2>Awards & Honors</h2>").toList) ++ (ws7 ++ ((("</section>").toList) ++ (F))))))) i)
    (hmid7 : ∀ i, i < mid7.length →
      ¬ OccursAt (("<h2>Awards & Honors</h2>").toList) (mid7 ++ ((("<h2>Awards & Honors</h2>").toList) ++ (ws7 ++ ((("</section>").toList) ++ (F))))) i)
    (hws7 : ∀ c ∈ ws7, isPySpace c = true)
    (hb7 : strFind (F) (("<section id=\"awards\">").toList) = none)
    (hfinal : strFind (((((((H ++ g1) ++ g2) ++ g3) ++ g4) ++ g5) ++ g6) ++ F) (("<h2>Experience</h2>").toList) = none) :
    _remove_empty_sections (H ++ ((("<section id=\"summary\">").toList) ++ (mid1 ++ ((("<p class=\"summary\">").toList) ++ (ws1a ++ ((("</p>").toList) ++ (ws1b ++ ((("</section>").toList) ++ (g1 ++ ((("<section id=\"experience\">").toList) ++ (mid2 ++ ((("<h2>Experience</h2>").toList) ++ (ws2 ++ ((("</section>").toList) ++ (g2 ++ ((("<section id=\"education\">").toList) ++ (mid3 ++ ((("<h2>Education</h2>").toList) ++ (ws3 ++ ((("</section>").toList) ++ (g3 ++ ((("<section id=\"skills\">").toList) ++ (mid4 ++ ((("<h2>Skills</h2>").toList) ++ (ws4 ++ ((("</section>").toList) ++ (g4 ++ ((("<section id=\"projects\">").toList) ++ (mid5 ++ ((("<h2>Projects</h2>").toList) ++ (ws5 ++ ((("</section>").toList) ++ (g5 ++ ((("<section id=\"certifications\">").toList) ++ (mid6 ++ ((("<h2>Certifications</h2>").toList) ++ (ws6 ++ ((("</section>").toList) ++ (g6 ++ ((("<section id=\"awards\">").toList) ++ (mid7 ++ ((("<h2>Awards & Honors</h2>").toList) ++ (ws7 ++ ((("</section>").toList) ++ (F))))))))))))))))))))))))))))))))))))))))))))) = ((((((H ++ g1) ++ g2) ++ g3) ++ g4) ++ g5) ++ g6) ++ F
    ∧ pyContains (_remove_empty_sections (H ++ ((("<section id=\"summary\">").toList) ++ (mid1 ++ ((("<p class=\"summary\">").toList) ++ (ws1a ++ ((("</p>").toList) ++ (ws1b ++ ((("</section>").toList) ++ (g1 ++ ((("<section id=\"experience\">").toList) ++ (mid2 ++ ((("<h2>Experience</h2>").toList) ++ (ws2 ++ ((("</section>").toList) ++ (g2 ++ ((("<section id=\"education\">").toList) ++ (mid3 ++ ((("<h2>Education</h2>").toList) ++ (ws3 ++ ((("</section>").toList) ++ (g3 ++ ((("<section id=\"skills\">").toList) ++ (mid4 ++ ((("<h2>Skills</h2>").toList) ++ (ws4 ++ ((("</section>").toList) ++ (g4 ++ ((("<section id=\"projects\">").toList) ++ (mid5 ++ ((("<h2>Projects</h2>").toList) ++ (ws5 ++ ((("</section>").toList) ++ (g5 ++ ((("<section id=\"certifications\">").toList) ++ (mid6 ++ ((("<h2>Certifications</h2>").toList) ++ (ws6 ++ ((("</section>").toList) ++ (g6 ++ ((("<section id=\"awards\">").toList) ++ (mid7 ++ ((("<h2>Awards & Honors</h2>").toList) ++ (ws7 ++ ((("</section>").toList) ++ (F)))))))))))))))))))))))))))))))))))))))))))))) (("<h2>Experience</h2>").toList) = false := by
  have h1 := reSubSection_removes2 (("<section id=\"summary\">").toList) (("<p class=\"summary\">").toList) (("</p>").toList) (("</section>").toList)
    H mid1 ws1a ws1b (g1 ++ ((("<section id=\"experience\">").toList) ++ (mid2 ++ ((("<h2>Experience</h2>").toList) ++ (ws2 ++ ((("</section>").toList) ++ (g2 ++ ((("<section id=\"education\">").toList) ++ (mid3 ++ ((("<h2>Education</h2>").toList) ++ (ws3 ++ ((("</section>").toList) ++ (g3 ++ ((("<section id=\"skills\">").toList) ++ (mid4 ++ ((("<h2>Skills</h2>").toList) ++ (ws4 ++ ((("</section>").toList) ++ (g4 ++ ((("<section id=\"projects\">").toList) ++ (mid5 ++ ((("<h2>Projects</h2>").toList) ++ (ws5 ++ ((("</section>").toList) ++ (g5 ++ ((("<section id=\"certifications\">").toList) ++ (mid6 ++ ((("<h2>Certifications</h2>").toList) ++ (ws6 ++ ((("</section>").toList) ++ (g6 ++ ((("<section id=\"awards\">").toList) ++ (mid7 ++ ((("<h2>Awards & Honors</h2>").toList) ++ (ws7 ++ ((("</section>").toList) ++ (F)))))))))))))))))))))))))))))))))))))
    (by decide) hopen1 hmid1 hws1a hws1b ⟨("/p>").toList, rfl⟩
    ⟨("/section>").toList, rfl⟩ hb1
  have h2 := reSubSection_removes (("<section id=\"experience\">").toList) (("<h2>Experience</h2>").toList) (("</section>").toList)
    (H ++ g1) mid2 ws2 (g2 ++ ((("<section id=\"education\">").toList) ++ (mid3 ++ ((("<h2>Education</h2>").toList) ++ (ws3 ++ ((("</section>").toList) ++ (g3 ++ ((("<section id=\"skills\">").toList) ++ (mid4 ++ ((("<h2>Skills</h2>").toList) ++ (ws4 ++ ((("</section>").toList) ++ (g4 ++ ((("<section id=\"projects\">").toList) ++ (mid5 ++ ((("<h2>Projects</h2>").toList) ++ (ws5 ++ ((("</section>").toList) ++ (g5 ++ ((("<section id=\"certifications\">").toList) ++ (mid6 ++ ((("<h2>Certifications</h2>").toList) ++ (ws6 ++ ((("</section>").toList) ++ (g6 ++ ((("<section id=\"awards\">").toList) ++ (mid7 ++ ((("<h2>Awards & Honors</h2>").toList) ++ (ws7 ++ ((("</section>").toList) ++ (F)))))))))))))))))))))))))))))))
    (by decide) hopen2 hmid2 hws2 ⟨("/section>").toList, rfl⟩ hb2
  have h3 := reSubSection_removes (("<section id=\"education\">").toList) (("<h2>Education</h2>").toList) (("</section>").toList)
    ((H ++ g1) ++ g2) mid3 ws3 (g3 ++ ((("<section id=\"skills\">").toList) ++ (mid4 ++ ((("<h2>Skills</h2>").toList) ++ (ws4 ++ ((("</section>").toList) ++ (g4 ++ ((("<section id=\"projects\">").toList) ++ (mid5 ++ ((("<h2>Projects</h2>").toList) ++ (ws5 ++ ((("</section>").toList) ++ (g5 ++ ((("<section id=\"certifications\">").toList) ++ (mid6 ++ ((("<h2>Certifications</h2>").toList) ++ (ws6 ++ ((("</section>").toList) ++ (g6 ++ ((("<section id=\"awards\">").toList) ++ (mid7 ++ ((("<h2>Awards & Honors</h2>").toList) ++ (ws7 ++ ((("</section>").toList) ++ (F)))))))))))))))))))))))))
    (by decide) hopen3 hmid3 hws3 ⟨("/section>").toList, rfl⟩ hb3
  have h4 := reSubSection_removes (("<section id=\"skills\">").toList) (("<h2>Skills</h2>").toList) (("</section>").toList)
    (((H ++ g1) ++ g2) ++ g3) mid4 ws4 (g4 ++ ((("<section id=\"projects\">").toList) ++ (mid5 ++ ((("<h2>Projects</h2>").toList) ++ (ws5 ++ ((("</section>").toList) ++ (g5 ++ ((("<section id=\"certifications\">").toList) ++ (mid6 ++ ((("<h2>Certifications</h2>").toList) ++ (ws6 ++ ((("</section>").toList) ++ (g6 ++ ((("<section id=\"awards\">").toList) ++ (mid7 ++ ((("<h2>Awards & Honors</h2>").toList) ++ (ws7 ++ ((("</section>").toList) ++ (F)))))))))))))))))))
    (by decide) hopen4 hmid4 hws4 ⟨("/section>").toList, rfl⟩ hb4
  have h5 := reSubSection_removes (("<section id=\"projects\">").toList) (("<h2>Projects</h2>").toList) (("</section>").toList)
    ((((H ++ g1) ++ g2) ++ g3) ++ g4) mid5 ws5 (g5 ++ ((("<section id=\"certifications\">").toList) ++ (mid6 ++ ((("<h2>Certifications</h2>").toList) ++ (ws6 ++ ((("</section>").toList) ++ (g6 ++ ((("<section id=\"awards\">").toList) ++ (mid7 ++ ((("<h2>Awards & Honors</h2>").toList) ++ (ws7 ++ ((("</section>").toList) ++ (F)))))))))))))
    (by decide) hopen5 hmid5 hws5 ⟨("/section>").toList, rfl⟩ hb5
  have h6 := reSubSection_removes (("<section id=\"certifications\">").toList) (("<h2>Certifications</h2>").toList) (("</section>").toList)
    (((((H ++ g1) ++ g2) ++ g3) ++ g4) ++ g5) mid6 ws6 (g6 ++ ((("<section id=\"awards\">").toList) ++ (mid7 ++ ((("<h2>Awards & Honors</h2>").toList) ++ (ws7 ++ ((("</section>").toList) ++ (F)))))))
    (by decide) hopen6 hmid6 hws6 ⟨("/section>").toList, rfl⟩ hb6
  have h7 := reSubSection_removes (("<section id=\"awards\">").toList) (("<h2>Awards & Honors</h2>").toList) (("</section>").toList)
    ((((((H ++ g1) ++ g2) ++ g3) ++ g4) ++ g5) ++ g6) mid7 ws7 (F)
    (by decide) hopen7 hmid7 hws7 ⟨("/section>").toList, rfl⟩ hb7
  have hrem : _remove_empty_sections (H ++ ((("<section id=\"summary\">").toList) ++ (mid1 ++ ((("<p class=\"summary\">").toList) ++ (ws1a ++ ((("</p>").toList) ++ (ws1b ++ ((("</section>").toList) ++ (g1 ++ ((("<section id=\"experience\">").toList) ++ (mid2 ++ ((("<h2>Experience</h2>").toList) ++ (ws2 ++ ((("</section>").toList) ++ (g2 ++ ((("<section id=\"education\">").toList) ++ (mid3 ++ ((("<h2>Education</h2>").toList) ++ (ws3 ++ ((("</section>").toList) ++ (g3 ++ ((("<section id=\"skills\">").toList) ++ (mid4 ++ ((("<h2>Skills</h2>").toList) ++ (ws4 ++ ((("</section>").toList) ++ (g4 ++ ((("<section id=\"projects\">").toList) ++ (mid5 ++ ((("<h2>Projects</h2>").toList) ++ (ws5 ++ ((("</section>").toList) ++ (g5 ++ ((("<section id=\"certifications\">").toList) ++ (mid6 ++ ((("<h2>Certifications</h2>").toList) ++ (ws6 ++ ((("</section>").toList) ++ (g6 ++ ((("<section id=\"awards\">").toList) ++ (mid7 ++ ((("<h2>Awards & Honors</h2>").toList) ++ (ws7 ++ ((("</section>").toList) ++ (F))))))))))))))))))))))))))))))))))))))))))))) = ((((((H ++ g1) ++ g2) ++ g3) ++ g4) ++ g5) ++ g6) ++ F := by
    simp only [_remove_empty_sections]
    rw [h1]
    rw [← List.append_assoc H g1]
    rw [h2]
    rw [← List.append_assoc (H ++ g1) g2]
    rw [h3]
    rw [← List.append_assoc ((H ++ g1) ++ g2) g3]
    rw [h4]
    rw [← List.append_assoc (((H ++ g1) ++ g2) ++ g3) g4]
    rw [h5]
    rw [← List.append_assoc ((((H ++ g1) ++ g2) ++ g3) ++ g4) g5]
    rw [h6]
    rw [← List.append_assoc (((((H ++ g1) ++ g2) ++ g3) ++ g4) ++ g5) g6]
    rw [h7]
  refine ⟨hrem, ?_⟩
  rw [hrem]
  unfold pyContains
  rw [hfinal]
  rfl

/-- Witness for the amended C6: a concrete document with all seven
template sections, each in the exact fixed empty form, between
unrelated head and footer markup. -/
theorem C6_amended_witness :
    _remove_empty_sections ((("<h1>N</h1>").toList) ++ ((("<section id=\"summary\">").toList) ++ ((("\n ").toList) ++ ((("<p class=\"summary\">").toList) ++ ((("").toList) ++ ((("</p>").toList) ++ ((("\n ").toList) ++ ((("</section>").toList) ++ ((("\n ").toList) ++ ((("<section id=\"experience\">").toList) ++ ((("\n ").toList) ++ ((("<h2>Experience</h2>").toList) ++ (((" \n ").toList) ++ ((("</section>").toList) ++ ((("\n ").toList) ++ ((("<section id=\"education\">").toList) ++ ((("\n ").toList) ++ ((("<h2>Education</h2>").toList) ++ (((" \n ").toList) ++ ((("</section>").toList) ++ ((("\n ").toList) ++ ((("<section id=\"skills\">").toList) ++ ((("\n ").toList) ++ ((("<h2>Skills</h2>").toList) ++ (((" \n ").toList) ++ ((("</section>").toList) ++ ((("\n ").toList) ++ ((("<section id=\"projects\">").toList) ++ ((("\n ").toList) ++ ((("<h2>Projects</h2>").toList) ++ (((" \n ").toList) ++ ((("</section>").toList) ++ ((("\n ").toList) ++ ((("<section id=\"certifications\">").toList) ++ ((("\n ").toList) ++ ((("<h2>Certifications</h2>").toList) ++ (((" \n ").toList) ++ ((("</section>").toList) ++ ((("\n ").toList) ++ ((("<section id=\"awards\">").toList) ++ ((("\n ").toList) ++ ((("<h2>Awards & Honors</h2>").toList) ++ (((" \n ").toList) ++ ((("</section>").toList) ++ ((("<footer>Z</footer>").toList)))))))))))))))))))))))))))))))))))))))))))))) = (((((((("<h1>N</h1>").toList) ++ (("\n ").toList)) ++ (("\n ").toList)) ++ (("\n ").toList)) ++ (("\n ").toList)) ++ (("\n ").toList)) ++ (("\n ").toList)) ++ (("<footer>Z</footer>").toList)
    ∧ pyContains (_remove_empty_sections ((("<h1>N</h1>").toList) ++ ((("<section id=\"summary\">").toList) ++ ((("\n ").toList) ++ ((("<p class=\"summary\">").toList) ++ ((("").toList) ++ ((("</p>").toList) ++ ((("\n ").toList) ++ ((("</section>").toList) ++ ((("\n ").toList) ++ ((("<section id=\"experience\">").toList) ++ ((("\n ").toList) ++ ((("<h2>Experience</h2>").toList) ++ (((" \n ").toList) ++ ((("</section>").toList) ++ ((("\n ").toList) ++ ((("<section id=\"education\">").toList) ++ ((("\n ").toList) ++ ((("<h2>Education</h2>").toList) ++ (((" \n ").toList) ++ ((("</section>").toList) ++ ((("\n ").toList) ++ ((("<section id=\"skills\">").toList) ++ ((("\n ").toList) ++ ((("<h2>Skills</h2>").toList) ++ (((" \n ").toList) ++ ((("</section>").toList) ++ ((("\n ").toList) ++ ((("<section id=\"projects\">").toList) ++ ((("\n ").toList) ++ ((("<h2>Projects</h2>").toList) ++ (((" \n ").toList) ++ ((("</section>").toList) ++ ((("\n ").toList) ++ ((("<section id=\"certifications\">").toList) ++ ((("\n ").toList) ++ ((("<h2>Certifications</h2>").toList) ++ (((" \n ").toList) ++ ((("</section>").toList) ++ ((("\n ").toList) ++ ((("<section id=\"awards\">").toList) ++ ((("\n ").toList) ++ ((("<h2>Awards & Honors</h2>").toList) ++ (((" \n ").toList) ++ ((("</section>").toList) ++ ((("<footer>Z</footer>").toList))))))))))))))))))))))))))))))))))))))))))))))) (("<h2>Experience</h2>").toList) = false :=
  C6_amended_theorem (("<h1>N</h1>").toList)
    (("\n ").toList)
    (("").toList)
    (("\n ").toList)
    (("\n ").toList)
    ((" \n ").toList)
    (("\n ").toList)
    ((" \n ").toList)
    (("\n ").toList)
    ((" \n ").toList)
    (("\n ").toList)
    ((" \n ").toList)
    (("\n ").toList)
    ((" \n ").toList)
    (("\n ").toList)
    ((" \n ").toList)
    (("\n ").toList)
    (("\n ").toList)
    (("\n ").toList)
    (("\n ").toList)
    (("\n ").toList)
    (("\n ").toList)
    (("<footer>Z</footer>").toList)
    (by decide) (by decide) (by decide) (by decide) (by decide) (by decide) (by decide) (by decide) (by decide) (by decide) (by decide) (by decide) (by decide) (by decide) (by decide) (by decide) (by decide) (by decide) (by decide) (by decide) (by decide) (by decide) (by decide) (by decide) (by decide) (by decide) (by decide) (by decide) (by decide) (by decide)

/-- C10: whenever the substituted-and-stripped document still contains a
closing head tag, `fill_template_with_experiences` — even at density
`"normal"` with the page preview off — inserts the fixed universal
print-layout `<style>` block immediately before (each occurrence of) that
closing head tag, so its output is never equal to the result of
placeholder substitution and empty-section removal alone. -/
theorem C10_unconditional_style_injection (t : Str) (r : Experiences)
    (hhead : pyContains (fill_substituted t r) ("</head>").toList = true) :
    fill_template_with_experiences t r ("normal").toList false
      = replaceAll (fill_substituted t r) ("</head>").toList
          (injected_css_base ++ ("</head>").toList)
    ∧ fill_template_with_experiences t r ("normal").toList false ≠ fill_substituted t r := by
  have e1 : fill_template_with_experiences t r ("normal").toList false
      = replaceAll (fill_substituted t r) ("</head>").toList
          (injected_css_base ++ ("</head>").toList) := by
    unfold fill_template_with_experiences
    simp only [hhead, if_true, ne_eq, not_true_eq_false, if_false, Bool.false_eq_true,
      List.append_nil]
  refine ⟨e1, ?_⟩
  obtain ⟨i, hi⟩ : ∃ i, strFind (fill_substituted t r) ("</head>").toList = some i := by
    unfold pyContains at hhead
    cases hf : strFind (fill_substituted t r) ("</head>").toList with
    | none => rw [hf] at hhead; cases hhead
    | some i => exact ⟨i, rfl⟩
  have hgt := replaceAll_length_gt ("</head>").toList
    (injected_css_base ++ ("</head>").toList) (by decide)
    (by simp only [List.length_append]; decide) (fill_substituted t r) i hi
  rw [e1]
  intro heq
  rw [heq] at hgt
  omega

/-- Witness for C10: a minimal template with a head element and the empty
record. -/
theorem C10_witness :
    fill_template_with_experiences ("<html><head></head><body>B</body></html>").toList
        empty_record ("normal").toList false
      = replaceAll (fill_substituted ("<html><head></head><body>B</body></html>").toList empty_record)
          ("</head>").toList (injected_css_base ++ ("</head>").toList)
    ∧ fill_template_with_experiences ("<html><head></head><body>B</body></html>").toList
        empty_record ("normal").toList false
      ≠ fill_substituted ("<html><head></head><body>B</body></html>").toList empty_record :=
  C10_unconditional_style_injection _ empty_record (by decide)

/-- C7: when `exp_index` is at least the number of discovered candidate
entry blocks, `update_experience_bullets_in_html` returns the document
unchanged (and, being a total function, never raises): out-of-range
updates are silent no-ops. -/
theorem C7_out_of_range_noop (html : Str) (exp_index : Nat) (new_bullets : List Str)
    (h : (upd_all_entries (upd_search_html html)).length ≤ exp_index) :
    update_experience_bullets_in_html html exp_index new_bullets = html := by
  have hnone : (upd_all_entries (upd_search_html html))[exp_index]? = none :=
    List.getElem?_eq_none h
  unfold update_experience_bullets_in_html
  cases hsec : find_experience_section html with
  | none =>
    have hs : upd_search_html html = html := by
      unfold upd_search_html
      rw [hsec]
    rw [hs] at hnone
    simp only [hsec, hs, hnone]
    simp
  | some pcq =>
    obtain ⟨p, cs, q⟩ := pcq
    have hs : upd_search_html html = pySlice html cs q := by
      unfold upd_search_html
      rw [hsec]
    rw [hs] at hnone
    simp only [hsec, hs, hnone]
    have hle : cs ≤ q := by
      unfold find_experience_section at hsec
      exact find_section_match_le (pyLower html) _ _ _ _ _ hsec
    exact take_slice_drop html cs q hle

/-- Witness for C7: index 999 on a one-entry document is a no-op. -/
theorem C7_witness :
    update_experience_bullets_in_html
      ("<article class=\"entry\"><span class=\"entry-title\">Engineer</span><ul><li>Did X</li></ul></article>").toList
      999 [("Replacement").toList]
    = ("<article class=\"entry\"><span class=\"entry-title\">Engineer</span><ul><li>Did X</li></ul></article>").toList :=
  C7_out_of_range_noop _ 999 _ (by decide)

/-- C5: `find_matching_close_tag` is exactly the specification's
nesting-counter scan: starting with counter 1 just after an opening tag, it
walks forward; each case-insensitive occurrence of `<tag` increments the
counter, each occurrence of `</tag>` decrements it (the closing check
first, as the find-based loop prefers the close on ties), the offset of
the closing tag bringing the counter to zero is returned, and `-1` — the
function is total, never raising — when no occurrence of `</tag>` remains
before the end of the document. -/
theorem C5_tag_boundary_matcher (html : Str) (start_pos : Nat) (tag_name : Str) :
    find_matching_close_tag html start_pos tag_name
      = find_matching_close_spec html start_pos tag_name
    ∧ (pyFindFrom (pyLower html) (pyLower ('<' :: '/' :: (tag_name ++ ['>']))) start_pos = none →
        find_matching_close_tag html start_pos tag_name = -1) := by
  have hlen : (pyLower html).length = html.length := by simp [pyLower]
  have hop : pyLower ('<' :: tag_name) ≠ [] := by simp [pyLower]
  have hcl : pyLower ('<' :: '/' :: (tag_name ++ ['>'])) ≠ [] := by simp [pyLower]
  constructor
  · unfold find_matching_close_tag find_matching_close_spec
    exact fmc_loop_eq_spec (pyLower html) _ _ hop hcl (html.length + 1) start_pos 1
      (html.length + 1) (html.length + 1) (by omega) le_rfl (by omega) (by omega)
  · intro hnone
    unfold find_matching_close_tag
    by_cases hpos : start_pos < (pyLower html).length
    · rw [fmc_loop_succ, if_pos ⟨Nat.one_pos, hpos⟩]
      simp only [hnone]
    · rw [fmc_loop_succ, if_neg (fun hh => hpos hh.2)]

/-- Witness for C5: the equivalence at a nested-`div` document, and the
`-1` sentinel when no closing tag exists after the start position. -/
theorem C5_witness :
    find_matching_close_tag (("<div><div>x</div>y</div>z").toList) 5 (("div").toList)
      = find_matching_close_spec (("<div><div>x</div>y</div>z").toList) 5 (("div").toList)
    ∧ find_matching_close_tag (("<p>no close").toList) 3 (("div").toList) = -1 :=
  ⟨(C5_tag_boundary_matcher (("<div><div>x</div>y</div>z").toList) 5 (("div").toList)).1,
   (C5_tag_boundary_matcher (("<p>no close").toList) 3 (("div").toList)).2 (by decide)⟩

/-- C9, counterexample: for the bare handle `"www.foo"` the first
normalization pass leaves the handle untouched (the value does not mention
`linkedin.com`), but feeding the produced canonical display string
`linkedin.com/in/www.foo` back through the normalization strips the
`www.`, yielding a different canonical display — so one-pass outputs do
not re-normalize to themselves for every contact value. -/
theorem C9_counterexample :
    linkedin_display (linkedin_handle (linkedin_display (linkedin_handle ("www.foo").toList)))
      ≠ linkedin_display (linkedin_handle ("www.foo").toList) := by
  decide

/-- C9, amended: re-normalizing the canonical display string or canonical
link URL produced by one normalization pass yields the same handle (hence
the same canonical URL/display pair), provided the one-pass handle is
stripped and contains no occurrence of `https://`, `http://`, `www.`, or
of the host prefix (`linkedin.com/in/` resp. `github.com/`) — the
counterexample shows the restriction is necessary. -/
theorem C9_amended_theorem (h g : Str)
    (hl1 : strFind (linkedin_handle h) ("https://").toList = none)
    (hl2 : strFind (linkedin_handle h) ("http://").toList = none)
    (hl3 : strFind (linkedin_handle h) ("www.").toList = none)
    (hl4 : strFind (linkedin_handle h) ("linkedin.com/in/").toList = none)
    (hl5 : pyStrip (linkedin_handle h) = linkedin_handle h)
    (hg1 : strFind (github_handle g) ("https://").toList = none)
    (hg2 : strFind (github_handle g) ("http://").toList = none)
    (hg3 : strFind (github_handle g) ("www.").toList = none)
    (hg4 : strFind (github_handle g) ("github.com/").toList = none)
    (hg5 : pyStrip (github_handle g) = github_handle g) :
    (linkedin_handle (linkedin_display (linkedin_handle h)) = linkedin_handle h
      ∧ linkedin_handle (linkedin_url (linkedin_handle h)) = linkedin_handle h)
    ∧ (github_handle (github_display (github_handle g)) = github_handle g
      ∧ github_handle (github_url (github_handle g)) = github_handle g) :=
  ⟨⟨linkedin_display_renorm _ hl1 hl2 hl3 hl4 hl5,
    linkedin_url_renorm _ hl1 hl2 hl3 hl4 hl5⟩,
   ⟨github_display_renorm _ hg1 hg2 hg3 hg4 hg5,
    github_url_renorm _ hg1 hg2 hg3 hg4 hg5⟩⟩

/-- Witness for C9: the amended idempotence at the concrete handles
`alice` and `bob`. -/
theorem C9_amended_witness :
    (linkedin_handle (linkedin_display (linkedin_handle ("alice").toList))
        = linkedin_handle ("alice").toList
      ∧ linkedin_handle (linkedin_url (linkedin_handle ("alice").toList))
        = linkedin_handle ("alice").toList)
    ∧ (github_handle (github_display (github_handle ("bob").toList))
        = github_handle ("bob").toList
      ∧ github_handle (github_url (github_handle ("bob").toList))
        = github_handle ("bob").toList) :=
  C9_amended_theorem ("alice").toList ("bob").toList
    (by decide) (by decide) (by decide) (by decide) (by decide)
    (by decide) (by decide) (by decide) (by decide) (by decide)

/-- C4, counterexample: with the contact name absent, `fill` substitutes the
non-empty default filler `"Your Name"` for `{{CONTACT_NAME}}` — the claim
that an absent field's token is always replaced by the empty string is
false. -/
theorem C4_counterexample :
    pyContains (fill_template_with_experiences c4_template empty_record ("normal").toList false)
      ("Your Name").toList = true := by
  decide

/-- C4, amended: an absent phone, location, links, linkedin, github or
summary renders as the empty string (and substitution is total, never
raising), but an absent contact name renders as the filler `"Your Name"`
and an absent email as `"email@example.com"`. -/
theorem C4_amended_theorem :
    fill_template_with_experiences c4_template empty_record ("normal").toList false
      = ("N[Your Name] E[email@example.com] P[] L[] K[] I[] G[] S[]").toList := by
  decide

/-! ### Occurrence combinators for scanning rendered flat documents -/

/-- `Char.toLower` moves nothing onto `<`: the lowered image of a
`<`-free string is `<`-free. -/
theorem toLower_ne_lt (c : Char) (h : c ≠ '<') : c.toLower ≠ '<' := by
  simp only [Char.toLower]
  split
  · rename_i hr
    intro heq
    have hvalid : (c.toNat + 32).isValidChar := Or.inl (by omega)
    have hv : (Char.ofNat (c.toNat + 32)).toNat = c.toNat + 32 := by
      simp only [Char.ofNat]
      rw [dif_pos hvalid]
      rfl
    rw [heq] at hv
    have h60 : ('<').toNat = 60 := by decide
    omega
  · exact h

theorem pyLower_append (a b : Str) : pyLower (a ++ b) = pyLower a ++ pyLower b :=
  List.map_append _ a b

theorem pyLower_clean (x : Str) (h : ∀ c ∈ x, c ≠ '<') :
    ∀ c ∈ pyLower x, c ≠ '<' := by
  intro c hc
  obtain ⟨d, hd, rfl⟩ := List.mem_map.mp hc
  exact toLower_ne_lt d (h d hd)

theorem prefix_head (p r : Str) (h : p <+: r) (hne : p ≠ []) :
    r.head? = p.head? := by
  obtain ⟨t, rfl⟩ := h
  cases p with
  | nil => exact absurd rfl hne
  | cons c cs => rfl

/-- In a `c`-clean string a pattern headed by `c` never even starts. -/
theorem strFind_none_of_clean (x pat : Str) (c : Char) (hne : pat ≠ [])
    (hhead : pat.head? = some c) (hclean : ∀ y ∈ x, y ≠ c) :
    strFind x pat = none := by
  cases hf : strFind x pat with
  | none => rfl
  | some i =>
    exfalso
    have hocc := strFind_some x pat i hf
    have h1 : (x.drop i).head? = pat.head? := prefix_head pat (x.drop i) hocc hne
    rw [hhead, List.head?_drop] at h1
    exact hclean c (List.getElem?_mem h1) rfl

theorem occursAt_append_right (a y pat : Str) (j : Nat) :
    OccursAt pat (a ++ y) (a.length + j) ↔ OccursAt pat y j := by
  unfold OccursAt
  rw [List.drop_append_eq_append_drop,
    List.drop_eq_nil_of_le (by omega : a.length ≤ a.length + j), List.nil_append,
    Nat.add_sub_cancel_left]

/-- Chain two occurrence-free parts (right-nested form). -/
theorem no_occ_combine (a b r pat : Str)
    (ha : ∀ i, i < a.length → ¬ OccursAt pat (a ++ (b ++ r)) i)
    (hb : ∀ i, i < b.length → ¬ OccursAt pat (b ++ r) i) :
    ∀ i, i < a.length + b.length → ¬ OccursAt pat (a ++ (b ++ r)) i := by
  intro i hi hocc
  by_cases hia : i < a.length
  · exact ha i hia hocc
  · have hj : i = a.length + (i - a.length) := by omega
    rw [hj, occursAt_append_right] at hocc
    exact hb (i - a.length) (by omega) hocc

/-- A prefix longer than the left summand splits at the boundary. -/
theorem prefix_split (pat a b : Str) (h : pat <+: a ++ b) (hl : a.length ≤ pat.length) :
    pat.take a.length = a ∧ pat.drop a.length <+: b := by
  constructor
  · have h1 : pat.take a.length <+: (a ++ b).take a.length := h.take _
    rw [List.take_append_of_le_length le_rfl, List.take_of_length_le le_rfl] at h1
    exact List.IsPrefix.eq_of_length h1 (by simp [hl])
  · obtain ⟨t, ht⟩ := h
    refine ⟨t, ?_⟩
    have := congrArg (List.drop a.length) ht
    rwa [List.drop_append_of_le_length hl, List.drop_left] at this

/-- A segment in which the pattern is absent, followed by a continuation
headed by `<`, is occurrence-free for every pattern whose only `<` is its
first character. -/
theorem no_occ_field {c : Char} (x r pat : Str) (hne : pat ≠ [])
    (hx : strFind x pat = none)
    (hr : r.head? = some c)
    (hp : ∀ k, k < pat.length → 0 < k → (pat.drop k).head? ≠ some c) :
    ∀ i, i < x.length → ¬ OccursAt pat (x ++ r) i := by
  intro i hi hocc
  have hdrop : (x ++ r).drop i = x.drop i ++ r :=
    List.drop_append_of_le_length (by omega)
  rw [OccursAt, hdrop] at hocc
  by_cases hfit : pat.length ≤ x.length - i
  · have h1 : pat.take (x.length - i) <+: (x.drop i ++ r).take (x.length - i) :=
      hocc.take _
    have h2 : (x.drop i ++ r).take (x.length - i) = x.drop i := by
      rw [List.take_append_of_le_length (by simp), List.take_of_length_le (by simp)]
    rw [h2, List.take_of_length_le hfit] at h1
    exact strFind_none x pat hx i h1
  · have hxd : (x.drop i).length = x.length - i := by simp
    obtain ⟨-, h2⟩ := prefix_split pat (x.drop i) r hocc (by rw [hxd]; omega)
    rw [hxd] at h2
    have hk : 0 < x.length - i := by omega
    have hdne : pat.drop (x.length - i) ≠ [] := by
      intro hnil
      have := congrArg List.length hnil
      simp at this
      omega
    have := prefix_head _ r h2 hdne
    rw [hr] at this
    exact hp (x.length - i) (by omega) hk this.symm

/-- `strFind` characterized: an occurrence that is also minimal is the result. -/
theorem strFind_eq_of (s pat : Str) (j : Nat) (hocc : OccursAt pat s j)
    (hmin : ∀ k, k < j → ¬ OccursAt pat s k) : strFind s pat = some j := by
  obtain ⟨j', hj', hle⟩ := strFind_of_occurs s pat j hocc
  rcases Nat.lt_or_ge j' j with hlt | hge
  · exact absurd (strFind_some s pat j' hj') (hmin j' hlt)
  · have : j' = j := by omega
    rwa [this] at hj'

/-- A fully-inside occurrence in the left part is found there. -/
theorem strFind_append_left (a b pat : Str) (j : Nat)
    (hj : strFind a pat = some j) (hfit : j + pat.length ≤ a.length) :
    strFind (a ++ b) pat = some j := by
  have hocc : OccursAt pat a j := strFind_some a pat j hj
  apply strFind_eq_of
  · rw [OccursAt, List.drop_append_of_le_length (by omega)]
    exact hocc.trans (List.prefix_append _ _)
  · intro k hk hocck
    apply strFind_min a pat j hj k hk
    rw [OccursAt, List.drop_append_of_le_length (by omega)] at hocck
    have h1 : pat.take pat.length <+: (a.drop k ++ b).take pat.length := hocck.take _
    rw [List.take_of_length_le le_rfl,
      List.take_append_of_le_length (by simp; omega)] at h1
    rw [OccursAt]
    exact h1.trans (List.take_prefix _ _)

/-- Insertion sort leaves an already position-sorted list unchanged. -/
theorem pySortBy_sorted_id {α : Type} (lt : α → α → Bool) (l : List α)
    (h : l.Pairwise (fun a b => lt b a = false)) : pySortBy lt l = l := by
  induction l with
  | nil => rfl
  | cons x t ih =>
    rw [List.pairwise_cons] at h
    have ht := ih h.2
    show insertByKey lt x (pySortBy lt t) = x :: t
    rw [ht]
    cases t with
    | nil => rfl
    | cons y t' =>
      show (if lt y x then y :: insertByKey lt x t' else x :: y :: t') = _
      rw [if_neg (by simp [h.1 y (by simp)])]

theorem suffix_drop_ex (s x : Str) (hx : x.IsSuffix s) (tv : Str) (hp : tv.isPrefixOf x = true) :
    ∃ j, tv <+: s.drop j := by
  obtain ⟨p, hp2⟩ := hx
  refine ⟨p.length, ?_⟩
  rw [← hp2, List.drop_left]
  exact List.isPrefixOf_iff_prefix.mp hp

/-- A successful attr-token match exhibits the token value somewhere in the
region. -/
theorem attrTokenAt_occurs (s tn tv : Str) (h : attrTokenAt s tn tv = true) :
    ∃ j, tv <+: s.drop j := by
  simp only [attrTokenAt] at h
  split at h
  case isTrue h0 =>
    split at h
    case h_1 r1 heq =>
      split at h
      case h_1 q r3 heq2 =>
        split at h
        case isTrue hq =>
          split at h
          case isTrue hpre =>
            apply suffix_drop_ex s r3 ?_ tv hpre
            have s1 : (('=' : Char) :: r1).IsSuffix s := by
              rw [← heq]
              exact (List.drop_suffix _ _).trans (List.drop_suffix _ _)
            have s2 : (q :: r3).IsSuffix s := by
              have hr : (q :: r3).IsSuffix r1 := by
                rw [← heq2]; exact List.drop_suffix _ _
              exact hr.trans ((List.suffix_cons _ _).trans s1)
            exact (List.suffix_cons _ _).trans s2
          case isFalse => cases h
        case isFalse => cases h
      case h_2 => cases h
    case h_2 => cases h
  case isFalse => cases h

theorem hasTokFrom_occurs (region : Str) (tn tv : Str) (h : hasTokFrom region tn tv = true) :
    ∃ j, tv <+: region.drop j := by
  induction region with
  | nil => cases h
  | cons c t ih =>
    rcases Bool.or_eq_true_iff.mp h with h1 | h1
    · exact attrTokenAt_occurs (c :: t) tn tv h1
    · obtain ⟨j, hj⟩ := ih h1
      exact ⟨j + 1, by simpa using hj⟩

/-- When the token value occurs nowhere in the region's superstring (from
any offset), a token-requiring attr-region match fails. -/
theorem attrRegionEnd_none_of_global (low : Str) (m : Nat) (tn tv : Str)
    (h : ∀ i, ¬ tv <+: low.drop i) :
    attrRegionEnd (low.drop m) tn tv true = none := by
  simp only [attrRegionEnd]
  split
  · rfl
  · rw [if_pos trivial]
    by_cases htok : hasTokFrom ((low.drop m).takeWhile (fun c => c ≠ '>')) tn tv = true
    · exfalso
      obtain ⟨j, hj⟩ := hasTokFrom_occurs _ tn tv htok
      have hpre : ((low.drop m).takeWhile (fun c => c ≠ '>')).drop j <+: (low.drop m).drop j :=
        (List.takeWhile_prefix _).drop j
      rw [List.drop_drop] at hpre
      exact h (m + j) (hj.trans hpre)
    · rw [if_neg htok]

/-- The `role-entry` open-tag scans are vacuous on any document in which
the token value never occurs: no div can carry the class token. -/
theorem findOpenTags_nil (low tagLit tn tv : Str)
    (h : ∀ i, ¬ tv <+: low.drop i) :
    ∀ fuel pos, findOpenTags low tagLit tn tv pos fuel = [] := by
  intro fuel
  induction fuel with
  | zero => intro pos; rfl
  | succ f ih =>
    intro pos
    unfold findOpenTags
    cases hf : pyFindFrom low tagLit pos with
    | none => simp only [hf]
    | some p =>
      simp only [hf, attrRegionEnd_none_of_global low (p + tagLit.length) tn tv h]
      exact ih (p + 1)

/-! ### The flat rendered document family (the blocks `_format_experience_html`
emits), cut into named segments for scanning lemmas -/

def nl8 : Str := ("\n        ").toList

def articleOpen : Str := ("<article class=\"entry\">").toList

def closeArticle : Str := ("</article>").toList

def litL1 : Str := ("\n            <div class=\"entry-header\">\n                <span class=\"entry-title\">").toList

def litL2 : Str := ("</span>\n                <span class=\"entry-date\">").toList

def litDash : Str := (" - ").toList

def litL3 : Str := ("</span>\n            </div>\n            <div class=\"entry-header\">\n                <span class=\"entry-subtitle\">").toList

def litL4 : Str := ("</span>\n                <span class=\"entry-location\">").toList

def litL5 : Str := ("</span>\n            </div>\n            ").toList

def litUL : Str := ("<ul>").toList

def litULC : Str := ("</ul>").toList

def litLi : Str := ("<li>").toList

def litLiC : Str := ("</li>").toList

def roleTok : Str := ("role-entry").toList

/-- Everything of a flat block between the end of the opening tag and the
`<ul>` element. -/
def innerPre (e : WorkExperience) : Str :=
  litL1 ++ (e.role ++ (litL2 ++ (e.start_date ++ (litDash ++ (e.end_date ++
    (litL3 ++ (e.company ++ (litL4 ++ (e.location ++ litL5)))))))))

/-- The bullet-list element of a flat block as rendered. -/
def origUl (e : WorkExperience) : Str :=
  litUL ++ (bullets_html e.bullets ++ litULC)

/-- The content the scanners capture between `<article ...>` and
`</article>`. -/
def contentOf (e : WorkExperience) : Str :=
  innerPre e ++ (origUl e ++ nl8)

/-- A flat block with an arbitrary string in place of the `<ul>` element. -/
def exp_article_block (e : WorkExperience) (ul : Str) : Str :=
  nl8 ++ (articleOpen ++ (innerPre e ++ (ul ++ (nl8 ++ (closeArticle ++ nl8)))))

theorem exp_article_html_eq (e : WorkExperience) :
    exp_article_html e = exp_article_block e (origUl e) := by
  simp only [exp_article_html, exp_article_block, origUl, innerPre, List.append_assoc]
  rfl

/-- The join `"\n".join(html_parts)` unrolled structurally. -/
def flatTailStr : List WorkExperience → Str
  | [] => []
  | [e] => exp_article_html e
  | e :: r :: t => exp_article_html e ++ ('\n' :: flatTailStr (r :: t))

/-- What follows the first block in the joined document. -/
def glueRest : List WorkExperience → Str
  | [] => []
  | r :: t => '\n' :: flatTailStr (r :: t)

theorem flatTailStr_cons (e : WorkExperience) (rest : List WorkExperience) :
    flatTailStr (e :: rest) = exp_article_html e ++ glueRest rest := by
  cases rest with
  | nil => simp [flatTailStr, glueRest]
  | cons r t => rfl

theorem flatTailStr_eq_join (bs : List WorkExperience) :
    joinSep ("\n").toList (bs.map exp_article_html) = flatTailStr bs := by
  induction bs with
  | nil => rfl
  | cons e rest ih =>
    cases rest with
    | nil => rfl
    | cons r t =>
      show exp_article_html e ++ ('\n' :: []) ++
        joinSep ("\n").toList (List.map exp_article_html (r :: t)) = _
      rw [ih]
      simp [flatTailStr, List.append_assoc]

/-- Well-formed text fragment: free of `<` and of the `role-entry` token. -/
def WfStr (x : Str) : Prop :=
  (∀ c ∈ x, c ≠ '<') ∧ strFind (pyLower x) roleTok = none

/-- Well-formed bullet: well-formed text that is stripped and nonblank. -/
def WfBullet (b : Str) : Prop := WfStr b ∧ pyStrip b = b ∧ b ≠ []

def WfExp (e : WorkExperience) : Prop :=
  WfStr e.role ∧ WfStr e.start_date ∧ WfStr e.end_date ∧ WfStr e.company ∧
    WfStr e.location ∧ e.bullets ≠ [] ∧ ∀ b ∈ e.bullets, WfBullet b

def WfFlat (bs : List WorkExperience) : Prop := bs ≠ [] ∧ ∀ e ∈ bs, WfExp e

instance (x : Str) : Decidable (WfStr x) := by unfold WfStr; infer_instance

instance (b : Str) : Decidable (WfBullet b) := by unfold WfBullet; infer_instance

instance (e : WorkExperience) : Decidable (WfExp e) := by unfold WfExp; infer_instance

instance (bs : List WorkExperience) : Decidable (WfFlat bs) := by
  unfold WfFlat
  have h2 : Decidable (∀ e ∈ bs, WfExp e) := List.decidableBAll _ bs
  exact instDecidableAnd

theorem length_pyLower (x : Str) : (pyLower x).length = x.length := List.length_map x _

theorem low_drop (D : Str) (base : Nat) : (pyLower D).drop base = pyLower (D.drop base) :=
  (List.map_drop _ D base).symm

theorem bullets_html_cons (b : Str) (t : List Str) :
    bullets_html (b :: t) = (litLi ++ (b ++ litLiC)) ++ bullets_html t := by
  cases t with
  | nil => simp [bullets_html, joinSep, litLi, litLiC]
  | cons c u => simp [bullets_html, joinSep, litLi, litLiC]

/-- The lowered content, fully right-nested with an arbitrary continuation. -/
theorem low_contentOf_ctx (e : WorkExperience) (R : Str) :
    pyLower (contentOf e) ++ R =
      litL1 ++ (pyLower e.role ++ (litL2 ++ (pyLower e.start_date ++ (litDash ++
        (pyLower e.end_date ++ (litL3 ++ (pyLower e.company ++ (litL4 ++
        (pyLower e.location ++ (litL5 ++ (litUL ++ (pyLower (bullets_html e.bullets) ++
        (litULC ++ (nl8 ++ R)))))))))))))) := by
  simp only [contentOf, innerPre, origUl, pyLower_append, List.append_assoc]
  rfl

/-- The original-case content decomposition with continuation. -/
theorem contentOf_ctx (e : WorkExperience) (R : Str) :
    contentOf e ++ R =
      innerPre e ++ (litUL ++ (bullets_html e.bullets ++ (litULC ++ (nl8 ++ R)))) := by
  simp only [contentOf, innerPre, origUl, List.append_assoc]

/-! ### Occurrence-freeness chains over the flat-block segments -/

/-- Extend an occurrence-free segment by an occurrence-free bound on the rest. -/
theorem no_occ_step (a rest pat : Str) (n : Nat)
    (ha : ∀ i, i < a.length → ¬ OccursAt pat (a ++ rest) i)
    (hrest : ∀ i, i < n → ¬ OccursAt pat rest i) :
    ∀ i, i < a.length + n → ¬ OccursAt pat (a ++ rest) i := by
  intro i hi hocc
  by_cases hia : i < a.length
  · exact ha i hia hocc
  · have hj : i = a.length + (i - a.length) := by omega
    rw [hj, occursAt_append_right] at hocc
    exact hrest (i - a.length) (by omega) hocc

theorem strFind_none_of_no_occ (s pat : Str) (hne : pat ≠ [])
    (h : ∀ i, i < s.length → ¬ OccursAt pat s i) : strFind s pat = none := by
  cases hf : strFind s pat with
  | none => rfl
  | some i =>
    exfalso
    have hocc := strFind_some s pat i hf
    by_cases hi : i < s.length
    · exact h i hi hocc
    · rw [OccursAt, List.drop_eq_nil_of_le (by omega)] at hocc
      exact hne (List.prefix_nil.mp hocc)

theorem wfStr_find_none_lt (x pat : Str) (hx : WfStr x) (hne : pat ≠ [])
    (hhead : pat.head? = some '<') : strFind (pyLower x) pat = none :=
  strFind_none_of_clean _ _ '<' hne hhead (pyLower_clean x hx.1)

/-- The lowered pre-list part, right-nested with continuation. -/
theorem low_innerPre_ctx (e : WorkExperience) (R : Str) :
    pyLower (innerPre e) ++ R =
      litL1 ++ (pyLower e.role ++ (litL2 ++ (pyLower e.start_date ++ (litDash ++
        (pyLower e.end_date ++ (litL3 ++ (pyLower e.company ++ (litL4 ++
        (pyLower e.location ++ (litL5 ++ R)))))))))) := by
  simp only [innerPre, pyLower_append, List.append_assoc]
  rfl

theorem low_contentOf_ctx2 (e : WorkExperience) (R : Str) :
    pyLower (contentOf e) ++ R =
      pyLower (innerPre e) ++ (litUL ++ (pyLower (bullets_html e.bullets) ++
        (litULC ++ (nl8 ++ R)))) := by
  simp only [contentOf, origUl, pyLower_append, List.append_assoc]
  rfl

/-- Occurrence-freeness of a pattern over the rendered pre-list part of a
block, for any continuation, given per-segment refutations. -/
theorem no_occ_innerPre (e : WorkExperience) (pat : Str) (hne : pat ≠ [])
    (hrole : strFind (pyLower e.role) pat = none)
    (hsd : strFind (pyLower e.start_date) pat = none)
    (hed : strFind (pyLower e.end_date) pat = none)
    (hco : strFind (pyLower e.company) pat = none)
    (hlo : strFind (pyLower e.location) pat = none)
    (hpLT : ∀ k, k < pat.length → 0 < k → (pat.drop k).head? ≠ some '<')
    (hpSP : ∀ k, k < pat.length → 0 < k → (pat.drop k).head? ≠ some ' ')
    (h1 : ∀ i, i < litL1.length → ¬ (pat.take (litL1.length - i)) <+: litL1.drop i)
    (h2 : ∀ i, i < litL2.length → ¬ (pat.take (litL2.length - i)) <+: litL2.drop i)
    (hD : ∀ i, i < litDash.length → ¬ (pat.take (litDash.length - i)) <+: litDash.drop i)
    (h3 : ∀ i, i < litL3.length → ¬ (pat.take (litL3.length - i)) <+: litL3.drop i)
    (h4 : ∀ i, i < litL4.length → ¬ (pat.take (litL4.length - i)) <+: litL4.drop i)
    (h5 : ∀ i, i < litL5.length → ¬ (pat.take (litL5.length - i)) <+: litL5.drop i) :
    ∀ R, ∀ i, i < (pyLower (innerPre e)).length →
      ¬ OccursAt pat (pyLower (innerPre e) ++ R) i := by
  intro R
  have s11 : ∀ i, i < litL5.length + 0 → ¬ OccursAt pat (litL5 ++ R) i :=
    no_occ_step litL5 R pat 0 (no_occ_of_overlap litL5 R pat h5) (by omega)
  have s10 := no_occ_step (pyLower e.location) (litL5 ++ R) pat (litL5.length + 0)
    (no_occ_field _ _ pat hne hlo rfl hpLT) s11
  have s9 := no_occ_step litL4 (pyLower e.location ++ (litL5 ++ R)) pat _
    (no_occ_of_overlap litL4 _ pat h4) s10
  have s8 := no_occ_step (pyLower e.company)
    (litL4 ++ (pyLower e.location ++ (litL5 ++ R))) pat _
    (no_occ_field _ _ pat hne hco rfl hpLT) s9
  have s7 := no_occ_step litL3
    (pyLower e.company ++ (litL4 ++ (pyLower e.location ++ (litL5 ++ R)))) pat _
    (no_occ_of_overlap litL3 _ pat h3) s8
  have s6 := no_occ_step (pyLower e.end_date)
    (litL3 ++ (pyLower e.company ++ (litL4 ++ (pyLower e.location ++ (litL5 ++ R))))) pat _
    (no_occ_field _ _ pat hne hed rfl hpLT) s7
  have s5 := no_occ_step litDash
    (pyLower e.end_date ++ (litL3 ++ (pyLower e.company ++ (litL4 ++
      (pyLower e.location ++ (litL5 ++ R)))))) pat _
    (no_occ_of_overlap litDash _ pat hD) s6
  have s4 := no_occ_step (pyLower e.start_date)
    (litDash ++ (pyLower e.end_date ++ (litL3 ++ (pyLower e.company ++ (litL4 ++
      (pyLower e.location ++ (litL5 ++ R))))))) pat _
    (no_occ_field _ _ pat hne hsd rfl hpSP) s5
  have s3 := no_occ_step litL2
    (pyLower e.start_date ++ (litDash ++ (pyLower e.end_date ++ (litL3 ++
      (pyLower e.company ++ (litL4 ++ (pyLower e.location ++ (litL5 ++ R)))))))) pat _
    (no_occ_of_overlap litL2 _ pat h2) s4
  have s2 := no_occ_step (pyLower e.role)
    (litL2 ++ (pyLower e.start_date ++ (litDash ++ (pyLower e.end_date ++ (litL3 ++
      (pyLower e.company ++ (litL4 ++ (pyLower e.location ++ (litL5 ++ R))))))))) pat _
    (no_occ_field _ _ pat hne hrole rfl hpLT) s3
  have s1 := no_occ_step litL1
    (pyLower e.role ++ (litL2 ++ (pyLower e.start_date ++ (litDash ++
      (pyLower e.end_date ++ (litL3 ++ (pyLower e.company ++ (litL4 ++
      (pyLower e.location ++ (litL5 ++ R)))))))))) pat _
    (no_occ_of_overlap litL1 _ pat h1) s2
  have hlen : (pyLower (innerPre e)).length =
      litL1.length + ((pyLower e.role).length + (litL2.length +
        ((pyLower e.start_date).length + (litDash.length + ((pyLower e.end_date).length +
        (litL3.length + ((pyLower e.company).length + (litL4.length +
        ((pyLower e.location).length + (litL5.length + 0)))))))))) := by
    simp only [innerPre, pyLower_append, List.length_append, length_pyLower]
    omega
  intro i hi
  rw [hlen] at hi
  have hstr := low_innerPre_ctx e R
  intro hocc
  rw [hstr] at hocc
  exact s1 i hi hocc

theorem low_bullets_cons_ctx (b : Str) (t : List Str) (R : Str) :
    pyLower (bullets_html (b :: t)) ++ R =
      litLi ++ (pyLower b ++ (litLiC ++ (pyLower (bullets_html t) ++ R))) := by
  rw [bullets_html_cons]
  simp only [pyLower_append, List.append_assoc]
  rfl

/-- Occurrence-freeness of a pattern over the rendered bullet items, for a
`<`-headed continuation. -/
theorem no_occ_bullets_html (bl : List Str) (pat : Str) (hne : pat ≠ [])
    (hbul : ∀ b ∈ bl, strFind (pyLower b) pat = none)
    (hpLT : ∀ k, k < pat.length → 0 < k → (pat.drop k).head? ≠ some '<')
    (hli : ∀ i, i < litLi.length → ¬ (pat.take (litLi.length - i)) <+: litLi.drop i)
    (hliC : ∀ i, i < litLiC.length → ¬ (pat.take (litLiC.length - i)) <+: litLiC.drop i) :
    ∀ R, R.head? = some '<' →
      ∀ i, i < (pyLower (bullets_html bl)).length →
        ¬ OccursAt pat (pyLower (bullets_html bl) ++ R) i := by
  induction bl with
  | nil => intro R hR i hi; simp [bullets_html, joinSep, pyLower] at hi
  | cons b t ih =>
    intro R hR
    have hT := ih (fun x hx => hbul x (by simp [hx])) R hR
    have s4 := no_occ_step litLiC (pyLower (bullets_html t) ++ R) pat
      (pyLower (bullets_html t)).length
      (no_occ_of_overlap litLiC _ pat hliC)
      (by
        intro i hi hocc
        by_cases hR0 : (pyLower (bullets_html t)).length = 0
        · omega
        · exact hT i (by omega) hocc)
    have hheadC : (litLiC ++ (pyLower (bullets_html t) ++ R)).head? = some '<' := rfl
    have s3 := no_occ_step (pyLower b) (litLiC ++ (pyLower (bullets_html t) ++ R)) pat _
      (no_occ_field _ _ pat hne (hbul b (by simp)) hheadC hpLT) s4
    have s2 := no_occ_step litLi
      (pyLower b ++ (litLiC ++ (pyLower (bullets_html t) ++ R))) pat _
      (no_occ_of_overlap litLi _ pat hli) s3
    have hlen : (pyLower (bullets_html (b :: t))).length =
        litLi.length + ((pyLower b).length + (litLiC.length +
          (pyLower (bullets_html t)).length)) := by
      have := congrArg List.length (low_bullets_cons_ctx b t [])
      simpa [List.length_append] using this
    intro i hi hocc
    rw [hlen] at hi
    rw [low_bullets_cons_ctx] at hocc
    exact s2 i hi hocc

/-- Occurrence-freeness of a pattern over a whole captured content, for any
continuation. -/
theorem no_occ_content (e : WorkExperience) (pat : Str) (hne : pat ≠ [])
    (hrole : strFind (pyLower e.role) pat = none)
    (hsd : strFind (pyLower e.start_date) pat = none)
    (hed : strFind (pyLower e.end_date) pat = none)
    (hco : strFind (pyLower e.company) pat = none)
    (hlo : strFind (pyLower e.location) pat = none)
    (hbul : ∀ b ∈ e.bullets, strFind (pyLower b) pat = none)
    (hpLT : ∀ k, k < pat.length → 0 < k → (pat.drop k).head? ≠ some '<')
    (hpSP : ∀ k, k < pat.length → 0 < k → (pat.drop k).head? ≠ some ' ')
    (h1 : ∀ i, i < litL1.length → ¬ (pat.take (litL1.length - i)) <+: litL1.drop i)
    (h2 : ∀ i, i < litL2.length → ¬ (pat.take (litL2.length - i)) <+: litL2.drop i)
    (hD : ∀ i, i < litDash.length → ¬ (pat.take (litDash.length - i)) <+: litDash.drop i)
    (h3 : ∀ i, i < litL3.length → ¬ (pat.take (litL3.length - i)) <+: litL3.drop i)
    (h4 : ∀ i, i < litL4.length → ¬ (pat.take (litL4.length - i)) <+: litL4.drop i)
    (h5 : ∀ i, i < litL5.length → ¬ (pat.take (litL5.length - i)) <+: litL5.drop i)
    (hUL : ∀ i, i < litUL.length → ¬ (pat.take (litUL.length - i)) <+: litUL.drop i)
    (hULC : ∀ i, i < litULC.length → ¬ (pat.take (litULC.length - i)) <+: litULC.drop i)
    (hNL : ∀ i, i < nl8.length → ¬ (pat.take (nl8.length - i)) <+: nl8.drop i)
    (hli : ∀ i, i < litLi.length → ¬ (pat.take (litLi.length - i)) <+: litLi.drop i)
    (hliC : ∀ i, i < litLiC.length → ¬ (pat.take (litLiC.length - i)) <+: litLiC.drop i) :
    ∀ R, ∀ i, i < (pyLower (contentOf e)).length →
      ¬ OccursAt pat (pyLower (contentOf e) ++ R) i := by
  intro R
  have sNL : ∀ i, i < nl8.length + 0 → ¬ OccursAt pat (nl8 ++ R) i :=
    no_occ_step nl8 R pat 0 (no_occ_of_overlap nl8 R pat hNL) (by omega)
  have sULC := no_occ_step litULC (nl8 ++ R) pat _
    (no_occ_of_overlap litULC _ pat hULC) sNL
  have sBH := no_occ_step (pyLower (bullets_html e.bullets))
    (litULC ++ (nl8 ++ R)) pat _
    (fun i hi => no_occ_bullets_html e.bullets pat hne hbul hpLT hli hliC
      (litULC ++ (nl8 ++ R)) rfl i hi) sULC
  have sUL := no_occ_step litUL
    (pyLower (bullets_html e.bullets) ++ (litULC ++ (nl8 ++ R))) pat _
    (no_occ_of_overlap litUL _ pat hUL) sBH
  have sIn := no_occ_step (pyLower (innerPre e))
    (litUL ++ (pyLower (bullets_html e.bullets) ++ (litULC ++ (nl8 ++ R)))) pat _
    (no_occ_innerPre e pat hne hrole hsd hed hco hlo hpLT hpSP h1 h2 hD h3 h4 h5 _) sUL
  have hlen : (pyLower (contentOf e)).length =
      (pyLower (innerPre e)).length + (litUL.length +
        ((pyLower (bullets_html e.bullets)).length + (litULC.length + (nl8.length + 0)))) := by
    have := congrArg List.length (low_contentOf_ctx2 e [])
    simpa [List.length_append] using this
  intro i hi hocc
  rw [hlen] at hi
  rw [low_contentOf_ctx2] at hocc
  exact sIn i hi hocc

/-! ### Pattern-specific instantiations of the chains -/

theorem no_occ_content_art (e : WorkExperience) (hwf : WfExp e) :
    ∀ R, ∀ i, i < (pyLower (contentOf e)).length →
      ¬ OccursAt ("<article").toList (pyLower (contentOf e) ++ R) i := by
  obtain ⟨hr, hs, he, hc, hl, -, hb⟩ := hwf
  exact no_occ_content e _ (by decide)
    (wfStr_find_none_lt _ _ hr (by decide) (by decide))
    (wfStr_find_none_lt _ _ hs (by decide) (by decide))
    (wfStr_find_none_lt _ _ he (by decide) (by decide))
    (wfStr_find_none_lt _ _ hc (by decide) (by decide))
    (wfStr_find_none_lt _ _ hl (by decide) (by decide))
    (fun b hbm => wfStr_find_none_lt _ _ (hb b hbm).1 (by decide) (by decide))
    (by decide) (by decide) (by decide) (by decide) (by decide) (by decide)
    (by decide) (by decide) (by decide) (by decide) (by decide) (by decide) (by decide)

theorem no_occ_content_artC (e : WorkExperience) (hwf : WfExp e) :
    ∀ R, ∀ i, i < (pyLower (contentOf e)).length →
      ¬ OccursAt ("</article>").toList (pyLower (contentOf e) ++ R) i := by
  obtain ⟨hr, hs, he, hc, hl, -, hb⟩ := hwf
  exact no_occ_content e _ (by decide)
    (wfStr_find_none_lt _ _ hr (by decide) (by decide))
    (wfStr_find_none_lt _ _ hs (by decide) (by decide))
    (wfStr_find_none_lt _ _ he (by decide) (by decide))
    (wfStr_find_none_lt _ _ hc (by decide) (by decide))
    (wfStr_find_none_lt _ _ hl (by decide) (by decide))
    (fun b hbm => wfStr_find_none_lt _ _ (hb b hbm).1 (by decide) (by decide))
    (by decide) (by decide) (by decide) (by decide) (by decide) (by decide)
    (by decide) (by decide) (by decide) (by decide) (by decide) (by decide) (by decide)

theorem no_occ_content_sec (e : WorkExperience) (hwf : WfExp e) :
    ∀ R, ∀ i, i < (pyLower (contentOf e)).length →
      ¬ OccursAt ("<section").toList (pyLower (contentOf e) ++ R) i := by
  obtain ⟨hr, hs, he, hc, hl, -, hb⟩ := hwf
  exact no_occ_content e _ (by decide)
    (wfStr_find_none_lt _ _ hr (by decide) (by decide))
    (wfStr_find_none_lt _ _ hs (by decide) (by decide))
    (wfStr_find_none_lt _ _ he (by decide) (by decide))
    (wfStr_find_none_lt _ _ hc (by decide) (by decide))
    (wfStr_find_none_lt _ _ hl (by decide) (by decide))
    (fun b hbm => wfStr_find_none_lt _ _ (hb b hbm).1 (by decide) (by decide))
    (by decide) (by decide) (by decide) (by decide) (by decide) (by decide)
    (by decide) (by decide) (by decide) (by decide) (by decide) (by decide) (by decide)

theorem no_occ_content_role (e : WorkExperience) (hwf : WfExp e) :
    ∀ R, ∀ i, i < (pyLower (contentOf e)).length →
      ¬ OccursAt roleTok (pyLower (contentOf e) ++ R) i := by
  obtain ⟨hr, hs, he, hc, hl, -, hb⟩ := hwf
  exact no_occ_content e _ (by decide)
    hr.2 hs.2 he.2 hc.2 hl.2
    (fun b hbm => (hb b hbm).1.2)
    (by decide) (by decide) (by decide) (by decide) (by decide) (by decide)
    (by decide) (by decide) (by decide) (by decide) (by decide) (by decide) (by decide)

theorem no_occ_innerPre_ul (e : WorkExperience) (hwf : WfExp e) :
    ∀ R, ∀ i, i < (pyLower (innerPre e)).length →
      ¬ OccursAt ("<ul").toList (pyLower (innerPre e) ++ R) i := by
  obtain ⟨hr, hs, he, hc, hl, -, hb⟩ := hwf
  exact no_occ_innerPre e _ (by decide)
    (wfStr_find_none_lt _ _ hr (by decide) (by decide))
    (wfStr_find_none_lt _ _ hs (by decide) (by decide))
    (wfStr_find_none_lt _ _ he (by decide) (by decide))
    (wfStr_find_none_lt _ _ hc (by decide) (by decide))
    (wfStr_find_none_lt _ _ hl (by decide) (by decide))
    (by decide) (by decide) (by decide) (by decide) (by decide) (by decide)
    (by decide) (by decide)

theorem no_occ_innerPre_li (e : WorkExperience) (hwf : WfExp e) :
    ∀ R, ∀ i, i < (pyLower (innerPre e)).length →
      ¬ OccursAt ("<li").toList (pyLower (innerPre e) ++ R) i := by
  obtain ⟨hr, hs, he, hc, hl, -, hb⟩ := hwf
  exact no_occ_innerPre e _ (by decide)
    (wfStr_find_none_lt _ _ hr (by decide) (by decide))
    (wfStr_find_none_lt _ _ hs (by decide) (by decide))
    (wfStr_find_none_lt _ _ he (by decide) (by decide))
    (wfStr_find_none_lt _ _ hc (by decide) (by decide))
    (wfStr_find_none_lt _ _ hl (by decide) (by decide))
    (by decide) (by decide) (by decide) (by decide) (by decide) (by decide)
    (by decide) (by decide)

theorem no_occ_bullets_ulC (bl : List Str) (hbl : ∀ b ∈ bl, WfBullet b) :
    ∀ R, R.head? = some '<' →
      ∀ i, i < (pyLower (bullets_html bl)).length →
        ¬ OccursAt ("</ul>").toList (pyLower (bullets_html bl) ++ R) i :=
  no_occ_bullets_html bl _ (by decide)
    (fun b hbm => wfStr_find_none_lt _ _ (hbl b hbm).1 (by decide) (by decide))
    (by decide) (by decide) (by decide)

/-! ### Block- and document-level occurrence-freeness -/

theorem low_block_ctx (e : WorkExperience) (R : Str) :
    pyLower (exp_article_html e) ++ R =
      nl8 ++ (articleOpen ++ (pyLower (contentOf e) ++ (closeArticle ++ (nl8 ++ R)))) := by
  rw [exp_article_html_eq]
  simp only [exp_article_block, contentOf, pyLower_append, List.append_assoc]
  rfl

theorem block_ctx (e : WorkExperience) (R : Str) :
    exp_article_html e ++ R =
      nl8 ++ (articleOpen ++ (contentOf e ++ (closeArticle ++ (nl8 ++ R)))) := by
  rw [exp_article_html_eq]
  simp only [exp_article_block, contentOf, List.append_assoc]

theorem no_occ_block (e : WorkExperience) (hwfe : WfExp e) (pat : Str)
    (hcontent : ∀ R, ∀ i, i < (pyLower (contentOf e)).length →
      ¬ OccursAt pat (pyLower (contentOf e) ++ R) i)
    (hNL : ∀ i, i < nl8.length → ¬ (pat.take (nl8.length - i)) <+: nl8.drop i)
    (hAO : ∀ i, i < articleOpen.length → ¬ (pat.take (articleOpen.length - i)) <+: articleOpen.drop i)
    (hCA : ∀ i, i < closeArticle.length → ¬ (pat.take (closeArticle.length - i)) <+: closeArticle.drop i) :
    ∀ R, ∀ i, i < (pyLower (exp_article_html e)).length →
      ¬ OccursAt pat (pyLower (exp_article_html e) ++ R) i := by
  intro R
  have s5 : ∀ i, i < nl8.length + 0 → ¬ OccursAt pat (nl8 ++ R) i :=
    no_occ_step nl8 R pat 0 (no_occ_of_overlap nl8 R pat hNL) (by omega)
  have s4 := no_occ_step closeArticle (nl8 ++ R) pat _
    (no_occ_of_overlap closeArticle _ pat hCA) s5
  have s3 := no_occ_step (pyLower (contentOf e)) (closeArticle ++ (nl8 ++ R)) pat _
    (hcontent (closeArticle ++ (nl8 ++ R))) s4
  have s2 := no_occ_step articleOpen
    (pyLower (contentOf e) ++ (closeArticle ++ (nl8 ++ R))) pat _
    (no_occ_of_overlap articleOpen _ pat hAO) s3
  have s1 := no_occ_step nl8
    (articleOpen ++ (pyLower (contentOf e) ++ (closeArticle ++ (nl8 ++ R)))) pat _
    (no_occ_of_overlap nl8 _ pat hNL) s2
  have hlen : (pyLower (exp_article_html e)).length =
      nl8.length + (articleOpen.length + ((pyLower (contentOf e)).length +
        (closeArticle.length + (nl8.length + 0)))) := by
    have := congrArg List.length (low_block_ctx e [])
    simpa [List.length_append] using this
  intro i hi hocc
  rw [hlen] at hi
  rw [low_block_ctx] at hocc
  exact s1 i hi hocc

theorem no_occ_flatTail (bs : List WorkExperience) (pat : Str)
    (hwf : ∀ e ∈ bs, WfExp e)
    (hcontent : ∀ e, WfExp e → ∀ R, ∀ i, i < (pyLower (contentOf e)).length →
      ¬ OccursAt pat (pyLower (contentOf e) ++ R) i)
    (hNL : ∀ i, i < nl8.length → ¬ (pat.take (nl8.length - i)) <+: nl8.drop i)
    (hAO : ∀ i, i < articleOpen.length → ¬ (pat.take (articleOpen.length - i)) <+: articleOpen.drop i)
    (hCA : ∀ i, i < closeArticle.length → ¬ (pat.take (closeArticle.length - i)) <+: closeArticle.drop i)
    (hSep : ∀ i, i < (['\n'] : Str).length → ¬ (pat.take ((['\n'] : Str).length - i)) <+: (['\n'] : Str).drop i) :
    ∀ R, ∀ i, i < (pyLower (flatTailStr bs)).length →
      ¬ OccursAt pat (pyLower (flatTailStr bs) ++ R) i := by
  induction bs with
  | nil => intro R i hi; simp [flatTailStr, pyLower] at hi
  | cons e rest ih =>
    have hwfe := hwf e (by simp)
    have hwfr : ∀ x ∈ rest, WfExp x := fun x hx => hwf x (by simp [hx])
    have hblock := no_occ_block e hwfe pat (hcontent e hwfe) hNL hAO hCA
    cases rest with
    | nil =>
      intro R i hi hocc
      have hstr : pyLower (flatTailStr [e]) ++ R = pyLower (exp_article_html e) ++ R := rfl
      rw [hstr] at hocc
      exact hblock R i hi hocc
    | cons r t =>
      intro R
      have hTail := ih hwfr R
      have sSep := no_occ_step ['\n'] (pyLower (flatTailStr (r :: t)) ++ R) pat _
        (no_occ_of_overlap ['\n'] _ pat hSep) hTail
      have sBlk := no_occ_step (pyLower (exp_article_html e))
        (['\n'] ++ (pyLower (flatTailStr (r :: t)) ++ R)) pat _
        (hblock _) sSep
      have hstr : pyLower (flatTailStr (e :: r :: t)) ++ R =
          pyLower (exp_article_html e) ++
            (['\n'] ++ (pyLower (flatTailStr (r :: t)) ++ R)) := by
        show pyLower (exp_article_html e ++ ('\n' :: flatTailStr (r :: t))) ++ R = _
        rw [pyLower_append]
        simp only [List.append_assoc]
        rfl
      have hlen : (pyLower (flatTailStr (e :: r :: t))).length =
          (pyLower (exp_article_html e)).length +
            ((['\n'] : Str).length + (pyLower (flatTailStr (r :: t))).length) := by
        have := congrArg List.length (hstr)
        simp only [List.length_append] at this
        omega
      intro i hi hocc
      rw [hlen] at hi
      rw [hstr] at hocc
      exact sBlk i (by simpa using hi) hocc

/-- No experience-section tag anywhere in a rendered flat document. -/
theorem flat_no_section (bs : List WorkExperience) (hwf : ∀ e ∈ bs, WfExp e) :
    strFind (pyLower (flatTailStr bs)) ("<section").toList = none := by
  apply strFind_none_of_no_occ _ _ (by decide)
  intro i hi hocc
  have h := no_occ_flatTail bs ("<section").toList hwf
    (fun e he => no_occ_content_sec e he)
    (by decide) (by decide) (by decide) (by decide) [] i (by simpa using hi)
  rw [List.append_nil] at h
  exact h hocc

/-- The `role-entry` token occurs nowhere in a rendered flat document. -/
theorem flat_no_roleTok (bs : List WorkExperience) (hwf : ∀ e ∈ bs, WfExp e) :
    ∀ i, ¬ roleTok <+: (pyLower (flatTailStr bs)).drop i := by
  intro i hocc
  by_cases hi : i < (pyLower (flatTailStr bs)).length
  · have h := no_occ_flatTail bs roleTok hwf
      (fun e he => no_occ_content_role e he)
      (by decide) (by decide) (by decide) (by decide) [] i hi
    rw [List.append_nil] at h
    exact h hocc
  · rw [List.drop_eq_nil_of_le (by omega)] at hocc
    have : roleTok = [] := List.prefix_nil.mp hocc
    cases this

/-! ### Positive scanning computations on flat documents -/

theorem drop_prefix_eq (A B : Str) (n : Nat) (h : A.length = n) : (A ++ B).drop n = B := by
  rw [← h, List.drop_left]

theorem strFind_junk_prefix (J rest pat : Str) (c : Char) (hhead : pat.head? = some c)
    (hclean : ∀ y ∈ J, y ≠ c) (hpre : pat.isPrefixOf rest = true) :
    strFind (J ++ rest) pat = some J.length := by
  rw [strFind_append J rest pat (no_occ_of_clean J rest pat c hhead hclean),
    strFind_of_isPrefixOf rest pat hpre]
  simp

/-- The attr region of the rendered opening tag recognizes `class="entry"`. -/
theorem attrRegion_entry (X : Str) :
    attrRegionEnd ((" class=\"entry\">").toList ++ X) ("class").toList ("entry").toList true
      = some 15 := by
  have hreg : ((" class=\"entry\">").toList ++ X).takeWhile (fun c => c ≠ '>')
      = (" class=\"entry\">").toList.takeWhile (fun c => c ≠ '>') := by
    rw [List.takeWhile_append, if_neg (by decide)]
  simp only [attrRegionEnd, hreg]
  rw [if_neg (by
    intro hc
    have h14 : ((" class=\"entry\">").toList.takeWhile (fun c => c ≠ '>')).length = 14 := by
      decide
    rw [h14, List.length_append] at hc
    have h15 : (" class=\"entry\">").toList.length = 15 := by decide
    omega)]
  rw [if_pos (by decide)]
  decide

/-- The attr region right after `<ul` / `<li` in the rendered blocks: the
very next character is `>`. -/
theorem attrRegion_gt (X : Str) (tn tv : Str) :
    attrRegionEnd ('>' :: X) tn tv false = some 1 := by
  simp only [attrRegionEnd]
  rw [show (('>' :: X).takeWhile (fun c => c ≠ '>')) = [] from rfl]
  rw [if_neg (by simp)]
  rfl

theorem strFind_content_close (e : WorkExperience) (hwfe : WfExp e) (rest : Str)
    (hpre : ("</article>").toList.isPrefixOf rest = true) :
    strFind (pyLower (contentOf e) ++ rest) ("</article>").toList
      = some (contentOf e).length := by
  rw [strFind_append _ _ _ (no_occ_content_artC e hwfe rest),
    strFind_of_isPrefixOf rest _ hpre]
  simp [length_pyLower]

/-- Strategy-1 `re.findall` over a junk-prefixed train of rendered flat
blocks captures exactly the block contents, in order. -/
theorem findall_art (D low : Str) (hlow : low = pyLower D) :
    ∀ (bsuf : List WorkExperience) (fuel : Nat) (J : Str) (base : Nat),
      D.drop base = J ++ flatTailStr bsuf →
      (∀ c ∈ J, c ≠ '<') →
      (∀ e ∈ bsuf, WfExp e) →
      bsuf.length < fuel →
      findallTagContents D low ("<article").toList ("class").toList ("entry").toList true
        ("</article>").toList base fuel = bsuf.map contentOf := by
  intro bsuf
  induction bsuf with
  | nil =>
    intro fuel J base hD hJ hwf hfl
    cases fuel with
    | zero => omega
    | succ f =>
      have hlowdrop : low.drop base = pyLower J := by
        rw [hlow, low_drop, hD]
        simp [flatTailStr]
      have hfind : pyFindFrom low ("<article").toList base = none := by
        unfold pyFindFrom
        rw [hlowdrop,
          strFind_none_of_clean _ _ '<' (by decide) (by decide) (pyLower_clean J hJ)]
        rfl
      unfold findallTagContents
      rw [hfind]
      rfl
  | cons e rest ih =>
    intro fuel J base hD hJ hwf hfl
    cases fuel with
    | zero => omega
    | succ f =>
      have hwfe : WfExp e := hwf e (by simp)
      have hDd : D.drop base = (J ++ nl8) ++ (articleOpen ++ (contentOf e ++
          (closeArticle ++ (nl8 ++ glueRest rest)))) := by
        rw [hD, flatTailStr_cons e rest, block_ctx]
        simp [List.append_assoc]
      have hLd : low.drop base = (pyLower J ++ nl8) ++ (articleOpen ++
          (pyLower (contentOf e) ++ (closeArticle ++ (nl8 ++ pyLower (glueRest rest))))) := by
        rw [hlow, low_drop, hDd]
        simp only [pyLower_append, List.append_assoc]
        rfl
      have hJ2 : ∀ c ∈ pyLower J ++ nl8, c ≠ '<' := by
        intro c hc
        rcases List.mem_append.mp hc with h | h
        · exact pyLower_clean J hJ c h
        · exact (by decide : ∀ x ∈ nl8, x ≠ '<') c h
      have hfind : pyFindFrom low ("<article").toList base
          = some ((pyLower J ++ nl8).length + base) := by
        unfold pyFindFrom
        rw [hLd, strFind_junk_prefix (pyLower J ++ nl8)
          (articleOpen ++ (pyLower (contentOf e) ++
            (closeArticle ++ (nl8 ++ pyLower (glueRest rest)))))
          (("<article").toList) '<' (by decide) hJ2 (by rfl)]
        rfl
      have l8 : ("<article").toList.length = 8 := by decide
      have l10 : ("</article>").toList.length = 10 := by decide
      have hdropAttr : low.drop ((pyLower J ++ nl8).length + base + ("<article").toList.length)
          = (" class=\"entry\">").toList ++ (pyLower (contentOf e) ++
            (closeArticle ++ (nl8 ++ pyLower (glueRest rest)))) := by
        have h1 : low.drop ((pyLower J ++ nl8).length + base + ("<article").toList.length)
            = (low.drop base).drop ((pyLower J ++ nl8).length + 8) := by
          rw [List.drop_drop]
          congr 1
          omega
        rw [h1, hLd]
        have hgroup : (pyLower J ++ nl8) ++ (articleOpen ++ (pyLower (contentOf e) ++
              (closeArticle ++ (nl8 ++ pyLower (glueRest rest)))))
            = ((pyLower J ++ nl8) ++ ("<article").toList) ++
              ((" class=\"entry\">").toList ++ (pyLower (contentOf e) ++
                (closeArticle ++ (nl8 ++ pyLower (glueRest rest))))) := by
          simp only [List.append_assoc]
          rfl
        rw [hgroup]
        exact drop_prefix_eq _ _ _ (by rw [List.length_append]; rfl)
      have hattr : attrRegionEnd
            (low.drop ((pyLower J ++ nl8).length + base + ("<article").toList.length))
            ("class").toList ("entry").toList true = some 15 := by
        rw [hdropAttr]
        exact attrRegion_entry _
      have hdropCs : low.drop ((pyLower J ++ nl8).length + base + ("<article").toList.length + 15)
          = pyLower (contentOf e) ++ (closeArticle ++ (nl8 ++ pyLower (glueRest rest))) := by
        have h1 : low.drop ((pyLower J ++ nl8).length + base + ("<article").toList.length + 15)
            = (low.drop base).drop ((pyLower J ++ nl8).length + 23) := by
          rw [List.drop_drop]
          congr 1
          rw [l8]
          omega
        rw [h1, hLd]
        have hgroup : (pyLower J ++ nl8) ++ (articleOpen ++ (pyLower (contentOf e) ++
              (closeArticle ++ (nl8 ++ pyLower (glueRest rest)))))
            = ((pyLower J ++ nl8) ++ articleOpen) ++ (pyLower (contentOf e) ++
              (closeArticle ++ (nl8 ++ pyLower (glueRest rest)))) := by
          simp only [List.append_assoc]
        rw [hgroup]
        exact drop_prefix_eq _ _ _ (by rw [List.length_append]; rfl)
      have hclose : pyFindFrom low ("</article>").toList
            ((pyLower J ++ nl8).length + base + ("<article").toList.length + 15)
          = some ((contentOf e).length +
              ((pyLower J ++ nl8).length + base + ("<article").toList.length + 15)) := by
        unfold pyFindFrom
        rw [hdropCs, strFind_content_close e hwfe
          (closeArticle ++ (nl8 ++ pyLower (glueRest rest))) (by rfl)]
        rfl
      have hDdCs : D.drop ((pyLower J ++ nl8).length + base + ("<article").toList.length + 15)
          = contentOf e ++ (closeArticle ++ (nl8 ++ glueRest rest)) := by
        have h1 : D.drop ((pyLower J ++ nl8).length + base + ("<article").toList.length + 15)
            = (D.drop base).drop ((pyLower J ++ nl8).length + 23) := by
          rw [List.drop_drop]
          congr 1
          rw [l8]
          omega
        rw [h1, hDd]
        have hgroup : (J ++ nl8) ++ (articleOpen ++ (contentOf e ++
              (closeArticle ++ (nl8 ++ glueRest rest))))
            = ((J ++ nl8) ++ articleOpen) ++ (contentOf e ++
              (closeArticle ++ (nl8 ++ glueRest rest))) := by
          simp only [List.append_assoc]
        rw [hgroup]
        apply drop_prefix_eq
        rw [List.length_append, List.length_append, List.length_append, length_pyLower]
        rfl
      have hslice : pySlice D
            ((pyLower J ++ nl8).length + base + ("<article").toList.length + 15)
            ((contentOf e).length +
              ((pyLower J ++ nl8).length + base + ("<article").toList.length + 15))
          = contentOf e := by
        unfold pySlice
        rw [hDdCs, Nat.add_sub_cancel]
        exact List.take_left _ _
      have hsplit : ∃ J2 : Str, (∀ c ∈ J2, c ≠ '<') ∧
          nl8 ++ glueRest rest = J2 ++ flatTailStr rest := by
        cases rest with
        | nil => exact ⟨nl8, by decide, by simp [glueRest, flatTailStr]⟩
        | cons r t =>
          exact ⟨nl8 ++ ['\n'], by decide, by simp [glueRest, List.append_assoc]⟩
      obtain ⟨J2, hJ2c, hJ2e⟩ := hsplit
      have hDnext : D.drop ((pyLower J ++ nl8).length + 33 + (contentOf e).length + base)
          = J2 ++ flatTailStr rest := by
        have h1 : D.drop ((pyLower J ++ nl8).length + 33 + (contentOf e).length + base)
            = (D.drop base).drop ((pyLower J ++ nl8).length + 33 + (contentOf e).length) := by
          rw [List.drop_drop]
          congr 1
          omega
        rw [h1, hDd]
        have hgroup : (J ++ nl8) ++ (articleOpen ++ (contentOf e ++
              (closeArticle ++ (nl8 ++ glueRest rest))))
            = ((J ++ nl8) ++ (articleOpen ++ (contentOf e ++ closeArticle))) ++
              (nl8 ++ glueRest rest) := by
          simp only [List.append_assoc]
        rw [hgroup, drop_prefix_eq _ _ _ ?hl, hJ2e]
        case hl =>
          simp only [List.length_append, length_pyLower]
          have : articleOpen.length = 23 := by decide
          have h2 : closeArticle.length = 10 := by decide
          have h3 : nl8.length = 9 := by decide
          omega
      have hrec := ih f J2 ((pyLower J ++ nl8).length + 33 + (contentOf e).length + base)
        hDnext hJ2c (fun x hx => hwf x (by simp [hx])) (by simp at hfl ⊢; omega)
      unfold findallTagContents
      simp only [hfind, hattr, hclose, hslice]
      rw [show (contentOf e).length +
            ((pyLower J ++ nl8).length + base + ("<article").toList.length + 15) +
            ("</article>").toList.length
          = (pyLower J ++ nl8).length + 33 + (contentOf e).length + base from by
        rw [l8, l10]; omega]
      rw [hrec]
      rfl

theorem no_occ_of_clean_solo (a pat : Str) (c : Char)
    (hhead : pat.head? = some c) (hclean : ∀ x ∈ a, x ≠ c) :
    ∀ i, i < a.length → ¬ OccursAt pat a i := by
  intro i hi hocc
  rcases pat with _ | ⟨p, pt⟩
  · cases hhead
  · rw [List.head?_cons, Option.some_inj] at hhead
    subst hhead
    have h1 : (a.drop i).head? = some p := by
      obtain ⟨r, hr⟩ := hocc
      rw [← hr]; rfl
    rw [List.head?_drop] at h1
    exact hclean p (List.getElem?_mem h1) rfl

theorem strFind_skip_prefix (J rest pat : Str)
    (hJ : ∀ i, i < J.length → ¬ OccursAt pat (J ++ rest) i)
    (hpre : pat.isPrefixOf rest = true) :
    strFind (J ++ rest) pat = some J.length := by
  rw [strFind_append J rest pat hJ, strFind_of_isPrefixOf rest pat hpre]
  simp

theorem stripTagsGo_clean (fuel : Nat) : ∀ s : Str, (∀ c ∈ s, c ≠ '<') →
    stripTagsGo s fuel = s := by
  induction fuel with
  | zero => intro s _; cases s <;> rfl
  | succ f ih =>
    intro s hs
    cases s with
    | nil => rfl
    | cons c t =>
      have hc : c ≠ '<' := hs c (by simp)
      show (if c = '<' then _ else c :: stripTagsGo t f) = c :: t
      rw [if_neg hc, ih t (fun x hx => hs x (by simp [hx]))]

theorem stripTags_clean (s : Str) (hs : ∀ c ∈ s, c ≠ '<') : stripTags s = s :=
  stripTagsGo_clean s.length s hs

theorem bullets_ctx (b : Str) (t : List Str) (X : Str) :
    bullets_html (b :: t) ++ X = litLi ++ (b ++ (litLiC ++ (bullets_html t ++ X))) := by
  rw [bullets_html_cons]
  simp [List.append_assoc]

theorem bullets_html_length_ge (bl : List Str) : bl.length ≤ (bullets_html bl).length := by
  induction bl with
  | nil => simp
  | cons b t ih =>
    have := congrArg List.length (bullets_ctx b t [])
    simp only [List.length_append] at this
    have hl : (bullets_html (b :: t)).length =
        litLi.length + (b.length + (litLiC.length + (bullets_html t).length)) := by
      simpa using this
    simp only [List.length_cons, hl]
    have : litLi.length = 4 := by decide
    omega

/-- The bullet `findall` over a junk-prefixed rendered list captures the
bullet strings themselves. -/
theorem findall_li (s low : Str) (hlow : low = pyLower s) :
    ∀ (bl : List Str) (fuel : Nat) (J : Str) (base : Nat),
      s.drop base = J ++ (bullets_html bl ++ (litULC ++ nl8)) →
      (∀ R, ∀ i, i < (pyLower J).length →
        ¬ OccursAt ("<li").toList (pyLower J ++ R) i) →
      (∀ b ∈ bl, WfBullet b) →
      bl.length < fuel →
      findallTagContents s low ("<li").toList [] [] false ("</li>").toList base fuel = bl := by
  intro bl
  induction bl with
  | nil =>
    intro fuel J base hD hJ hwf hfl
    cases fuel with
    | zero => omega
    | succ f =>
      have hLd : low.drop base = pyLower J ++ (litULC ++ nl8) := by
        rw [hlow, low_drop, hD]
        simp only [pyLower_append]
        rfl
      have hnone : strFind (pyLower J ++ (litULC ++ nl8)) ("<li").toList = none := by
        apply strFind_none_of_no_occ _ _ (by decide)
        have sN : ∀ i, i < nl8.length → ¬ OccursAt ("<li").toList nl8 i :=
          no_occ_of_clean_solo nl8 _ '<' (by decide) (by decide)
        have sU := no_occ_step litULC nl8 ("<li").toList nl8.length
          (no_occ_of_overlap litULC nl8 _ (by decide)) sN
        have sJ := no_occ_step (pyLower J) (litULC ++ nl8) ("<li").toList
          (litULC.length + nl8.length) (hJ (litULC ++ nl8)) sU
        intro i hi
        apply sJ
        simp only [List.length_append] at hi
        omega
      have hfind : pyFindFrom low ("<li").toList base = none := by
        unfold pyFindFrom
        rw [hLd, hnone]
        rfl
      unfold findallTagContents
      rw [hfind]
  | cons b t ih =>
    intro fuel J base hD hJ hwf hfl
    cases fuel with
    | zero => omega
    | succ f =>
      have hwfb : WfBullet b := hwf b (by simp)
      have hDd : s.drop base = J ++ (litLi ++ (b ++ (litLiC ++ (bullets_html t ++
          (litULC ++ nl8))))) := by
        rw [hD, bullets_ctx]
      have hLd : low.drop base = pyLower J ++ (litLi ++ (pyLower b ++ (litLiC ++
          (pyLower (bullets_html t) ++ (litULC ++ nl8))))) := by
        rw [hlow, low_drop, hDd]
        simp only [pyLower_append, List.append_assoc]
        rfl
      have hfind : pyFindFrom low ("<li").toList base
          = some ((pyLower J).length + base) := by
        unfold pyFindFrom
        rw [hLd, strFind_skip_prefix (pyLower J)
          (litLi ++ (pyLower b ++ (litLiC ++ (pyLower (bullets_html t) ++
            (litULC ++ nl8)))))
          (("<li").toList) (hJ _) (by rfl)]
        rfl
      have l3 : ("<li").toList.length = 3 := by decide
      have l5 : ("</li>").toList.length = 5 := by decide
      have hdropAttr : low.drop ((pyLower J).length + base + ("<li").toList.length)
          = '>' :: (pyLower b ++ (litLiC ++ (pyLower (bullets_html t) ++
            (litULC ++ nl8)))) := by
        have h1 : low.drop ((pyLower J).length + base + ("<li").toList.length)
            = (low.drop base).drop ((pyLower J).length + 3) := by
          rw [List.drop_drop]
          congr 1
          rw [l3]
          omega
        rw [h1, hLd]
        have hgroup : pyLower J ++ (litLi ++ (pyLower b ++ (litLiC ++
              (pyLower (bullets_html t) ++ (litULC ++ nl8)))))
            = (pyLower J ++ ("<li").toList) ++ ('>' :: (pyLower b ++ (litLiC ++
              (pyLower (bullets_html t) ++ (litULC ++ nl8))))) := by
          simp only [List.append_assoc]
          rfl
        rw [hgroup]
        exact drop_prefix_eq _ _ _ (by rw [List.length_append]; rfl)
      have hattr : attrRegionEnd
            (low.drop ((pyLower J).length + base + ("<li").toList.length))
            [] [] false = some 1 := by
        rw [hdropAttr]
        exact attrRegion_gt _ _ _
      have hdropCs : low.drop ((pyLower J).length + base + ("<li").toList.length + 1)
          = pyLower b ++ (litLiC ++ (pyLower (bullets_html t) ++ (litULC ++ nl8))) := by
        have h1 : low.drop ((pyLower J).length + base + ("<li").toList.length + 1)
            = (low.drop base).drop ((pyLower J).length + 4) := by
          rw [List.drop_drop]
          congr 1
          rw [l3]
          omega
        rw [h1, hLd]
        have hgroup : pyLower J ++ (litLi ++ (pyLower b ++ (litLiC ++
              (pyLower (bullets_html t) ++ (litULC ++ nl8)))))
            = (pyLower J ++ litLi) ++ (pyLower b ++ (litLiC ++
              (pyLower (bullets_html t) ++ (litULC ++ nl8)))) := by
          simp only [List.append_assoc]
        rw [hgroup]
        exact drop_prefix_eq _ _ _ (by rw [List.length_append]; rfl)
      have hclose : pyFindFrom low ("</li>").toList
            ((pyLower J).length + base + ("<li").toList.length + 1)
          = some ((pyLower b).length +
              ((pyLower J).length + base + ("<li").toList.length + 1)) := by
        unfold pyFindFrom
        rw [hdropCs, strFind_append (pyLower b)
          (litLiC ++ (pyLower (bullets_html t) ++ (litULC ++ nl8))) (("</li>").toList)
          (no_occ_field (pyLower b)
            (litLiC ++ (pyLower (bullets_html t) ++ (litULC ++ nl8)))
            (("</li>").toList) (by decide)
            (wfStr_find_none_lt b _ hwfb.1 (by decide) (by decide)) (by rfl)
            (by decide)),
          strFind_of_isPrefixOf
            (litLiC ++ (pyLower (bullets_html t) ++ (litULC ++ nl8)))
            (("</li>").toList)
            (by rw [List.isPrefixOf_iff_prefix]; exact List.prefix_append _ _)]
        simp
      have hDdCs : s.drop ((pyLower J).length + base + ("<li").toList.length + 1)
          = b ++ (litLiC ++ (bullets_html t ++ (litULC ++ nl8))) := by
        have h1 : s.drop ((pyLower J).length + base + ("<li").toList.length + 1)
            = (s.drop base).drop ((pyLower J).length + 4) := by
          rw [List.drop_drop]
          congr 1
          rw [l3]
          omega
        rw [h1, hDd]
        have hgroup : J ++ (litLi ++ (b ++ (litLiC ++ (bullets_html t ++
              (litULC ++ nl8)))))
            = (J ++ litLi) ++ (b ++ (litLiC ++ (bullets_html t ++ (litULC ++ nl8)))) := by
          simp only [List.append_assoc]
        rw [hgroup]
        apply drop_prefix_eq
        rw [List.length_append, length_pyLower]
        rfl
      have hslice : pySlice s ((pyLower J).length + base + ("<li").toList.length + 1)
            ((pyLower b).length +
              ((pyLower J).length + base + ("<li").toList.length + 1))
          = b := by
        unfold pySlice
        rw [hDdCs, Nat.add_sub_cancel, length_pyLower]
        exact List.take_left _ _
      have hDnext : s.drop ((pyLower J).length + 9 + (pyLower b).length + base)
          = [] ++ (bullets_html t ++ (litULC ++ nl8)) := by
        have h1 : s.drop ((pyLower J).length + 9 + (pyLower b).length + base)
            = (s.drop base).drop ((pyLower J).length + 9 + (pyLower b).length) := by
          rw [List.drop_drop]
          congr 1
          omega
        rw [h1, hDd]
        have hgroup : J ++ (litLi ++ (b ++ (litLiC ++ (bullets_html t ++
              (litULC ++ nl8)))))
            = ((J ++ (litLi ++ (b ++ litLiC)))) ++ (bullets_html t ++ (litULC ++ nl8)) := by
          simp only [List.append_assoc]
        rw [hgroup]
        rw [show ([] ++ (bullets_html t ++ (litULC ++ nl8)))
            = bullets_html t ++ (litULC ++ nl8) from rfl]
        apply drop_prefix_eq
        simp only [List.length_append, length_pyLower]
        have h4 : litLi.length = 4 := by decide
        have h5 : litLiC.length = 5 := by decide
        omega
      have hrec := ih f [] ((pyLower J).length + 9 + (pyLower b).length + base)
        hDnext (by intro R i hi; simp [pyLower] at hi)
        (fun x hx => hwf x (by simp [hx])) (by simp at hfl ⊢; omega)
      unfold findallTagContents
      simp only [hfind, hattr, hclose, hslice]
      rw [show (pyLower b).length +
            ((pyLower J).length + base + ("<li").toList.length + 1) +
            ("</li>").toList.length
          = (pyLower J).length + 9 + (pyLower b).length + base from by
        rw [l3, l5]; omega]
      rw [hrec]

theorem filter_strip_id (bl : List Str) (h : ∀ b ∈ bl, WfBullet b) :
    bl.filter (fun b => pyStrip b ≠ []) = bl := by
  induction bl with
  | nil => rfl
  | cons b t ih =>
    have hb := h b (by simp)
    have hcond : (decide (pyStrip b ≠ [])) = true := by
      simp only [decide_eq_true_eq]
      rw [hb.2.1]
      exact hb.2.2
    show List.filter _ (b :: t) = b :: t
    rw [List.filter_cons, if_pos hcond, ih (fun x hx => h x (by simp [hx]))]

theorem map_strip_id (bl : List Str) (h : ∀ b ∈ bl, WfBullet b) :
    bl.map (fun b => pyStrip (stripTags b)) = bl := by
  induction bl with
  | nil => rfl
  | cons b t ih =>
    have hb := h b (by simp)
    simp only [List.map_cons, stripTags_clean b hb.1.1, hb.2.1,
      ih (fun x hx => h x (by simp [hx]))]

/-- The bullets extracted from a rendered block content are exactly the
record bullets. -/
theorem extract_bullets_content (e : WorkExperience) (hwfe : WfExp e) :
    extract_bullets (contentOf e) = e.bullets := by
  have hbul := hwfe.2.2.2.2.2.2
  have hJ : ∀ R, ∀ i, i < (pyLower (innerPre e ++ litUL)).length →
      ¬ OccursAt ("<li").toList (pyLower (innerPre e ++ litUL) ++ R) i := by
    intro R
    have sU : ∀ i, i < litUL.length + 0 → ¬ OccursAt ("<li").toList (litUL ++ R) i :=
      no_occ_step litUL R _ 0 (no_occ_of_overlap litUL R _ (by decide)) (by omega)
    have sIn := no_occ_step (pyLower (innerPre e)) (litUL ++ R) ("<li").toList _
      (no_occ_innerPre_li e hwfe (litUL ++ R)) sU
    intro i hi hocc
    have hstr : pyLower (innerPre e ++ litUL) ++ R
        = pyLower (innerPre e) ++ (litUL ++ R) := by
      simp only [pyLower_append, List.append_assoc]
      rfl
    rw [hstr] at hocc
    apply sIn i ?_ hocc
    have hl : (pyLower (innerPre e ++ litUL)).length
        = (pyLower (innerPre e)).length + litUL.length := by
      simp [pyLower_append, List.length_append, length_pyLower]
    omega
  have hD0 : (contentOf e).drop 0 = (innerPre e ++ litUL) ++
      (bullets_html e.bullets ++ (litULC ++ nl8)) := by
    simp only [List.drop_zero, contentOf, origUl, List.append_assoc]
  have hfuel : e.bullets.length < (contentOf e).length + 2 := by
    have h1 := bullets_html_length_ge e.bullets
    have h2 : (contentOf e).length = (innerPre e).length + ((origUl e).length + nl8.length) := by
      simp [contentOf, List.length_append]
    have h3 : (origUl e).length = litUL.length +
        ((bullets_html e.bullets).length + litULC.length) := by
      simp [origUl, List.length_append]
    omega
  have hfl := findall_li (contentOf e) (pyLower (contentOf e)) rfl e.bullets
    ((contentOf e).length + 2) (innerPre e ++ litUL) 0 hD0 hJ hbul hfuel
  unfold extract_bullets
  rw [hfl]
  simp only [filter_strip_id e.bullets hbul, map_strip_id e.bullets hbul]

theorem flatTailStr_length_ge (bs : List WorkExperience) :
    bs.length ≤ (flatTailStr bs).length := by
  induction bs with
  | nil => simp [flatTailStr]
  | cons e rest ih =>
    have hb : (exp_article_html e).length =
        nl8.length + (articleOpen.length + ((contentOf e).length +
          (closeArticle.length + nl8.length))) := by
      have := congrArg List.length (block_ctx e [])
      simpa [List.length_append] using this
    rw [flatTailStr_cons]
    rw [List.length_append]
    have h9 : nl8.length = 9 := by decide
    cases rest with
    | nil => simp [glueRest]; omega
    | cons r t =>
      have hg : (glueRest (r :: t)).length = 1 + (flatTailStr (r :: t)).length := by
        simp [glueRest]
        omega
      rw [hg]
      simp only [List.length_cons] at ih ⊢
      omega

/-- The extractor entries built from the content list: bullets, captures and
count characterized. -/
theorem mk_entries_flat (bs : List WorkExperience) (hwf : ∀ e ∈ bs, WfExp e) :
    ∀ idx,
      (mk_article_entries (bs.map contentOf) idx).length = bs.length ∧
      (mk_article_entries (bs.map contentOf) idx).map (fun x => x.bullets)
        = bs.map (fun e => e.bullets) ∧
      (mk_article_entries (bs.map contentOf) idx).map (fun x => x.raw_html)
        = bs.map contentOf := by
  induction bs with
  | nil => intro idx; exact ⟨rfl, rfl, rfl⟩
  | cons e rest ih =>
    intro idx
    have hwfe : WfExp e := hwf e (by simp)
    have hbe : extract_bullets (contentOf e) = e.bullets :=
      extract_bullets_content e hwfe
    have hne2 : e.bullets.isEmpty = false := by
      cases hb : e.bullets with
      | nil => exact absurd hb hwfe.2.2.2.2.2.1
      | cons x t => rfl
    have ihr := ih (fun x hx => hwf x (by simp [hx])) (idx + 1)
    show (mk_article_entries (contentOf e :: rest.map contentOf) idx).length = _ ∧ _
    unfold mk_article_entries
    simp only [hbe, hne2, Bool.false_eq_true, if_false, List.length_cons, List.map_cons]
    refine ⟨?_, ?_, ?_⟩ <;> simp [ihr.1, ihr.2.1, ihr.2.2]

theorem flat_section_none (bs : List WorkExperience) (hwf : ∀ e ∈ bs, WfExp e) :
    find_experience_section (flatTailStr bs) = none := by
  unfold find_experience_section
  have hfind : pyFindFrom (pyLower (flatTailStr bs)) ("<section").toList 0 = none := by
    unfold pyFindFrom
    rw [List.drop_zero, flat_no_section bs hwf]
    rfl
  show find_section_match _ 0 (((flatTailStr bs).length + 1) + 1) = none
  unfold find_section_match
  rw [hfind]

theorem flat_roles_nil (bs : List WorkExperience) (hwf : ∀ e ∈ bs, WfExp e) :
    role_spans (flatTailStr bs) = [] := by
  unfold role_spans
  exact findOpenTags_nil _ _ _ _ (flat_no_roleTok bs hwf) _ _

/-- The extractor on a rendered flat document: strategy 1 produces one
entry per block; strategies 2 and 3 contribute nothing. -/
theorem extract_flat (bs : List WorkExperience) (hwf : ∀ e ∈ bs, WfExp e)
    (hne : bs ≠ []) :
    extract_experiences_from_html (flatTailStr bs)
      = mk_article_entries (bs.map contentOf) 0 := by
  have hart : article_contents (flatTailStr bs) = bs.map contentOf := by
    unfold article_contents
    exact findall_art (flatTailStr bs) (pyLower (flatTailStr bs)) rfl bs
      ((flatTailStr bs).length + 2) [] 0 (by simp) (by simp) hwf
      (by have := flatTailStr_length_ge bs; omega)
  have hsec := flat_section_none bs hwf
  have hroles := flat_roles_nil bs hwf
  have hmk := mk_entries_flat bs hwf 0
  unfold extract_experiences_from_html
  simp only [hsec, hart, hroles]
  have hlen : (mk_article_entries (bs.map contentOf) 0).length = bs.length := hmk.1
  have hnonempty : (mk_article_entries (bs.map contentOf) 0 ++
      mk_role_entries (flatTailStr bs) [] (mk_article_entries (bs.map contentOf) 0).length).isEmpty = false := by
    show (mk_article_entries (bs.map contentOf) 0 ++ []).isEmpty = false
    rw [List.append_nil]
    cases hmkl : mk_article_entries (bs.map contentOf) 0 with
    | nil =>
      rw [hmkl] at hlen
      cases bs with
      | nil => exact absurd rfl hne
      | cons x t => simp at hlen
    | cons x t => rfl
  rw [hnonempty]
  simp only [Bool.false_eq_true, if_false]
  exact List.append_nil _

/-! ### The updater on flat documents -/

theorem strFind_bound_of_no_occ (s pat : Str) (n : Nat)
    (h : ∀ i, i < n → ¬ OccursAt pat s i) :
    ∀ v, strFind s pat = some v → n ≤ v := by
  intro v hv
  by_contra hc
  exact h v (by omega) (strFind_some s pat v hv)

theorem pyFindFrom_bound (s pat : Str) (pos n i : Nat)
    (h : ∀ k, k < n → ¬ OccursAt pat (s.drop pos) k)
    (hi : pyFindFrom s pat pos = some i) : pos + n ≤ i := by
  unfold pyFindFrom at hi
  rw [Option.map_eq_some'] at hi
  obtain ⟨k, hk, rfl⟩ := hi
  have := strFind_bound_of_no_occ _ _ n h k hk
  omega

/-- `find_matching_close_tag` from the content start of a rendered block
returns the position of that block's own closing tag, whatever follows. -/
theorem fmc_flat (D : Str) (e : WorkExperience) (hwfe : WfExp e) (pos : Nat) (T : Str)
    (hdrop : (pyLower D).drop pos = pyLower (contentOf e) ++ (closeArticle ++ (nl8 ++ T)))
    (hpos : pos < D.length) :
    find_matching_close_tag D pos ("article").toList
      = Int.ofNat ((contentOf e).length + pos) := by
  have hop : pyLower ('<' :: ("article").toList) = ("<article").toList := by decide
  have hcl : pyLower ('<' :: '/' :: (("article").toList ++ ['>'])) = ("</article>").toList := by
    decide
  unfold find_matching_close_tag
  rw [hop, hcl, fmc_loop_succ]
  rw [if_pos ⟨by omega, by rw [length_pyLower]; omega⟩]
  have hclose : pyFindFrom (pyLower D) ("</article>").toList pos
      = some ((contentOf e).length + pos) := by
    unfold pyFindFrom
    rw [hdrop, strFind_content_close e hwfe _ (by
      rw [List.isPrefixOf_iff_prefix]
      exact List.prefix_append _ _)]
    rfl
  have hnoint : ∀ k, k < (pyLower (contentOf e)).length + (closeArticle.length + nl8.length) →
      ¬ OccursAt ("<article").toList ((pyLower D).drop pos) k := by
    rw [hdrop]
    have sN : ∀ i, i < nl8.length + 0 → ¬ OccursAt ("<article").toList (nl8 ++ T) i :=
      no_occ_step nl8 T _ 0 (no_occ_of_overlap nl8 T _ (by decide)) (by omega)
    have sC := no_occ_step closeArticle (nl8 ++ T) ("<article").toList _
      (no_occ_of_overlap closeArticle _ _ (by decide)) sN
    have sIn := no_occ_step (pyLower (contentOf e)) (closeArticle ++ (nl8 ++ T))
      ("<article").toList _ (no_occ_content_art e hwfe _) sC
    intro k hk
    exact sIn k (by omega)
  simp only [hclose]
  cases hno : pyFindFrom (pyLower D) ("<article").toList pos with
  | none =>
    simp only [hno]
    simp
  | some no =>
    simp only [hno]
    have hbound := pyFindFrom_bound _ _ pos _ no hnoint hno
    have hlt : ¬ (no < (contentOf e).length + pos) := by
      have h10 : closeArticle.length = 10 := by decide
      rw [length_pyLower] at hbound
      omega
    rw [if_neg hlt]
    simp

/-- The filterMap body of `upd_candidates` at the article instantiation. -/
def updArtF (D : Str) : Nat × Nat → Option UpdEntry := fun pe =>
  let close_pos := find_matching_close_tag D pe.2 ("article").toList
  if close_pos = -1 then none
  else
    let cp := close_pos.toNat
    let content := pySlice D pe.2 cp
    if pyContains (pyLower content) ("<ul").toList then
      some { type := ("article").toList, start := pe.1, content_start := pe.2,
             content_end := cp, end_idx := cp + ("</article>").toList.length,
             opening_tag := pySlice D pe.1 pe.2, content := content }
    else none

theorem upd_article_candidates_eq (s : Str) :
    upd_article_candidates s =
      (findOpenTags (pyLower s) ("<article").toList ("class").toList ("entry").toList 0
        (s.length + 2)).filterMap (updArtF s) := rfl

/-- The expected updater candidates over a block train starting at `b0`. -/
def articleCandsOf : List WorkExperience → Nat → List UpdEntry
  | [], _ => []
  | e :: rest, b0 =>
    { type := ("article").toList, start := b0 + 9, content_start := b0 + 32,
      content_end := b0 + 32 + (contentOf e).length,
      end_idx := b0 + 42 + (contentOf e).length,
      opening_tag := articleOpen, content := contentOf e }
      :: articleCandsOf rest (b0 + 52 + (contentOf e).length)

theorem contentOf_has_ul (e : WorkExperience) :
    pyContains (pyLower (contentOf e)) ("<ul").toList = true := by
  apply pyContains_of_occurs _ _ (pyLower (innerPre e)).length
  rw [OccursAt]
  have hctx := low_contentOf_ctx2 e []
  simp only [List.append_nil] at hctx
  rw [hctx, drop_prefix_eq _ _ _ rfl]
  exact ⟨'>' :: (pyLower (bullets_html e.bullets) ++ (litULC ++ nl8)), rfl⟩

/-- The updater's article scan over a junk-prefixed train of rendered flat
blocks yields one candidate per block, at the expected offsets. -/
theorem upd_cands_flat (D low : Str) (hlow : low = pyLower D) :
    ∀ (bsuf : List WorkExperience) (fuel : Nat) (J : Str) (base : Nat),
      D.drop base = J ++ flatTailStr bsuf →
      (∀ R, ∀ i, i < (pyLower J).length →
        ¬ OccursAt ("<article").toList (pyLower J ++ R) i) →
      (∀ e ∈ bsuf, WfExp e) →
      bsuf.length < fuel →
      (findOpenTags low ("<article").toList ("class").toList ("entry").toList base
          fuel).filterMap (updArtF D)
        = articleCandsOf bsuf ((pyLower J).length + base) := by
  intro bsuf
  induction bsuf with
  | nil =>
    intro fuel J base hD hJ hwf hfl
    cases fuel with
    | zero => omega
    | succ f =>
      have hlowdrop : low.drop base = pyLower J ++ [] := by
        rw [hlow, low_drop, hD]
        simp [flatTailStr, pyLower_append]
      have hnone : strFind (pyLower J ++ []) ("<article").toList = none := by
        apply strFind_none_of_no_occ _ _ (by decide)
        intro i hi
        apply hJ [] i
        simp only [List.length_append] at hi
        simpa using hi
      have hfind : pyFindFrom low ("<article").toList base = none := by
        unfold pyFindFrom
        rw [hlowdrop, hnone]
        rfl
      unfold findOpenTags
      rw [hfind]
      rfl
  | cons e rest ih =>
    intro fuel J base hD hJ hwf hfl
    cases fuel with
    | zero => omega
    | succ f =>
      have hwfe : WfExp e := hwf e (by simp)
      have hDd : D.drop base = (J ++ nl8) ++ (articleOpen ++ (contentOf e ++
          (closeArticle ++ (nl8 ++ glueRest rest)))) := by
        rw [hD, flatTailStr_cons e rest, block_ctx]
        simp [List.append_assoc]
      have hLd : low.drop base = (pyLower J ++ nl8) ++ (articleOpen ++
          (pyLower (contentOf e) ++ (closeArticle ++ (nl8 ++ pyLower (glueRest rest))))) := by
        rw [hlow, low_drop, hDd]
        simp only [pyLower_append, List.append_assoc]
        rfl
      have hJn8 : ∀ R, ∀ i, i < (pyLower J ++ nl8).length →
          ¬ OccursAt ("<article").toList ((pyLower J ++ nl8) ++ R) i := by
        intro R
        have sN : ∀ i, i < nl8.length + 0 → ¬ OccursAt ("<article").toList (nl8 ++ R) i :=
          no_occ_step nl8 R _ 0 (no_occ_of_overlap nl8 R _ (by decide)) (by omega)
        have sJ := no_occ_step (pyLower J) (nl8 ++ R) ("<article").toList _
          (hJ (nl8 ++ R)) sN
        intro i hi hocc
        rw [List.append_assoc] at hocc
        apply sJ i ?_ hocc
        simp only [List.length_append] at hi
        omega
      have hfind : pyFindFrom low ("<article").toList base
          = some ((pyLower J ++ nl8).length + base) := by
        unfold pyFindFrom
        rw [hLd, strFind_skip_prefix (pyLower J ++ nl8)
          (articleOpen ++ (pyLower (contentOf e) ++
            (closeArticle ++ (nl8 ++ pyLower (glueRest rest)))))
          (("<article").toList) (hJn8 _) (by rfl)]
        rfl
      have l8 : ("<article").toList.length = 8 := by decide
      have hdropAttr : low.drop ((pyLower J ++ nl8).length + base + ("<article").toList.length)
          = (" class=\"entry\">").toList ++ (pyLower (contentOf e) ++
            (closeArticle ++ (nl8 ++ pyLower (glueRest rest)))) := by
        have h1 : low.drop ((pyLower J ++ nl8).length + base + ("<article").toList.length)
            = (low.drop base).drop ((pyLower J ++ nl8).length + 8) := by
          rw [List.drop_drop]
          congr 1
          rw [l8]
          omega
        rw [h1, hLd]
        have hgroup : (pyLower J ++ nl8) ++ (articleOpen ++ (pyLower (contentOf e) ++
              (closeArticle ++ (nl8 ++ pyLower (glueRest rest)))))
            = ((pyLower J ++ nl8) ++ ("<article").toList) ++
              ((" class=\"entry\">").toList ++ (pyLower (contentOf e) ++
                (closeArticle ++ (nl8 ++ pyLower (glueRest rest))))) := by
          simp only [List.append_assoc]
          rfl
        rw [hgroup]
        exact drop_prefix_eq _ _ _ (by rw [List.length_append]; rfl)
      have hattr : attrRegionEnd
            (low.drop ((pyLower J ++ nl8).length + base + ("<article").toList.length))
            ("class").toList ("entry").toList true = some 15 := by
        rw [hdropAttr]
        exact attrRegion_entry _
      have hdropCs : low.drop ((pyLower J ++ nl8).length + base + ("<article").toList.length + 15)
          = pyLower (contentOf e) ++ (closeArticle ++ (nl8 ++ pyLower (glueRest rest))) := by
        have h1 : low.drop ((pyLower J ++ nl8).length + base + ("<article").toList.length + 15)
            = (low.drop base).drop ((pyLower J ++ nl8).length + 23) := by
          rw [List.drop_drop]
          congr 1
          rw [l8]
          omega
        rw [h1, hLd]
        have hgroup : (pyLower J ++ nl8) ++ (articleOpen ++ (pyLower (contentOf e) ++
              (closeArticle ++ (nl8 ++ pyLower (glueRest rest)))))
            = ((pyLower J ++ nl8) ++ articleOpen) ++ (pyLower (contentOf e) ++
              (closeArticle ++ (nl8 ++ pyLower (glueRest rest)))) := by
          simp only [List.append_assoc]
        rw [hgroup]
        exact drop_prefix_eq _ _ _ (by rw [List.length_append]; rfl)
      have hDdCs : D.drop ((pyLower J ++ nl8).length + base + ("<article").toList.length + 15)
          = contentOf e ++ (closeArticle ++ (nl8 ++ glueRest rest)) := by
        have h1 : D.drop ((pyLower J ++ nl8).length + base + ("<article").toList.length + 15)
            = (D.drop base).drop ((pyLower J ++ nl8).length + 23) := by
          rw [List.drop_drop]
          congr 1
          rw [l8]
          omega
        rw [h1, hDd]
        have hgroup : (J ++ nl8) ++ (articleOpen ++ (contentOf e ++
              (closeArticle ++ (nl8 ++ glueRest rest))))
            = ((J ++ nl8) ++ articleOpen) ++ (contentOf e ++
              (closeArticle ++ (nl8 ++ glueRest rest))) := by
          simp only [List.append_assoc]
        rw [hgroup]
        apply drop_prefix_eq
        rw [List.length_append, List.length_append, List.length_append, length_pyLower]
        rfl
      have hDdP : D.drop ((pyLower J ++ nl8).length + base)
          = articleOpen ++ (contentOf e ++ (closeArticle ++ (nl8 ++ glueRest rest))) := by
        have h1 : D.drop ((pyLower J ++ nl8).length + base)
            = (D.drop base).drop ((pyLower J ++ nl8).length) := by
          rw [List.drop_drop]
          congr 1
          omega
        rw [h1, hDd]
        apply drop_prefix_eq
        rw [List.length_append, List.length_append, length_pyLower]
      have hcsD : ((pyLower J ++ nl8).length + base + ("<article").toList.length + 15)
          < D.length := by
        have := congrArg List.length hDdCs
        simp only [List.length_drop, List.length_append] at this ⊢
        have h10 : closeArticle.length = 10 := by decide
        omega
      have hfmc : find_matching_close_tag D
            ((pyLower J ++ nl8).length + base + ("<article").toList.length + 15)
            ("article").toList
          = Int.ofNat ((contentOf e).length +
              ((pyLower J ++ nl8).length + base + ("<article").toList.length + 15)) := by
        apply fmc_flat D e hwfe _ (pyLower (glueRest rest)) ?_ hcsD
        have hdc := hdropCs
        rw [hlow] at hdc
        exact hdc
      have hslice : pySlice D
            ((pyLower J ++ nl8).length + base + ("<article").toList.length + 15)
            ((contentOf e).length +
              ((pyLower J ++ nl8).length + base + ("<article").toList.length + 15))
          = contentOf e := by
        unfold pySlice
        rw [hDdCs, Nat.add_sub_cancel]
        exact List.take_left _ _
      have hopening : pySlice D ((pyLower J ++ nl8).length + base)
            ((pyLower J ++ nl8).length + base + ("<article").toList.length + 15)
          = articleOpen := by
        unfold pySlice
        rw [hDdP]
        rw [show ((pyLower J ++ nl8).length + base + ("<article").toList.length + 15)
            - ((pyLower J ++ nl8).length + base) = articleOpen.length from by
          rw [l8]
          have : articleOpen.length = 23 := by decide
          omega]
        exact List.take_left _ _
      have hF : updArtF D ((pyLower J ++ nl8).length + base,
            (pyLower J ++ nl8).length + base + ("<article").toList.length + 15)
          = some { type := ("article").toList,
                   start := (pyLower J ++ nl8).length + base,
                   content_start := (pyLower J ++ nl8).length + base +
                     ("<article").toList.length + 15,
                   content_end := (contentOf e).length +
                     ((pyLower J ++ nl8).length + base + ("<article").toList.length + 15),
                   end_idx := (contentOf e).length +
                     ((pyLower J ++ nl8).length + base + ("<article").toList.length + 15) +
                     ("</article>").toList.length,
                   opening_tag := articleOpen, content := contentOf e } := by
        unfold updArtF
        simp only [hfmc]
        rw [if_neg (by simp only [Int.ofNat_eq_natCast]; omega)]
        have htoNat : (Int.ofNat ((contentOf e).length +
            ((pyLower J ++ nl8).length + base + ("<article").toList.length + 15))).toNat
            = (contentOf e).length +
              ((pyLower J ++ nl8).length + base + ("<article").toList.length + 15) := rfl
        simp only [htoNat, hslice, contentOf_has_ul e, hopening]
        rfl
      have hsplit : ∃ J2 : Str, (∀ R, ∀ i, i < (pyLower J2).length →
            ¬ OccursAt ("<article").toList (pyLower J2 ++ R) i) ∧
          contentOf e ++ (closeArticle ++ (nl8 ++ glueRest rest)) = J2 ++ flatTailStr rest ∧
          (pyLower J2).length = (contentOf e).length + (closeArticle.length +
            (nl8.length + (glueRest rest).length - (flatTailStr rest).length)) := by
        cases rest with
        | nil =>
          refine ⟨contentOf e ++ (closeArticle ++ nl8), ?_, by simp [glueRest, flatTailStr], ?_⟩
          · intro R
            have sN : ∀ i, i < nl8.length + 0 →
                ¬ OccursAt ("<article").toList (nl8 ++ R) i :=
              no_occ_step nl8 R _ 0 (no_occ_of_overlap nl8 R _ (by decide)) (by omega)
            have sC := no_occ_step closeArticle (nl8 ++ R) ("<article").toList _
              (no_occ_of_overlap closeArticle _ _ (by decide)) sN
            have sIn := no_occ_step (pyLower (contentOf e)) (closeArticle ++ (nl8 ++ R))
              ("<article").toList _ (no_occ_content_art e hwfe _) sC
            intro i hi hocc
            have hstr : pyLower (contentOf e ++ (closeArticle ++ nl8)) ++ R
                = pyLower (contentOf e) ++ (closeArticle ++ (nl8 ++ R)) := by
              simp only [pyLower_append, List.append_assoc]
              rfl
            rw [hstr] at hocc
            apply sIn i ?_ hocc
            have hl : (pyLower (contentOf e ++ (closeArticle ++ nl8))).length
                = (pyLower (contentOf e)).length + (closeArticle.length + nl8.length) := by
              simp [pyLower_append, List.length_append, length_pyLower]
            omega
          · simp [pyLower_append, List.length_append, length_pyLower, glueRest, flatTailStr]
        | cons r t =>
          refine ⟨contentOf e ++ (closeArticle ++ (nl8 ++ ['\n'])), ?_,
            by simp [glueRest, List.append_assoc], ?_⟩
          · intro R
            have sS : ∀ i, i < (['\n'] : Str).length + 0 →
                ¬ OccursAt ("<article").toList (['\n'] ++ R) i :=
              no_occ_step ['\n'] R _ 0 (no_occ_of_overlap ['\n'] R _ (by decide)) (by omega)
            have sN := no_occ_step nl8 (['\n'] ++ R) ("<article").toList _
              (no_occ_of_overlap nl8 _ _ (by decide)) sS
            have sC := no_occ_step closeArticle (nl8 ++ (['\n'] ++ R)) ("<article").toList _
              (no_occ_of_overlap closeArticle _ _ (by decide)) sN
            have sIn := no_occ_step (pyLower (contentOf e))
              (closeArticle ++ (nl8 ++ (['\n'] ++ R)))
              ("<article").toList _ (no_occ_content_art e hwfe _) sC
            intro i hi hocc
            have hstr : pyLower (contentOf e ++ (closeArticle ++ (nl8 ++ ['\n']))) ++ R
                = pyLower (contentOf e) ++ (closeArticle ++ (nl8 ++ (['\n'] ++ R))) := by
              simp only [pyLower_append, List.append_assoc]
              rfl
            rw [hstr] at hocc
            apply sIn i ?_ hocc
            have hl : (pyLower (contentOf e ++ (closeArticle ++ (nl8 ++ ['\n'])))).length
                = (pyLower (contentOf e)).length + (closeArticle.length +
                  (nl8.length + (['\n'] : Str).length)) := by
              simp [pyLower_append, List.length_append, length_pyLower]
            omega
          · simp only [pyLower_append, List.length_append, length_pyLower, glueRest]
            have : (flatTailStr (r :: t)).length ≤ ('\n' :: flatTailStr (r :: t)).length := by
              simp
            simp [List.length_cons]
            omega
      obtain ⟨J2, hJ2no, hJ2e, hJ2len⟩ := hsplit
      have hDnext : D.drop ((pyLower J ++ nl8).length + base + ("<article").toList.length + 15)
          = J2 ++ flatTailStr rest := by
        rw [hDdCs, hJ2e]
      have hrec := ih f J2
        ((pyLower J ++ nl8).length + base + ("<article").toList.length + 15)
        hDnext hJ2no (fun x hx => hwf x (by simp [hx])) (by simp at hfl ⊢; omega)
      unfold findOpenTags
      simp only [hfind, hattr]
      rw [List.filterMap_cons]
      simp only [hF]
      rw [hrec]
      cases rest with
      | nil =>
        show _ :: articleCandsOf [] _ = articleCandsOf [e] _
        simp only [articleCandsOf, List.cons.injEq, and_true]
        simp [UpdEntry.mk.injEq, List.length_append, length_pyLower, nl8]
        exact ⟨by omega, by omega, by omega⟩
      | cons r t =>
        have harg : (pyLower (contentOf e ++ (closeArticle ++ (nl8 ++ ['\n'])))).length +
              ((pyLower J ++ nl8).length + base + ("<article").toList.length + 15)
            = (pyLower J).length + base + 52 + (contentOf e).length := by
          simp only [pyLower_append, List.length_append, length_pyLower, l8,
            List.length_cons]
          rw [show closeArticle.length = 10 from by decide,
            show nl8.length = 9 from by decide]
          simp
          omega
        have hJ2is : J2 = contentOf e ++ (closeArticle ++ (nl8 ++ ['\n'])) := by
          have h1 := hJ2e
          rw [show glueRest (r :: t) = '\n' :: flatTailStr (r :: t) from rfl] at h1
          have h2 : contentOf e ++ (closeArticle ++ (nl8 ++ ['\n'])) ++ flatTailStr (r :: t)
              = J2 ++ flatTailStr (r :: t) := by
            rw [← h1]
            simp [List.append_assoc]
          have := List.append_cancel_right h2
          exact this.symm
        rw [hJ2is, harg]
        rw [show articleCandsOf (e :: r :: t) ((pyLower J).length + base)
            = { type := ("article").toList, start := (pyLower J).length + base + 9,
                content_start := (pyLower J).length + base + 32,
                content_end := (pyLower J).length + base + 32 + (contentOf e).length,
                end_idx := (pyLower J).length + base + 42 + (contentOf e).length,
                opening_tag := articleOpen, content := contentOf e }
              :: articleCandsOf (r :: t) ((pyLower J).length + base + 52 + (contentOf e).length)
            from rfl]
        simp only [List.cons.injEq, and_true]
        simp [UpdEntry.mk.injEq, List.length_append, length_pyLower, nl8]
        exact ⟨by omega, by omega, by omega⟩

theorem upd_article_flat (bs : List WorkExperience) (hwf : ∀ e ∈ bs, WfExp e) :
    upd_article_candidates (flatTailStr bs) = articleCandsOf bs 0 := by
  rw [upd_article_candidates_eq]
  have h := upd_cands_flat (flatTailStr bs) (pyLower (flatTailStr bs)) rfl bs
    ((flatTailStr bs).length + 2) [] 0 (by simp) (by intro R i hi; simp [pyLower] at hi)
    hwf (by have := flatTailStr_length_ge bs; omega)
  simpa using h

theorem upd_role_flat (bs : List WorkExperience) (hwf : ∀ e ∈ bs, WfExp e) :
    upd_role_candidates (flatTailStr bs) = [] := by
  unfold upd_role_candidates upd_candidates
  have hnil : findOpenTags (pyLower (flatTailStr bs)) ("<div").toList ("class").toList
      ("role-entry").toList 0 ((flatTailStr bs).length + 2) = [] :=
    findOpenTags_nil _ _ _ _ (flat_no_roleTok bs hwf) _ _
  rw [hnil]
  rfl

theorem articleCandsOf_start_ge (bs : List WorkExperience) :
    ∀ b0, ∀ c ∈ articleCandsOf bs b0, b0 + 9 ≤ c.start := by
  induction bs with
  | nil => intro b0 c hc; cases hc
  | cons e rest ih =>
    intro b0 c hc
    rcases List.mem_cons.mp hc with h | h
    · subst h
      exact Nat.le_refl _
    · have := ih (b0 + 52 + (contentOf e).length) c h
      omega

theorem articleCandsOf_pairwise (bs : List WorkExperience) :
    ∀ b0, (articleCandsOf bs b0).Pairwise
      (fun a b => (decide (b.start < a.start)) = false) := by
  induction bs with
  | nil => intro b0; exact List.Pairwise.nil
  | cons e rest ih =>
    intro b0
    refine List.pairwise_cons.mpr ⟨?_, ih _⟩
    intro c hc
    have h1 := articleCandsOf_start_ge rest (b0 + 52 + (contentOf e).length) c hc
    simp only [decide_eq_false_iff_not]
    show ¬ (c.start < b0 + 9)
    omega

theorem upd_all_flat (bs : List WorkExperience) (hwf : ∀ e ∈ bs, WfExp e) :
    upd_all_entries (flatTailStr bs) = articleCandsOf bs 0 := by
  unfold upd_all_entries
  rw [upd_article_flat bs hwf, upd_role_flat bs hwf, List.append_nil]
  exact pySortBy_sorted_id _ _ (articleCandsOf_pairwise bs 0)

theorem articleCandsOf_map_content (bs : List WorkExperience) :
    ∀ b0, (articleCandsOf bs b0).map (fun c => c.content) = bs.map contentOf := by
  induction bs with
  | nil => intro b0; rfl
  | cons e rest ih =>
    intro b0
    show _ :: (articleCandsOf rest _).map _ = _
    rw [ih]
    rfl

/-- `re.sub` of the `<ul...>...</ul>` element inside a rendered content:
exactly one list element is found and replaced. -/
theorem replace_uls_content (e : WorkExperience) (hwfe : WfExp e) (repl : Str) :
    replace_uls (contentOf e) repl = innerPre e ++ (repl ++ nl8) := by
  have hbul := hwfe.2.2.2.2.2.2
  have hctx := low_contentOf_ctx2 e []
  simp only [List.append_nil] at hctx
  have hfind1 : pyFindFrom (pyLower (contentOf e)) ("<ul").toList 0
      = some (pyLower (innerPre e)).length := by
    unfold pyFindFrom
    rw [List.drop_zero, hctx, strFind_skip_prefix (pyLower (innerPre e))
      (litUL ++ (pyLower (bullets_html e.bullets) ++ (litULC ++ nl8)))
      (("<ul").toList) (no_occ_innerPre_ul e hwfe _) (by rfl)]
    rfl
  have l3 : ("<ul").toList.length = 3 := by decide
  have hdropAttr : (pyLower (contentOf e)).drop ((pyLower (innerPre e)).length + ("<ul").toList.length)
      = '>' :: (pyLower (bullets_html e.bullets) ++ (litULC ++ nl8)) := by
    rw [hctx]
    have hgroup : pyLower (innerPre e) ++ (litUL ++ (pyLower (bullets_html e.bullets) ++
          (litULC ++ nl8)))
        = (pyLower (innerPre e) ++ ("<ul").toList) ++
          ('>' :: (pyLower (bullets_html e.bullets) ++ (litULC ++ nl8))) := by
      simp only [List.append_assoc]
      rfl
    rw [hgroup]
    exact drop_prefix_eq _ _ _ (by rw [List.length_append])
  have hattr : attrRegionEnd
        ((pyLower (contentOf e)).drop ((pyLower (innerPre e)).length + ("<ul").toList.length))
        [] [] false = some 1 := by
    rw [hdropAttr]
    exact attrRegion_gt _ _ _
  have hfind2 : pyFindFrom (pyLower (contentOf e)) ("</ul>").toList
        ((pyLower (innerPre e)).length + ("<ul").toList.length + 1)
      = some ((pyLower (bullets_html e.bullets)).length +
          ((pyLower (innerPre e)).length + ("<ul").toList.length + 1)) := by
    unfold pyFindFrom
    have hdropCs : (pyLower (contentOf e)).drop
          ((pyLower (innerPre e)).length + ("<ul").toList.length + 1)
        = pyLower (bullets_html e.bullets) ++ (litULC ++ nl8) := by
      rw [hctx]
      have hgroup : pyLower (innerPre e) ++ (litUL ++ (pyLower (bullets_html e.bullets) ++
            (litULC ++ nl8)))
          = (pyLower (innerPre e) ++ litUL) ++
            (pyLower (bullets_html e.bullets) ++ (litULC ++ nl8)) := by
        simp only [List.append_assoc]
      rw [hgroup]
      exact drop_prefix_eq _ _ _ (by rw [List.length_append]; rfl)
    rw [hdropCs, strFind_append (pyLower (bullets_html e.bullets)) (litULC ++ nl8)
      (("</ul>").toList)
      (fun i hi => no_occ_bullets_ulC e.bullets hbul (litULC ++ nl8) rfl i hi),
      strFind_of_isPrefixOf (litULC ++ nl8) (("</ul>").toList)
      (by rw [List.isPrefixOf_iff_prefix]; exact List.prefix_append _ _)]
    simp
  have hsliceD : pySlice (contentOf e) 0 (pyLower (innerPre e)).length = innerPre e := by
    unfold pySlice
    rw [List.drop_zero, Nat.sub_zero, length_pyLower]
    show (innerPre e ++ (origUl e ++ nl8)).take (innerPre e).length = innerPre e
    exact List.take_left _ _
  have hdropEnd : (contentOf e).drop ((pyLower (bullets_html e.bullets)).length +
        ((pyLower (innerPre e)).length + ("<ul").toList.length + 1) +
        ("</ul>").toList.length)
      = nl8 := by
    have hgroup : contentOf e = (innerPre e ++ (litUL ++ (bullets_html e.bullets ++ litULC)))
        ++ nl8 := by
      simp only [contentOf, origUl, List.append_assoc]
    rw [hgroup]
    apply drop_prefix_eq
    simp only [List.length_append, length_pyLower, l3]
    rw [show ("</ul>").toList.length = 5 from by decide,
      show litUL.length = 4 from by decide,
      show litULC.length = 5 from by decide]
    omega
  have hfindNone : pyFindFrom (pyLower (contentOf e)) ("<ul").toList
        ((pyLower (bullets_html e.bullets)).length +
          ((pyLower (innerPre e)).length + ("<ul").toList.length + 1) +
          ("</ul>").toList.length)
      = none := by
    unfold pyFindFrom
    have hlowEnd : (pyLower (contentOf e)).drop ((pyLower (bullets_html e.bullets)).length +
          ((pyLower (innerPre e)).length + ("<ul").toList.length + 1) +
          ("</ul>").toList.length)
        = nl8 := by
      rw [low_drop, hdropEnd]
      rfl
    rw [hlowEnd, strFind_none_of_clean nl8 _ '<' (by decide) (by decide) (by decide)]
    rfl
  show replaceUlsGo (contentOf e) (pyLower (contentOf e)) repl 0 ((contentOf e).length + 2)
      = innerPre e ++ (repl ++ nl8)
  rw [show (contentOf e).length + 2 = ((contentOf e).length + 1) + 1 from rfl]
  unfold replaceUlsGo
  simp only [hfind1, hattr, hfind2]
  rw [hsliceD]
  unfold replaceUlsGo
  simp only [hfindNone]
  rw [hdropEnd]
  simp [List.append_assoc]

/-- The rendered flat document with the `i`-th block's captured content
replaced by an arbitrary string (the shape the updater reconstructs). -/
def renderUpdWith : List WorkExperience → Nat → Str → Str
  | [], _, _ => []
  | _ :: rest, 0, u =>
    (nl8 ++ (articleOpen ++ (u ++ (closeArticle ++ nl8)))) ++ glueRest rest
  | e :: rest, i + 1, u =>
    exp_article_html e ++
      (match rest with
        | [] => []
        | r :: t => '\n' :: renderUpdWith (r :: t) i u)

set_option maxHeartbeats 1600000 in
/-- The document reconstruction of the updater around the `i`-th candidate
is exactly the render with that block's content replaced. -/
theorem upd_assemble (D : Str) :
    ∀ (bs : List WorkExperience) (i base : Nat),
      D.drop base = flatTailStr bs →
      i < bs.length →
      ∀ entry, (articleCandsOf bs base)[i]? = some entry →
        (∃ e, bs[i]? = some e ∧ entry.content = contentOf e) ∧
        entry.opening_tag = articleOpen ∧
        entry.type = ("article").toList ∧
        ∀ u, D.take entry.start ++ entry.opening_tag ++ u ++ ("</article>").toList ++
            D.drop entry.end_idx
          = D.take base ++ renderUpdWith bs i u := by
  intro bs
  induction bs with
  | nil =>
    intro i base hD hi
    simp at hi
  | cons e rest ih =>
    intro i base hD hi entry hentry
    have hDd : D.drop base = nl8 ++ (articleOpen ++ (contentOf e ++
        (closeArticle ++ (nl8 ++ glueRest rest)))) := by
      rw [hD, flatTailStr_cons, block_ctx]
    cases i with
    | zero =>
      have hent : entry = { type := ("article").toList, start := base + 9,
                            content_start := base + 32,
                            content_end := base + 32 + (contentOf e).length,
                            end_idx := base + 42 + (contentOf e).length,
                            opening_tag := articleOpen, content := contentOf e } := by
        rw [show articleCandsOf (e :: rest) base
            = { type := ("article").toList, start := base + 9,
                content_start := base + 32,
                content_end := base + 32 + (contentOf e).length,
                end_idx := base + 42 + (contentOf e).length,
                opening_tag := articleOpen, content := contentOf e }
              :: articleCandsOf rest (base + 52 + (contentOf e).length) from rfl,
          List.getElem?_cons_zero] at hentry
        exact (Option.some_inj.mp hentry).symm
      subst hent
      refine ⟨⟨e, List.getElem?_cons_zero, rfl⟩, rfl, rfl, ?_⟩
      intro u
      have htake : D.take (base + 9) = D.take base ++ nl8 := by
        rw [List.take_add D base 9, hDd,
          show (9 : Nat) = nl8.length from by decide, List.take_left]
      have hdrop : D.drop (base + 42 + (contentOf e).length) = nl8 ++ glueRest rest := by
        have h1 : D.drop (base + 42 + (contentOf e).length)
            = (D.drop base).drop (42 + (contentOf e).length) := by
          rw [List.drop_drop]
          congr 1
          omega
        rw [h1, hDd]
        have hgroup : nl8 ++ (articleOpen ++ (contentOf e ++
              (closeArticle ++ (nl8 ++ glueRest rest))))
            = (nl8 ++ (articleOpen ++ (contentOf e ++ closeArticle))) ++
              (nl8 ++ glueRest rest) := by
          simp only [List.append_assoc]
        rw [hgroup]
        apply drop_prefix_eq
        simp only [List.length_append]
        rw [show nl8.length = 9 from by decide,
          show articleOpen.length = 23 from by decide,
          show closeArticle.length = 10 from by decide]
        omega
      show D.take (base + 9) ++ articleOpen ++ u ++ ("</article>").toList ++
          D.drop (base + 42 + (contentOf e).length) = _
      rw [htake, hdrop, show ("</article>").toList = closeArticle from rfl]
      show _ = D.take base ++ ((nl8 ++ (articleOpen ++ (u ++ (closeArticle ++ nl8))))
        ++ glueRest rest)
      simp [List.append_assoc]
    | succ j =>
      cases rest with
      | nil => simp at hi
      | cons r t =>
        have hentry2 : (articleCandsOf (r :: t) (base + 52 + (contentOf e).length))[j]?
            = some entry := by
          rw [show articleCandsOf (e :: r :: t) base
              = { type := ("article").toList, start := base + 9,
                  content_start := base + 32,
                  content_end := base + 32 + (contentOf e).length,
                  end_idx := base + 42 + (contentOf e).length,
                  opening_tag := articleOpen, content := contentOf e }
                :: articleCandsOf (r :: t) (base + 52 + (contentOf e).length) from rfl,
            List.getElem?_cons_succ] at hentry
          exact hentry
        have hblockLen : (exp_article_html e).length = (contentOf e).length + 51 := by
          have := congrArg List.length (block_ctx e [])
          simp only [List.append_nil, List.length_append] at this
          rw [show nl8.length = 9 from by decide,
            show articleOpen.length = 23 from by decide,
            show closeArticle.length = 10 from by decide] at this
          omega
        have hDnext : D.drop (base + 52 + (contentOf e).length) = flatTailStr (r :: t) := by
          have h1 : D.drop (base + 52 + (contentOf e).length)
              = (D.drop base).drop (52 + (contentOf e).length) := by
            rw [show base + 52 + (contentOf e).length
                = 52 + (contentOf e).length + base from by omega, ← List.drop_drop,
              List.drop_drop, List.drop_drop, Nat.add_comm]
          rw [h1, hD, flatTailStr_cons]
          have hgr : glueRest (r :: t) = '\n' :: flatTailStr (r :: t) := rfl
          rw [hgr]
          have hgroup : exp_article_html e ++ ('\n' :: flatTailStr (r :: t))
              = (exp_article_html e ++ ['\n']) ++ flatTailStr (r :: t) := by
            simp
          rw [hgroup]
          apply drop_prefix_eq
          simp only [List.length_append, hblockLen, List.length_cons, List.length_nil]
          omega
        obtain ⟨hex, hop, hty, hass⟩ := ih j (base + 52 + (contentOf e).length) hDnext
          (by simp at hi ⊢; omega) entry hentry2
        refine ⟨?_, hop, hty, ?_⟩
        · obtain ⟨x, hx1, hx2⟩ := hex
          exact ⟨x, by rw [List.getElem?_cons_succ]; exact hx1, hx2⟩
        · intro u
          rw [hass u]
          have htake2 : D.take (base + 52 + (contentOf e).length)
              = D.take base ++ (exp_article_html e ++ ['\n']) := by
            have h2 : base + 52 + (contentOf e).length
                = base + (52 + (contentOf e).length) := by omega
            rw [h2, List.take_add D base (52 + (contentOf e).length), hD, flatTailStr_cons]
            have hgr : glueRest (r :: t) = '\n' :: flatTailStr (r :: t) := rfl
            rw [hgr]
            have hgroup : exp_article_html e ++ ('\n' :: flatTailStr (r :: t))
                = (exp_article_html e ++ ['\n']) ++ flatTailStr (r :: t) := by
              simp
            rw [hgroup,
              show 52 + (contentOf e).length = (exp_article_html e ++ ['\n']).length from by
                simp only [List.length_append, hblockLen, List.length_cons, List.length_nil]
                omega,
              List.take_left]
          rw [htake2]
          show _ = D.take base ++ (exp_article_html e ++ ('\n' :: renderUpdWith (r :: t) j u))
          simp [List.append_assoc]

theorem articleCandsOf_length (bs : List WorkExperience) :
    ∀ b0, (articleCandsOf bs b0).length = bs.length := by
  induction bs with
  | nil => intro b0; rfl
  | cons e rest ih =>
    intro b0
    show (articleCandsOf rest _).length + 1 = rest.length + 1
    rw [ih]

/-- The replacement `<ul>` element the updater builds from the new bullet
list (after dropping whitespace-only bullets). -/
def updUl (nb : List Str) : Str :=
  ("<ul>\n                        ").toList ++
    joinSep ("\n                        ").toList
      ((nb.filter (fun b => pyStrip b ≠ [])).map
        (fun b => ("<li>").toList ++ b ++ ("</li>").toList)) ++
    ("\n                    </ul>").toList

/-- The updater on a rendered flat document with a valid index: the output
is the render with the `i`-th block's content replaced by the inner markup
followed by the rebuilt `<ul>` element. -/
theorem update_flat (bs : List WorkExperience) (hwf : ∀ e ∈ bs, WfExp e)
    (i : Nat) (e : WorkExperience) (hie : bs[i]? = some e) (nb : List Str) :
    update_experience_bullets_in_html (flatTailStr bs) i nb
      = renderUpdWith bs i (innerPre e ++ (updUl nb ++ nl8)) := by
  have hi : i < bs.length := by
    by_contra hni
    rw [List.getElem?_eq_none (Nat.le_of_not_lt hni)] at hie
    exact Option.noConfusion hie
  have hsec := flat_section_none bs hwf
  have hs : upd_search_html (flatTailStr bs) = flatTailStr bs := by
    unfold upd_search_html
    rw [hsec]
  have hall := upd_all_flat bs hwf
  have hilt : i < (articleCandsOf bs 0).length := by
    rw [articleCandsOf_length bs 0]
    exact hi
  obtain ⟨entry, hentry⟩ : ∃ entry, (articleCandsOf bs 0)[i]? = some entry :=
    ⟨(articleCandsOf bs 0)[i], List.getElem?_eq_getElem hilt⟩
  obtain ⟨⟨e2, he1, he2⟩, hop, hty, hass⟩ :=
    upd_assemble (flatTailStr bs) bs i 0 (by rw [List.drop_zero]) hi entry hentry
  have hee : e2 = e := Option.some_inj.mp (he1.symm.trans hie)
  subst hee
  have hwfe : WfExp e2 := hwf e2 (List.mem_iff_getElem?.mpr ⟨i, he1⟩)
  have hrepl : replace_uls entry.content
      (("<ul>\n                        ").toList ++
        joinSep ("\n                        ").toList
          ((nb.filter (fun b => pyStrip b ≠ [])).map
            (fun b => ("<li>").toList ++ b ++ ("</li>").toList)) ++
        ("\n                    </ul>").toList)
      = innerPre e2 ++ (updUl nb ++ nl8) := by
    rw [he2]
    exact replace_uls_content e2 hwfe (updUl nb)
  have hass2 := hass (innerPre e2 ++ (updUl nb ++ nl8))
  rw [List.take_zero, List.nil_append] at hass2
  unfold update_experience_bullets_in_html
  simp only [hsec, hs, hall, hentry, hrepl, hty, if_pos, List.nil_append, List.append_nil]
  exact hass2

/-! ### Whitespace-insensitive document comparison -/

/-- All whitespace characters deleted (two strings with equal `stripWs` are
equal up to whitespace-only formatting differences). -/
def stripWs (s : Str) : Str := s.filter (fun c => !isPySpace c)

theorem stripWs_append (a b : Str) : stripWs (a ++ b) = stripWs a ++ stripWs b :=
  List.filter_append a b

theorem stripWs_nl_cons (l : Str) : stripWs ('\n' :: l) = stripWs l := rfl

theorem stripWs_joinSep_ws (sep : Str) (hsep : stripWs sep = []) :
    ∀ l : List Str, stripWs (joinSep sep l) = stripWs (joinSep [] l) := by
  intro l
  induction l with
  | nil => rfl
  | cons a t ih =>
    cases t with
    | nil => rfl
    | cons b t2 =>
      show stripWs (a ++ sep ++ joinSep sep (b :: t2))
        = stripWs (a ++ [] ++ joinSep [] (b :: t2))
      simp only [stripWs_append, hsep, ih]
      simp [stripWs]

theorem renderUpdWith_succ (x r : WorkExperience) (t : List WorkExperience)
    (j : Nat) (u : Str) :
    renderUpdWith (x :: r :: t) (j + 1) u
      = exp_article_html x ++ ('\n' :: renderUpdWith (r :: t) j u) := rfl

/-- Replacing one block content by a string with the same non-whitespace
characters leaves the whole rendered document unchanged up to whitespace. -/
theorem stripWs_renderUpd (bs : List WorkExperience) :
    ∀ i u e, bs[i]? = some e → stripWs u = stripWs (contentOf e) →
      stripWs (renderUpdWith bs i u) = stripWs (flatTailStr bs) := by
  induction bs with
  | nil =>
    intro i u e hie _
    rw [List.getElem?_nil] at hie
    exact Option.noConfusion hie
  | cons x rest ih =>
    intro i u e hie hu
    cases i with
    | zero =>
      rw [List.getElem?_cons_zero] at hie
      have hx : x = e := Option.some_inj.mp hie
      subst hx
      rw [flatTailStr_cons, block_ctx]
      rw [show renderUpdWith (x :: rest) 0 u
          = (nl8 ++ (articleOpen ++ (u ++ (closeArticle ++ nl8)))) ++ glueRest rest from rfl]
      simp only [stripWs_append, hu]
      simp [List.append_assoc]
    | succ j =>
      cases rest with
      | nil =>
        rw [List.getElem?_cons_succ, List.getElem?_nil] at hie
        exact Option.noConfusion hie
      | cons r t =>
        rw [List.getElem?_cons_succ] at hie
        have hih := ih j u e hie hu
        rw [renderUpdWith_succ, flatTailStr_cons,
          show glueRest (r :: t) = '\n' :: flatTailStr (r :: t) from rfl]
        simp only [stripWs_append, stripWs_nl_cons, hih]

/-! ### Transfer along `sorted_exps` -/

theorem mem_insertByKey {α : Type} (lt : α → α → Bool) (x : α) :
    ∀ (l : List α) (y : α), y ∈ insertByKey lt x l → y = x ∨ y ∈ l := by
  intro l
  induction l with
  | nil =>
    intro y hy
    simp [insertByKey] at hy
    exact Or.inl hy
  | cons a t ih =>
    intro y hy
    unfold insertByKey at hy
    by_cases h : lt a x = true
    · rw [if_pos h] at hy
      rcases List.mem_cons.mp hy with h1 | h2
      · exact Or.inr (List.mem_cons.mpr (Or.inl h1))
      · rcases ih y h2 with h3 | h4
        · exact Or.inl h3
        · exact Or.inr (List.mem_cons.mpr (Or.inr h4))
    · rw [if_neg h] at hy
      rcases List.mem_cons.mp hy with h1 | h2
      · exact Or.inl h1
      · exact Or.inr h2

theorem mem_pySortBy {α : Type} (lt : α → α → Bool) (l : List α) (y : α)
    (hy : y ∈ pySortBy lt l) : y ∈ l := by
  revert hy
  induction l with
  | nil =>
    intro hy
    exact absurd hy (by simp [pySortBy])
  | cons a t ih =>
    intro hy
    have h0 : pySortBy lt (a :: t) = insertByKey lt a (pySortBy lt t) := rfl
    rw [h0] at hy
    rcases mem_insertByKey lt a (pySortBy lt t) y hy with h1 | h2
    · exact List.mem_cons.mpr (Or.inl h1)
    · exact List.mem_cons.mpr (Or.inr (ih h2))

theorem length_insertByKey {α : Type} (lt : α → α → Bool) (x : α) :
    ∀ l : List α, (insertByKey lt x l).length = l.length + 1 := by
  intro l
  induction l with
  | nil => rfl
  | cons a t ih =>
    unfold insertByKey
    by_cases h : lt a x = true
    · rw [if_pos h]
      simp [ih]
    · rw [if_neg h]
      rfl

theorem length_pySortBy {α : Type} (lt : α → α → Bool) :
    ∀ l : List α, (pySortBy lt l).length = l.length := by
  intro l
  induction l with
  | nil => rfl
  | cons a t ih =>
    show (insertByKey lt a (pySortBy lt t)).length = t.length + 1
    rw [length_insertByKey, ih]

theorem sorted_exps_mem (l : List WorkExperience) (e : WorkExperience)
    (he : e ∈ sorted_exps l) : e ∈ l := by
  unfold sorted_exps at he
  exact mem_pySortBy _ l e (List.mem_reverse.mp he)

theorem sorted_exps_length (l : List WorkExperience) :
    (sorted_exps l).length = l.length := by
  unfold sorted_exps
  rw [List.length_reverse, length_pySortBy]

/-- On a nonempty record list the flat renderer produces exactly the joined
block train over the sorted entries. -/
theorem format_flat (experiences : List WorkExperience) (hne : experiences ≠ []) :
    _format_experience_html experiences = flatTailStr (sorted_exps experiences) := by
  cases experiences with
  | nil => exact absurd rfl hne
  | cons a t =>
    unfold _format_experience_html
    rw [show (a :: t).isEmpty = false from rfl]
    simp only [Bool.false_eq_true, if_false]
    exact flatTailStr_eq_join _

/-- The rebuilt `<ul>` element of the updater has the same non-whitespace
characters as the originally rendered one. -/
theorem stripWs_updUl (bl : List Str) (hb : ∀ b ∈ bl, WfBullet b) :
    stripWs (updUl bl) = stripWs (litUL ++ (bullets_html bl ++ litULC)) := by
  unfold updUl
  rw [filter_strip_id bl hb]
  simp only [stripWs_append]
  rw [stripWs_joinSep_ws ("\n                        ").toList (by decide)]
  rw [show stripWs (("<ul>\n                        ").toList) = stripWs litUL from by decide,
    show stripWs (("\n                    </ul>").toList) = stripWs litULC from by decide]
  rw [show bullets_html bl
      = joinSep [] (bl.map (fun b => ("<li>").toList ++ b ++ ("</li>").toList)) from rfl]
  simp [List.append_assoc]

theorem stripWs_updated_content (e : WorkExperience) (hwfe : WfExp e) :
    stripWs (innerPre e ++ (updUl e.bullets ++ nl8)) = stripWs (contentOf e) := by
  rw [show contentOf e = innerPre e ++ (origUl e ++ nl8) from rfl,
    show origUl e = litUL ++ (bullets_html e.bullets ++ litULC) from rfl]
  simp only [stripWs_append, stripWs_updUl e.bullets hwfe.2.2.2.2.2.2]

/-! ### C1 and C3 -/

def c1_doc : Str :=
  ("<article class=\"entry\"><ul><li><b>X</b></li></ul></article>").toList

def c1e : WorkExperience :=
  { company := ("C").toList, role := ("R").toList, start_date := ("S").toList,
    end_date := ("E").toList, location := ("L").toList, created_at := ("1").toList,
    bullets := [("B").toList], is_current := true }

def c1_exps : List WorkExperience := [c1e]

def c1_ex : ExtractedExp :=
  { index := 0, title := ("R").toList, company := ("C").toList,
    bullets := [("B").toList], raw_html := contentOf c1e,
    type := ("article").toList }

/-- C1, counterexample: on the document
`<article class="entry"><ul><li><b>X</b></li></ul></article>` extraction
yields the single bullet list `["X"]` (the `<b>` markup is stripped), and
updating entry 0 with exactly those extracted bullets produces a document
that differs from the original by more than whitespace — the rewritten
list element loses the `<b>` tags — refuting the claimed round-trip
identity for arbitrary documents. -/
theorem C1_counterexample :
    ((extract_experiences_from_html c1_doc).map (fun x => x.bullets)) = [[("X").toList]] ∧
    stripWs (update_experience_bullets_in_html c1_doc 0 [("X").toList]) ≠ stripWs c1_doc := by
  decide

/-- C1, amended: the round-trip identity holds on the documents the
application itself renders.  For a nonempty record list whose entries have
markup-free text fields (no `<`, no `role-entry` token) and nonempty
stripped markup-free bullets, extraction from
`_format_experience_html experiences` at any valid index `i` returns
exactly the `i`-th sorted record's bullet list, and re-updating index `i`
with those extracted bullets yields a document equal to the original up to
whitespace (equal after deleting every whitespace character; the rewritten
`<ul>` element differs only in indentation).  The bullets are additionally
required to be free of the backslash character: the updater passes them
inside the replacement string of `re.sub`, which processes backslash
escapes there (invalid ones raise, `\t`/`\n` are rewritten), while the
embedding splices the replacement literally — the two coincide exactly on
backslash-free replacements, and the fixed literal part of the
replacement contains no backslash. -/
theorem C1_amended_theorem (experiences : List WorkExperience)
    (hne : experiences ≠ [])
    (hwf : ∀ e ∈ experiences, WfExp e)
    (hnb : ∀ e ∈ experiences, ∀ b ∈ e.bullets, ∀ c ∈ b, c ≠ '\\')
    (i : Nat) (ex : ExtractedExp)
    (hex : (extract_experiences_from_html (_format_experience_html experiences))[i]?
      = some ex) :
    (∃ e, (sorted_exps experiences)[i]? = some e ∧ ex.bullets = e.bullets) ∧
    stripWs (update_experience_bullets_in_html (_format_experience_html experiences)
        i ex.bullets)
      = stripWs (_format_experience_html experiences) := by
  have hwfs : ∀ e ∈ sorted_exps experiences, WfExp e :=
    fun e he => hwf e (sorted_exps_mem experiences e he)
  have hbne : sorted_exps experiences ≠ [] := by
    intro hnil
    have hlen := sorted_exps_length experiences
    rw [hnil] at hlen
    cases experiences with
    | nil => exact hne rfl
    | cons a t => simp at hlen
  have hfmt := format_flat experiences hne
  rw [hfmt] at hex
  rw [extract_flat (sorted_exps experiences) hwfs hbne] at hex
  have hmk := mk_entries_flat (sorted_exps experiences) hwfs 0
  have h1 : (((mk_article_entries ((sorted_exps experiences).map contentOf) 0).map
      (fun x => x.bullets)))[i]? = some ex.bullets := by
    rw [List.getElem?_map, hex]
    rfl
  rw [hmk.2.1, List.getElem?_map] at h1
  obtain ⟨e, hie, hbe⟩ := Option.map_eq_some'.mp h1
  refine ⟨⟨e, hie, hbe.symm⟩, ?_⟩
  rw [hfmt, update_flat (sorted_exps experiences) hwfs i e hie ex.bullets]
  have hwfe : WfExp e := hwfs e (List.mem_iff_getElem?.mpr ⟨i, hie⟩)
  have hu : stripWs (innerPre e ++ (updUl ex.bullets ++ nl8)) = stripWs (contentOf e) := by
    rw [← hbe]
    exact stripWs_updated_content e hwfe
  exact stripWs_renderUpd (sorted_exps experiences) i
    (innerPre e ++ (updUl ex.bullets ++ nl8)) e hie hu

/-- Witness for the amended C1 at a concrete one-entry record. -/
theorem C1_amended_witness :
    (∃ e, (sorted_exps c1_exps)[0]? = some e ∧ c1_ex.bullets = e.bullets) ∧
    stripWs (update_experience_bullets_in_html (_format_experience_html c1_exps)
        0 c1_ex.bullets)
      = stripWs (_format_experience_html c1_exps) :=
  C1_amended_theorem c1_exps (by decide) (by decide) (by decide) 0 c1_ex (by decide)

def c3_doc : Str :=
  ("<div class=\"role-entry\"><ul><li>r</li></ul></div><article class=\"entry\"><ul><li>a</li></ul></article>").toList

def c3_exps : List WorkExperience :=
  [{ company := ("C2").toList, role := ("R2").toList, start_date := ("S2").toList,
     end_date := ("E2").toList, location := ("L2").toList, created_at := ("2").toList,
     bullets := [("B2").toList], is_current := false }]

/-- C3, counterexample: on a document holding a grouped role block before a
flat article block the updater's candidate 0 (candidates sorted by document
position: the role `div`) captures different content than the extractor's
entry 0 (all article-strategy entries listed before all role-strategy
entries: the `article`), refuting index agreement for arbitrary
documents. -/
theorem C3_counterexample :
    ((upd_all_entries (upd_search_html c3_doc)).map (fun c => c.content))[0]?
      ≠ ((extract_experiences_from_html c3_doc).map (fun x => x.raw_html))[0]? := by
  decide

/-- C3, amended: extractor/updater index agreement holds on the flat
rendered documents the application produces (and more generally whenever
every candidate block is a flat `article` block, or every one is a grouped
role block — i.e. when position order and strategy order coincide).  On
`_format_experience_html experiences` with well-formed records, the
updater's position-sorted candidate contents agree index-by-index with the
extractor's captured block contents. -/
theorem C3_amended_theorem (experiences : List WorkExperience)
    (hne : experiences ≠ [])
    (hwf : ∀ e ∈ experiences, WfExp e) :
    (upd_all_entries (upd_search_html (_format_experience_html experiences))).map
        (fun c => c.content)
      = (extract_experiences_from_html (_format_experience_html experiences)).map
        (fun x => x.raw_html) := by
  have hwfs : ∀ e ∈ sorted_exps experiences, WfExp e :=
    fun e he => hwf e (sorted_exps_mem experiences e he)
  have hbne : sorted_exps experiences ≠ [] := by
    intro hnil
    have hlen := sorted_exps_length experiences
    rw [hnil] at hlen
    cases experiences with
    | nil => exact hne rfl
    | cons a t => simp at hlen
  rw [format_flat experiences hne]
  have hs : upd_search_html (flatTailStr (sorted_exps experiences))
      = flatTailStr (sorted_exps experiences) := by
    unfold upd_search_html
    rw [flat_section_none _ hwfs]
  rw [hs, upd_all_flat _ hwfs, articleCandsOf_map_content,
    extract_flat _ hwfs hbne, (mk_entries_flat _ hwfs 0).2.2]

/-- Witness for the amended C3 at a concrete one-entry record. -/
theorem C3_amended_witness :
    (upd_all_entries (upd_search_html (_format_experience_html c3_exps))).map
        (fun c => c.content)
      = (extract_experiences_from_html (_format_experience_html c3_exps)).map
        (fun x => x.raw_html) :=
  C3_amended_theorem c3_exps (by decide) (by decide)

end CvCraft
